import Mathlib

/-!
# Wallet ledger (`pkg/wallet/service.go`, `pkg/types/types.go`)

A shallow embedding of the in-memory ledger service and of its flat-file codec.

* Go `int64` values, among them `types.Money` (`type Money int64`), are modelled as
  `Int`; every arithmetic operation of the source that can leave the 64-bit range is
  followed by `wrap64`.
* Go `string` values are modelled as Lean `String` (text as a list of characters).
* The slices of pointers `[]*types.Account` etc. are modelled as lists of values; a
  mutation through the pointer found by a linear scan is `modifyFirst` (the first
  matching element is rewritten in place).  No pointer occurs twice in a slice, since
  every append of the source appends a freshly allocated record.
* `uuid.New().String()` is an argument of the operations that call it.
* An operation returns its Go result together with the store it leaves behind.
-/

namespace Wallet

/-! ## Types (`pkg/types/types.go`) -/

/-- Reduction of an integer into the signed 64-bit range (two's complement wraparound). -/
def wrap64 (x : Int) : Int :=
  (x + 9223372036854775808) % 18446744073709551616 - 9223372036854775808

/-- The values of the Go type `int64`. -/
def isInt64 (x : Int) : Prop :=
  -9223372036854775808 ≤ x ∧ x ≤ 9223372036854775807

instance (x : Int) : Decidable (isInt64 x) := by
  unfold isInt64; infer_instance

/-- Status tag `PaymentStatusOK`. -/
def PaymentStatusOK : String := "OK"

/-- Status tag `PaymentStatusFail`. -/
def PaymentStatusFail : String := "FAIL"

/-- Status tag `PaymentStatusInProgress`. -/
def PaymentStatusInProgress : String := "INPROGRESS"

/-- Record `types.Payment`; `PaymentCategory` and `PaymentStatus` are string types. -/
structure Payment where
  ID : String
  AccountID : Int
  Amount : Int
  Category : String
  Status : String
  deriving DecidableEq, Repr

/-- Record `types.Favorite`. -/
structure Favorite where
  ID : String
  AccountID : Int
  Name : String
  Amount : Int
  Category : String
  deriving DecidableEq, Repr

/-- Record `types.Account`; `Phone` is a string type. -/
structure Account where
  ID : Int
  Phone : String
  Balance : Int
  deriving DecidableEq, Repr

/-! ## Service state and errors (`pkg/wallet/service.go`) -/

/-- The error values declared at the top of `service.go`. -/
inductive Error where
  | ErrPhoneRegistered
  | ErrAmountMustBePositive
  | ErrAccountNotFound
  | ErrPaymentNotFound
  | ErrFavoriteNotFound
  | ErrNotEnoughBalance
  deriving DecidableEq, Repr

deriving instance DecidableEq for Except

/-- The struct `Service`. -/
structure Service where
  nextAccountID : Int
  accounts : List Account
  payments : List Payment
  favorites : List Favorite
  deriving DecidableEq, Repr

/-- The zero value `&Service{}` the tests start from. -/
def emptyService : Service :=
  { nextAccountID := 0, accounts := [], payments := [], favorites := [] }

/-- Mutation through the pointer to the first element satisfying `p`. -/
def modifyFirst {α : Type} (p : α → Bool) (f : α → α) : List α → List α
  | [] => []
  | x :: xs => if p x then f x :: xs else x :: modifyFirst p f xs

/-- Method `RegisterAccount`. -/
def RegisterAccount (s : Service) (phone : String) : Except Error Account × Service :=
  if s.accounts.any (fun accounts => accounts.Phone == phone) then
    (.error .ErrPhoneRegistered, s)
  else
    let next := wrap64 (s.nextAccountID + 1)
    let account : Account := { ID := next, Phone := phone, Balance := 0 }
    (.ok account, { s with nextAccountID := next, accounts := s.accounts ++ [account] })

/-- Method `Deposit` (value receiver: the balance is written through the account
pointer, so the store of the caller sees it). -/
def Deposit (s : Service) (accountID : Int) (amount : Int) : Option Error × Service :=
  if amount < 0 then
    (some .ErrAmountMustBePositive, s)
  else
    match s.accounts.find? (fun acc => acc.ID == accountID) with
    | none => (some .ErrAccountNotFound, s)
    | some _ =>
      let accounts :=
        modifyFirst (fun acc => acc.ID == accountID)
          (fun account => { account with Balance := wrap64 (account.Balance + amount) })
          s.accounts
      (none, { s with accounts := accounts })

/-- Method `Pay`; `paymentID` is the value of `uuid.New().String()`. -/
def Pay (s : Service) (paymentID : String) (accountID : Int) (amount : Int)
    (category : String) : Except Error Payment × Service :=
  if amount < 0 then
    (.error .ErrAmountMustBePositive, s)
  else
    match s.accounts.find? (fun acc => accountID == acc.ID) with
    | none => (.error .ErrAccountNotFound, s)
    | some account =>
      if account.Balance < amount then
        (.error .ErrNotEnoughBalance, s)
      else
        let payment : Payment :=
          { ID := paymentID, AccountID := accountID, Amount := amount,
            Category := category, Status := PaymentStatusInProgress }
        let accounts :=
          modifyFirst (fun acc => accountID == acc.ID)
            (fun account => { account with Balance := wrap64 (account.Balance - amount) })
            s.accounts
        (.ok payment, { s with accounts := accounts, payments := s.payments ++ [payment] })

/-- Method `FindAccountByID`. -/
def FindAccountByID (s : Service) (accountID : Int) : Except Error Account :=
  match s.accounts.find? (fun acc => acc.ID == accountID) with
  | none => .error .ErrAccountNotFound
  | some account => .ok account

/-- Method `FindPaymentByID`. -/
def FindPaymentByID (s : Service) (paymentID : String) : Except Error Payment :=
  match s.payments.find? (fun pay => pay.ID == paymentID) with
  | none => .error .ErrPaymentNotFound
  | some payment => .ok payment

/-- Method `FindFavoriteByID`. -/
def FindFavoriteByID (s : Service) (favoriteID : String) : Except Error Favorite :=
  match s.favorites.find? (fun fav => fav.ID == favoriteID) with
  | none => .error .ErrFavoriteNotFound
  | some favorite => .ok favorite

/-- Method `Reject`: the status is written before the owning account is looked up. -/
def Reject (s : Service) (paymentID : String) : Option Error × Service :=
  match FindPaymentByID s paymentID with
  | .error err => (some err, s)
  | .ok payment =>
    let payments :=
      modifyFirst (fun pay => pay.ID == paymentID)
        (fun pay => { pay with Status := PaymentStatusFail }) s.payments
    let s1 : Service := { s with payments := payments }
    match FindAccountByID s1 payment.AccountID with
    | .error err => (some err, s1)
    | .ok _ =>
      let accounts :=
        modifyFirst (fun acc => acc.ID == payment.AccountID)
          (fun account => { account with Balance := wrap64 (account.Balance + payment.Amount) })
          s1.accounts
      (none, { s1 with accounts := accounts })

/-- Method `Repeat`; `newID` is the identifier `Pay` draws. -/
def Repeat (s : Service) (newID : String) (paymentID : String) : Except Error Payment × Service :=
  match FindPaymentByID s paymentID with
  | .error err => (.error err, s)
  | .ok currentPayment =>
    match Pay s newID currentPayment.AccountID currentPayment.Amount currentPayment.Category with
    | (.error err, s1) => (.error err, s1)
    | (.ok newPayment, s1) => (.ok newPayment, s1)

/-- Method `FavoritePayment`; `favoriteID` is the value of `uuid.New().String()`. -/
def FavoritePayment (s : Service) (favoriteID : String) (paymentID : String) (name : String) :
    Except Error Favorite × Service :=
  match FindPaymentByID s paymentID with
  | .error err => (.error err, s)
  | .ok payment =>
    let result : Favorite :=
      { ID := favoriteID, AccountID := payment.AccountID, Name := name,
        Amount := payment.Amount, Category := payment.Category }
    (.ok result, { s with favorites := s.favorites ++ [result] })

/-- Method `PayFromFavorite`; `newID` is the identifier `Pay` draws. -/
def PayFromFavorite (s : Service) (newID : String) (favoriteID : String) :
    Except Error Payment × Service :=
  match FindFavoriteByID s favoriteID with
  | .error err => (.error err, s)
  | .ok favorite =>
    match Pay s newID favorite.AccountID favorite.Amount favorite.Category with
    | (.error err, s1) => (.error err, s1)
    | (.ok payment, s1) => (.ok payment, s1)

/-! ## Go standard library functions used by the codec

`strings.Split`, `strconv.FormatInt` and `strconv.ParseInt` belong to the Go standard
library; they are modelled after their documented behaviour, on lists of characters. -/

/-- Prepend a character to the first piece of a split. -/
def consHead (c : Char) : List (List Char) → List (List Char)
  | [] => [[c]]
  | h :: t => (c :: h) :: t

/-- Scan for non-overlapping occurrences of a non-empty separator, left to right;
the first argument counts the characters of a matched separator still to be skipped. -/
def splitGo (sep : List Char) : Nat → List Char → List (List Char)
  | _, [] => [[]]
  | k + 1, _ :: rest => splitGo sep k rest
  | 0, c :: rest =>
    if sep.isPrefixOf (c :: rest) then [] :: splitGo sep (sep.length - 1) rest
    else consHead c (splitGo sep 0 rest)

/-- Go `strings.Split(s, sep)`: the pieces between the occurrences of `sep`; an empty
separator splits after every character. -/
def Split (s sep : String) : List String :=
  if sep.data = [] then s.data.map (fun c => String.mk [c])
  else (splitGo sep.data 0 s.data).map String.mk

/-- The decimal digit character of a number below ten. -/
def digitChar (d : Nat) : Char := Char.ofNat (48 + d)

/-- Decimal digits of `n`, most significant first, in front of `acc`. -/
def formatBits : Nat → Nat → List Char → List Char
  | 0, _, acc => acc
  | fuel + 1, n, acc =>
    if n < 10 then digitChar n :: acc
    else formatBits fuel (n / 10) (digitChar (n % 10) :: acc)

/-- Go `strconv.FormatInt(i, 10)`. -/
def FormatInt (i : Int) : String :=
  if i < 0 then String.mk ('-' :: formatBits (i.natAbs + 1) i.natAbs [])
  else String.mk (formatBits (i.natAbs + 1) i.natAbs [])

/-- The two error kinds of `strconv.NumError`. -/
inductive NumError where
  | ErrSyntax
  | ErrRange
  deriving DecidableEq, Repr

/-- Digit value of a character as `strconv.ParseUint` computes it: decimal digits, then
letters of either case counted from ten. -/
def digitVal (c : Char) : Option Nat :=
  if 48 ≤ c.toNat ∧ c.toNat ≤ 57 then some (c.toNat - 48)
  else if 97 ≤ (c.toNat ||| 32) ∧ (c.toNat ||| 32) ≤ 122 then some ((c.toNat ||| 32) - 97 + 10)
  else none

/-- The digit loop of `strconv.ParseUint(s, 10, 64)`, with the value read so far. -/
def parseUintLoop : List Char → Nat → Nat × Option NumError
  | [], n => (n, none)
  | c :: cs, n =>
    match digitVal c with
    | none => (0, some .ErrSyntax)
    | some d =>
      if d ≥ 10 then (0, some .ErrSyntax)
      else if n ≥ 1844674407370955162 then (18446744073709551615, some .ErrRange)
      else
        let n10 := n * 10
        let n1 := (n10 + d) % 18446744073709551616
        if n1 < n10 ∨ n1 > 18446744073709551615 then (18446744073709551615, some .ErrRange)
        else parseUintLoop cs n1

/-- Go `strconv.ParseUint(s, 10, 64)`. -/
def ParseUint (s : List Char) : Nat × Option NumError :=
  if s = [] then (0, some .ErrSyntax) else parseUintLoop s 0

/-- Go `strconv.ParseInt(s, 10, 64)`: the value and the error. -/
def ParseInt (s : String) : Int × Option NumError :=
  match s.data with
  | [] => (0, some .ErrSyntax)
  | c :: cs =>
    let neg := c == '-'
    let body := if c == '+' || c == '-' then cs else c :: cs
    match ParseUint body with
    | (_, some .ErrSyntax) => (0, some .ErrSyntax)
    | (un, _) =>
      if !neg && un ≥ 9223372036854775808 then (9223372036854775807, some .ErrRange)
      else if neg && un > 9223372036854775808 then (-9223372036854775808, some .ErrRange)
      else (if neg then -(un : Int) else (un : Int), none)

/-! ## Flat-file codec (`pkg/wallet/service.go`) -/

/-- Method `ExportAccountsToString`. -/
def ExportAccountsToString (s : Service) (sep1 sep2 : String) : String :=
  s.accounts.foldl
    (fun str account =>
      str ++ (FormatInt account.ID ++ sep1) ++ (account.Phone ++ sep1)
        ++ FormatInt account.Balance ++ sep2)
    ""

/-- Method `ExportPaymentsToString`. -/
def ExportPaymentsToString (s : Service) (sep1 sep2 : String) : String :=
  s.payments.foldl
    (fun str payment =>
      str ++ (payment.ID ++ sep1) ++ (FormatInt payment.AccountID ++ sep1)
        ++ (FormatInt payment.Amount ++ sep1) ++ (payment.Category ++ sep1)
        ++ (payment.Status ++ sep1) ++ sep2)
    ""

/-- Method `ExportFavoritesToString`. -/
def ExportFavoritesToString (s : Service) (sep1 sep2 : String) : String :=
  s.favorites.foldl
    (fun str favorite =>
      str ++ (favorite.ID ++ sep1) ++ (FormatInt favorite.AccountID ++ sep1)
        ++ (favorite.Name ++ sep1) ++ (FormatInt favorite.Amount ++ sep1)
        ++ (favorite.Category ++ sep1) ++ sep2)
    ""

/-- Decoding of one account chunk: skipped when it has fewer than three fields. -/
def decodeAccount (fields : List String) : Option Account :=
  match fields with
  | f0 :: f1 :: f2 :: _ =>
    some { ID := (ParseInt f0).1, Phone := f1, Balance := (ParseInt f2).1 }
  | _ => none

/-- Decoding of one payment chunk: skipped when it has fewer than five fields. -/
def decodePayment (fields : List String) : Option Payment :=
  match fields with
  | f0 :: f1 :: f2 :: f3 :: f4 :: _ =>
    some { ID := f0, AccountID := (ParseInt f1).1, Amount := (ParseInt f2).1,
           Category := f3, Status := f4 }
  | _ => none

/-- Decoding of one favorite chunk: skipped when it has fewer than five fields. -/
def decodeFavorite (fields : List String) : Option Favorite :=
  match fields with
  | f0 :: f1 :: f2 :: f3 :: f4 :: _ =>
    some { ID := f0, AccountID := (ParseInt f1).1, Name := f2, Amount := (ParseInt f3).1,
           Category := f4 }
  | _ => none

/-- Function `ImportAccounts`; the first argument is the content of the file, `none`
when the file does not exist. -/
def ImportAccounts (file : Option String) (sep1 sep2 : String) : List Account :=
  match file with
  | none => []
  | some content =>
    (Split content sep2).filterMap (fun accountDt => decodeAccount (Split accountDt sep1))

/-- Function `ImportPayments`. -/
def ImportPayments (file : Option String) (sep1 sep2 : String) : List Payment :=
  match file with
  | none => []
  | some content =>
    (Split content sep2).filterMap (fun paymentDt => decodePayment (Split paymentDt sep1))

/-- Function `ImportFavorites`. -/
def ImportFavorites (file : Option String) (sep1 sep2 : String) : List Favorite :=
  match file with
  | none => []
  | some content =>
    (Split content sep2).filterMap (fun favoriteDt => decodeFavorite (Split favoriteDt sep1))

/-- The three files of an export directory: `accounts.dump`, `payments.dump` and
`favorites.dump`, each `none` when the file does not exist. -/
structure Dir where
  accounts : Option String
  payments : Option String
  favorites : Option String
  deriving DecidableEq, Repr

/-- A directory holding none of the three files. -/
def emptyDir : Dir := { accounts := none, payments := none, favorites := none }

/-- Method `Export`: a file is written only when its collection is not empty. -/
def Export (s : Service) (dir : Dir) : Dir :=
  let d1 : Dir :=
    if s.accounts.length ≠ 0 then { dir with accounts := some (ExportAccountsToString s ";" "\n") }
    else dir
  let d2 : Dir :=
    if s.payments.length ≠ 0 then { d1 with payments := some (ExportPaymentsToString s ";" "\n") }
    else d1
  if s.favorites.length ≠ 0 then { d2 with favorites := some (ExportFavoritesToString s ";" "\n") }
  else d2

/-- Body of the first loop of `Import`: merge one decoded account by ID. -/
def importAccount (s : Service) (acc : Account) : Service :=
  match FindAccountByID s acc.ID with
  | .error _ =>
    { s with accounts := s.accounts ++ [acc], nextAccountID := wrap64 (s.nextAccountID + 1) }
  | .ok _ =>
    let accounts :=
      modifyFirst (fun a => a.ID == acc.ID)
        (fun existAcc => { existAcc with Balance := acc.Balance, Phone := acc.Phone })
        s.accounts
    { s with accounts := accounts }

/-- Body of the second loop of `Import`: merge one decoded payment by ID. -/
def importPayment (s : Service) (pay : Payment) : Service :=
  match FindPaymentByID s pay.ID with
  | .error _ => { s with payments := s.payments ++ [pay] }
  | .ok _ =>
    let payments :=
      modifyFirst (fun p => p.ID == pay.ID)
        (fun existPay => { existPay with AccountID := pay.AccountID, Amount := pay.Amount,
                                         Category := pay.Category, Status := pay.Status })
        s.payments
    { s with payments := payments }

/-- Body of the third loop of `Import`: merge one decoded favorite by ID. -/
def importFavorite (s : Service) (fav : Favorite) : Service :=
  match FindFavoriteByID s fav.ID with
  | .error _ => { s with favorites := s.favorites ++ [fav] }
  | .ok _ =>
    let favorites :=
      modifyFirst (fun f => f.ID == fav.ID)
        (fun existFav => { existFav with AccountID := fav.AccountID, Name := fav.Name,
                                         Amount := fav.Amount, Category := fav.Category })
        s.favorites
    { s with favorites := favorites }

/-- Method `Import` on a readable directory (file-system errors are not modelled). -/
def Import (s : Service) (dir : Dir) : Service :=
  let s1 := (ImportAccounts dir.accounts ";" "\n").foldl importAccount s
  let s2 := (ImportPayments dir.payments ";" "\n").foldl importPayment s1
  (ImportFavorites dir.favorites ";" "\n").foldl importFavorite s2

/-! ## Sequences of calls -/

/-- One call of the public interface, with the identifiers the generator hands out. -/
inductive Op where
  | registerAccount (phone : String)
  | deposit (accountID : Int) (amount : Int)
  | pay (uuid : String) (accountID : Int) (amount : Int) (category : String)
  | reject (paymentID : String)
  | repeatPayment (uuid : String) (paymentID : String)
  | favoritePayment (uuid : String) (paymentID : String) (name : String)
  | payFromFavorite (uuid : String) (favoriteID : String)
  | importDir (dir : Dir)
  deriving DecidableEq, Repr

/-- The store a call leaves behind, whether it succeeds or fails. -/
def step (s : Service) : Op → Service
  | .registerAccount phone => (RegisterAccount s phone).2
  | .deposit accountID amount => (Deposit s accountID amount).2
  | .pay uuid accountID amount category => (Pay s uuid accountID amount category).2
  | .reject paymentID => (Reject s paymentID).2
  | .repeatPayment uuid paymentID => (Repeat s uuid paymentID).2
  | .favoritePayment uuid paymentID name => (FavoritePayment s uuid paymentID name).2
  | .payFromFavorite uuid favoriteID => (PayFromFavorite s uuid favoriteID).2
  | .importDir dir => Import s dir

/-- The store after a finite sequence of calls. -/
def run (s : Service) (ops : List Op) : Service := ops.foldl step s

/-- Successive `RegisterAccount` calls, with the result of each call. -/
def registerAll (s : Service) : List String → List (Except Error Account) × Service
  | [] => ([], s)
  | phone :: rest =>
    let r := RegisterAccount s phone
    let rs := registerAll r.2 rest
    (r.1 :: rs.1, rs.2)

/-- The accounts returned by the successful calls of a sequence of results. -/
def successes : List (Except Error Account) → List Account
  | [] => []
  | .ok a :: rest => a :: successes rest
  | .error _ :: rest => successes rest

/-- Calls other than the directory import. -/
def Op.isImport : Op → Bool
  | .importDir _ => true
  | _ => false

/-! ## Legacy single-file format (`ExportToFile`, `ImportFromFile`) -/

/-- Method `ExportToFile`: the content written to the file (file-system errors are not
modelled). -/
def ExportToFile (s : Service) : String :=
  s.accounts.foldl
    (fun str account =>
      str ++ (FormatInt account.ID ++ ";") ++ (account.Phone ++ ";")
        ++ FormatInt account.Balance ++ "|")
    ""

/-- Body of the loop of `ImportFromFile`: a chunk with fewer than three fields is
skipped, any other chunk appends the decoded account. -/
def importLegacyChunk (s : Service) (accountDt : String) : Service :=
  match decodeAccount (Split accountDt ";") with
  | none => s
  | some account => { s with accounts := s.accounts ++ [account] }

/-- Method `ImportFromFile` on the content read from the file. -/
def ImportFromFile (s : Service) (content : String) : Service :=
  (Split content "|").foldl importLegacyChunk s

/-! ## Balance arithmetic with the reduction as a parameter

The methods that add to or subtract from a balance, with the reduction applied to the
result as a parameter `red`: with `wrap64` they are the methods above (64-bit
arithmetic), with the identity the balances are mathematical integers. -/

/-- Method `Deposit` with the reduction `red` after the addition. -/
def DepositR (red : Int → Int) (s : Service) (accountID : Int) (amount : Int) :
    Option Error × Service :=
  if amount < 0 then
    (some .ErrAmountMustBePositive, s)
  else
    match s.accounts.find? (fun acc => acc.ID == accountID) with
    | none => (some .ErrAccountNotFound, s)
    | some _ =>
      let accounts :=
        modifyFirst (fun acc => acc.ID == accountID)
          (fun account => { account with Balance := red (account.Balance + amount) })
          s.accounts
      (none, { s with accounts := accounts })

/-- Method `Pay` with the reduction `red` after the subtraction. -/
def PayR (red : Int → Int) (s : Service) (paymentID : String) (accountID : Int) (amount : Int)
    (category : String) : Except Error Payment × Service :=
  if amount < 0 then
    (.error .ErrAmountMustBePositive, s)
  else
    match s.accounts.find? (fun acc => accountID == acc.ID) with
    | none => (.error .ErrAccountNotFound, s)
    | some account =>
      if account.Balance < amount then
        (.error .ErrNotEnoughBalance, s)
      else
        let payment : Payment :=
          { ID := paymentID, AccountID := accountID, Amount := amount,
            Category := category, Status := PaymentStatusInProgress }
        let accounts :=
          modifyFirst (fun acc => accountID == acc.ID)
            (fun account => { account with Balance := red (account.Balance - amount) })
            s.accounts
        (.ok payment, { s with accounts := accounts, payments := s.payments ++ [payment] })

/-- Method `Reject` with the reduction `red` after the addition. -/
def RejectR (red : Int → Int) (s : Service) (paymentID : String) : Option Error × Service :=
  match FindPaymentByID s paymentID with
  | .error err => (some err, s)
  | .ok payment =>
    let payments :=
      modifyFirst (fun pay => pay.ID == paymentID)
        (fun pay => { pay with Status := PaymentStatusFail }) s.payments
    let s1 : Service := { s with payments := payments }
    match FindAccountByID s1 payment.AccountID with
    | .error err => (some err, s1)
    | .ok _ =>
      let accounts :=
        modifyFirst (fun acc => acc.ID == payment.AccountID)
          (fun account => { account with Balance := red (account.Balance + payment.Amount) })
          s1.accounts
      (none, { s1 with accounts := accounts })

/-- Method `Repeat` over `PayR`. -/
def RepeatR (red : Int → Int) (s : Service) (newID : String) (paymentID : String) :
    Except Error Payment × Service :=
  match FindPaymentByID s paymentID with
  | .error err => (.error err, s)
  | .ok currentPayment =>
    match PayR red s newID currentPayment.AccountID currentPayment.Amount
        currentPayment.Category with
    | (.error err, s1) => (.error err, s1)
    | (.ok newPayment, s1) => (.ok newPayment, s1)

/-- Method `PayFromFavorite` over `PayR`. -/
def PayFromFavoriteR (red : Int → Int) (s : Service) (newID : String) (favoriteID : String) :
    Except Error Payment × Service :=
  match FindFavoriteByID s favoriteID with
  | .error err => (.error err, s)
  | .ok favorite =>
    match PayR red s newID favorite.AccountID favorite.Amount favorite.Category with
    | (.error err, s1) => (.error err, s1)
    | (.ok payment, s1) => (.ok payment, s1)

/-- The store a call leaves behind, balances reduced by `red`. -/
def stepR (red : Int → Int) (s : Service) : Op → Service
  | .registerAccount phone => (RegisterAccount s phone).2
  | .deposit accountID amount => (DepositR red s accountID amount).2
  | .pay uuid accountID amount category => (PayR red s uuid accountID amount category).2
  | .reject paymentID => (RejectR red s paymentID).2
  | .repeatPayment uuid paymentID => (RepeatR red s uuid paymentID).2
  | .favoritePayment uuid paymentID name => (FavoritePayment s uuid paymentID name).2
  | .payFromFavorite uuid favoriteID => (PayFromFavoriteR red s uuid favoriteID).2
  | .importDir dir => Import s dir

/-- The store after a finite sequence of calls, balances reduced by `red`. -/
def runR (red : Int → Int) (s : Service) (ops : List Op) : Service :=
  ops.foldl (stepR red) s

/-! ## Auxiliary notions used in the statements and proofs -/

/-- The characters `FormatInt` writes: the ten digits and the minus sign. -/
def isNumChar (c : Char) : Prop := c = '-' ∨ ∃ d, d < 10 ∧ c = digitChar d

/-- A text field that holds neither the field separator `;` nor a newline. -/
def textOK (t : String) : Prop := ';' ∉ t.data ∧ '\n' ∉ t.data

instance (t : String) : Decidable (textOK t) := by
  unfold textOK; infer_instance

/-- List-level effect of one iteration of an import loop, for records keyed by `key`:
the first record with the key of `r` becomes `r`, and `r` is appended when there is none. -/
def upsert {α κ : Type} [DecidableEq κ] (key : α → κ) (l : List α) (r : α) : List α :=
  if l.any (fun x => key x == key r) then modifyFirst (fun x => key x == key r) (fun _ => r) l
  else l ++ [r]

/-- Characters of an account record as `ExportAccountsToString` writes it with `;`,
without the record separator. -/
def accountLine (a : Account) : List Char :=
  (FormatInt a.ID).data ++ ';' :: (a.Phone.data ++ ';' :: (FormatInt a.Balance).data)

/-- Characters of a payment record as `ExportPaymentsToString` writes it with `;`,
without the record separator. -/
def paymentLine (p : Payment) : List Char :=
  p.ID.data ++ ';' :: ((FormatInt p.AccountID).data ++ ';' :: ((FormatInt p.Amount).data ++
    ';' :: (p.Category.data ++ ';' :: (p.Status.data ++ [';']))))

/-- Characters of a favorite record as `ExportFavoritesToString` writes it with `;`,
without the record separator. -/
def favoriteLine (f : Favorite) : List Char :=
  f.ID.data ++ ';' :: ((FormatInt f.AccountID).data ++ ';' :: (f.Name.data ++
    ';' :: ((FormatInt f.Amount).data ++ ';' :: (f.Category.data ++ [';']))))

/-- In a store reached without import the IDs are `1, 2, ..., n` in order and the counter
is `n`, as long as the number `n` of accounts is an `int64`. -/
def sequentialIDs (s : Service) : Prop :=
  (s.accounts.length : Int) ≤ 9223372036854775807 →
    s.nextAccountID = (s.accounts.length : Int) ∧
    s.accounts.map Account.ID = (List.range s.accounts.length).map (fun (i : Nat) => (i : Int) + 1)

/-- The counter never runs ahead of the number of accounts (stated for a number of
accounts in the `int64` range). -/
def counterBounded (s : Service) : Prop :=
  (s.accounts.length : Int) ≤ 9223372036854775807 →
    0 ≤ s.nextAccountID ∧ s.nextAccountID ≤ (s.accounts.length : Int)

/-- The last record of `R` whose key is `k`. -/
def lastWithKey {α κ : Type} [DecidableEq κ] (key : α → κ) (k : κ) (R : List α) : Option α :=
  R.reverse.find? (fun r => key r == k)

/-- The members of a list, once each, in order of first occurrence. -/
def firstOccurrences {κ : Type} [DecidableEq κ] : List κ → List κ
  | [] => []
  | k :: ks => k :: (firstOccurrences ks).filter (fun x => decide (x ≠ k))

/-- The keys of the records of `R` that no record of `L` has, once each, in order of
first occurrence in `R`. -/
def newKeys {α κ : Type} [DecidableEq κ] (key : α → κ) (L R : List α) : List κ :=
  firstOccurrences ((R.map key).filter (fun k => decide (k ∉ L.map key)))

/-- Merge by ID as the specification words it: every stored record keeps its position
and is replaced by the last record of `R` with its ID when there is one; then the IDs of
`R` that were not stored follow, once each in order of first occurrence, each with the
last record of `R` carrying it. -/
def mergeByID {α κ : Type} [DecidableEq κ] (key : α → κ) (L R : List α) : List α :=
  L.map (fun x => (lastWithKey key (key x) R).getD x) ++
    (newKeys key L R).filterMap (fun k => lastWithKey key k R)

/-- A decimal digit character. -/
def isDigitChar (c : Char) : Prop := 48 ≤ c.toNat ∧ c.toNat ≤ 57

instance (c : Char) : Decidable (isDigitChar c) := by
  unfold isDigitChar; infer_instance

/-- The number a string of decimal digits denotes, continuing from `n`. -/
def decimalFrom (n : Nat) (ds : List Char) : Nat :=
  ds.foldl (fun m c => m * 10 + (c.toNat - 48)) n

/-- A phone that holds neither of the separators `;` and `|` of the legacy file. -/
def legacyTextOK (t : String) : Prop := ';' ∉ t.data ∧ '|' ∉ t.data

instance (t : String) : Decidable (legacyTextOK t) := by
  unfold legacyTextOK; infer_instance

/-- Every payment and every favorite refers to an account of the store. -/
def refsOK (s : Service) : Prop :=
  (∀ p ∈ s.payments, p.AccountID ∈ s.accounts.map Account.ID) ∧
  (∀ f ∈ s.favorites, f.AccountID ∈ s.accounts.map Account.ID)

/-- No balance and no payment amount is negative. -/
def nonNegative (s : Service) : Prop :=
  (∀ a ∈ s.accounts, 0 ≤ a.Balance) ∧ (∀ p ∈ s.payments, 0 ≤ p.Amount)

/-! ## Basic lemmas -/

theorem wrap64_of_isInt64 {x : Int} (h : isInt64 x) : wrap64 x = x := by
  unfold isInt64 at h
  unfold wrap64
  omega

theorem modifyFirst_split {α : Type} (p : α → Bool) (f : α → α) (pre post : List α) (x : α)
    (hpre : ∀ a ∈ pre, p a = false) (hx : p x = true) :
    modifyFirst p f (pre ++ x :: post) = pre ++ f x :: post := by
  induction pre with
  | nil => simp [modifyFirst, hx]
  | cons a pre ih =>
    have ha : p a = false := hpre a (by simp)
    have ih2 := ih (fun b hb => hpre b (by simp [hb]))
    simp [modifyFirst, ha, ih2]

theorem find?_split {α : Type} (p : α → Bool) (pre post : List α) (x : α)
    (hpre : ∀ a ∈ pre, p a = false) (hx : p x = true) :
    (pre ++ x :: post).find? p = some x := by
  induction pre with
  | nil => simp [hx]
  | cons a pre ih =>
    have ha : p a = false := hpre a (by simp)
    have ih2 := ih (fun b hb => hpre b (by simp [hb]))
    simp [List.find?, ha, ih2]

theorem find?_none_of_forall {α : Type} (p : α → Bool) (l : List α)
    (h : ∀ a ∈ l, p a = false) : l.find? p = none := by
  simpa [List.find?_eq_none] using h

theorem find?_some_split {α : Type} (p : α → Bool) (l : List α) (x : α)
    (h : l.find? p = some x) :
    ∃ pre post, l = pre ++ x :: post ∧ (∀ a ∈ pre, p a = false) ∧ p x = true := by
  obtain ⟨hx, pre, post, hl, hpre⟩ := List.find?_eq_some.mp h
  refine ⟨pre, post, hl, ?_, hx⟩
  intro a ha
  simpa using hpre a ha

/-! ## Pay -/

/-- The success path of `Pay`, on the first account with the ID. -/
theorem Pay_ok_split (s : Service) (uuid : String) (accountID : Int) (A : Int)
    (category : String) (pre post : List Account) (acc : Account)
    (hs : s.accounts = pre ++ acc :: post)
    (hpre : ∀ a ∈ pre, a.ID ≠ accountID) (hid : acc.ID = accountID)
    (hB : isInt64 acc.Balance) (h0 : 0 ≤ A) (hA : A ≤ acc.Balance) :
    Pay s uuid accountID A category =
      (.ok { ID := uuid, AccountID := accountID, Amount := A, Category := category,
             Status := "INPROGRESS" },
       { nextAccountID := s.nextAccountID,
         accounts := pre ++ { acc with Balance := acc.Balance - A } :: post,
         payments := s.payments ++
           [{ ID := uuid, AccountID := accountID, Amount := A, Category := category,
              Status := "INPROGRESS" }],
         favorites := s.favorites }) := by
  have hp : ∀ a ∈ pre, (fun acc : Account => accountID == acc.ID) a = false := by
    intro a ha
    simpa using fun h => hpre a ha h.symm
  have hx : (fun acc : Account => accountID == acc.ID) acc = true := by simp [hid]
  have hw : wrap64 (acc.Balance - A) = acc.Balance - A := by
    apply wrap64_of_isInt64
    unfold isInt64 at *
    omega
  unfold Pay
  rw [if_neg (not_lt.mpr h0), hs, find?_split _ pre post acc hp hx]
  simp only []
  rw [if_neg (not_lt.mpr hA), modifyFirst_split _ _ pre post acc hp hx, hw]
  rfl

/-- C1: when the first account with the given ID has balance `B` (an `int64`) and
`0 ≤ A ≤ B`, `Pay` returns no error and a payment carrying the drawn identifier, the
given account ID, amount and category and status INPROGRESS; the account's balance
becomes `B - A`, the payment is appended as last element of the payments list, and all
other accounts, the earlier payments, the favorites and the counter stay as they were. -/
theorem Pay_success (s : Service) (uuid : String) (accountID : Int) (A : Int)
    (category : String) (pre post : List Account) (acc : Account)
    (hs : s.accounts = pre ++ acc :: post)
    (hpre : ∀ a ∈ pre, a.ID ≠ accountID) (hid : acc.ID = accountID)
    (hB : isInt64 acc.Balance) (h0 : 0 ≤ A) (hA : A ≤ acc.Balance) :
    Pay s uuid accountID A category =
      (.ok { ID := uuid, AccountID := accountID, Amount := A, Category := category,
             Status := "INPROGRESS" },
       { nextAccountID := s.nextAccountID,
         accounts := pre ++ { acc with Balance := acc.Balance - A } :: post,
         payments := s.payments ++
           [{ ID := uuid, AccountID := accountID, Amount := A, Category := category,
              Status := "INPROGRESS" }],
         favorites := s.favorites }) :=
  Pay_ok_split s uuid accountID A category pre post acc hs hpre hid hB h0 hA

theorem Pay_success_witness :
    Pay { nextAccountID := 2,
          accounts := [⟨1, "+992935007339", 100⟩, ⟨2, "+992935007340", 70⟩],
          payments := [], favorites := [] } "p-1" 2 50 "myWorld" =
      (.ok ⟨"p-1", 2, 50, "myWorld", "INPROGRESS"⟩,
       { nextAccountID := 2,
         accounts := [⟨1, "+992935007339", 100⟩] ++ ⟨2, "+992935007340", 70 - 50⟩ :: [],
         payments := [] ++ [⟨"p-1", 2, 50, "myWorld", "INPROGRESS"⟩], favorites := [] }) :=
  Pay_success _ "p-1" 2 50 "myWorld" [⟨1, "+992935007339", 100⟩] [] ⟨2, "+992935007340", 70⟩
    rfl (by decide) rfl (by decide) (by decide) (by decide)

/-- The three failure paths of `Pay`, and that there is no other. -/
theorem Pay_error_cases (s : Service) (uuid : String) (accountID : Int) (amount : Int)
    (category : String) :
    (amount < 0 → Pay s uuid accountID amount category = (.error .ErrAmountMustBePositive, s)) ∧
    (0 ≤ amount → (∀ a ∈ s.accounts, a.ID ≠ accountID) →
      Pay s uuid accountID amount category = (.error .ErrAccountNotFound, s)) ∧
    (∀ (pre post : List Account) (acc : Account), 0 ≤ amount →
      s.accounts = pre ++ acc :: post → (∀ a ∈ pre, a.ID ≠ accountID) → acc.ID = accountID →
      acc.Balance < amount →
      Pay s uuid accountID amount category = (.error .ErrNotEnoughBalance, s)) ∧
    (∀ e, (Pay s uuid accountID amount category).1 = .error e →
      (Pay s uuid accountID amount category).2 = s ∧
      ((e = .ErrAmountMustBePositive ∧ amount < 0) ∨
       (e = .ErrAccountNotFound ∧ 0 ≤ amount ∧ ∀ a ∈ s.accounts, a.ID ≠ accountID) ∨
       (e = .ErrNotEnoughBalance ∧ 0 ≤ amount ∧
         ∃ (pre post : List Account) (acc : Account), s.accounts = pre ++ acc :: post ∧
           (∀ a ∈ pre, a.ID ≠ accountID) ∧ acc.ID = accountID ∧ acc.Balance < amount))) := by
  refine ⟨?_, ?_, ?_, ?_⟩
  · intro h
    unfold Pay
    rw [if_pos h]
  · intro h0 hno
    unfold Pay
    rw [if_neg (not_lt.mpr h0), find?_none_of_forall]
    intro a ha
    simpa using fun h => hno a ha h.symm
  · intro pre post acc h0 hs hpre hid hlt
    have hp : ∀ a ∈ pre, (fun acc : Account => accountID == acc.ID) a = false := by
      intro a ha
      simpa using fun h => hpre a ha h.symm
    have hx : (fun acc : Account => accountID == acc.ID) acc = true := by simp [hid]
    unfold Pay
    rw [if_neg (not_lt.mpr h0), hs, find?_split _ pre post acc hp hx]
    simp only []
    rw [if_pos hlt]
  · intro e he
    unfold Pay at he ⊢
    by_cases hneg : amount < 0
    · rw [if_pos hneg] at he ⊢
      simp only [Except.error.injEq] at he
      exact ⟨rfl, Or.inl ⟨he.symm, hneg⟩⟩
    · rw [if_neg hneg] at he ⊢
      cases hfind : s.accounts.find? (fun acc => accountID == acc.ID) with
      | none =>
        rw [hfind] at he
        simp only [Except.error.injEq] at he
        refine ⟨by simp only [], Or.inr (Or.inl ⟨he.symm, not_lt.mp hneg, ?_⟩)⟩
        intro a ha h
        have := List.find?_eq_none.mp hfind a ha
        simp [h] at this
      | some acc =>
        rw [hfind] at he
        simp only [] at he ⊢
        by_cases hlt : acc.Balance < amount
        · rw [if_pos hlt] at he ⊢
          simp only [Except.error.injEq] at he
          refine ⟨rfl, Or.inr (Or.inr ⟨he.symm, not_lt.mp hneg, ?_⟩)⟩
          obtain ⟨pre, post, hsplit, hnone, hacc⟩ := find?_some_split _ _ _ hfind
          refine ⟨pre, post, acc, hsplit, ?_, ?_, hlt⟩
          · intro a ha h
            have := hnone a ha
            simp [h] at this
          · have h2 := hacc
            simp only [beq_iff_eq] at h2
            exact h2.symm
        · rw [if_neg hlt] at he
          simp at he

/-- C2: `Pay` fails with AmountMustBePositive when the amount is negative (whatever
the accounts are), otherwise with AccountNotFound when no account has the ID, otherwise
with InsufficientBalance when the first matching account's balance is below the amount;
in these cases the store after the call is the store before it, and every error `Pay`
returns is one of these three cases. -/
theorem Pay_failure (s : Service) (uuid : String) (accountID : Int) (amount : Int)
    (category : String) :
    (amount < 0 → Pay s uuid accountID amount category = (.error .ErrAmountMustBePositive, s)) ∧
    (0 ≤ amount → (∀ a ∈ s.accounts, a.ID ≠ accountID) →
      Pay s uuid accountID amount category = (.error .ErrAccountNotFound, s)) ∧
    (∀ (pre post : List Account) (acc : Account), 0 ≤ amount →
      s.accounts = pre ++ acc :: post → (∀ a ∈ pre, a.ID ≠ accountID) → acc.ID = accountID →
      acc.Balance < amount →
      Pay s uuid accountID amount category = (.error .ErrNotEnoughBalance, s)) ∧
    (∀ e, (Pay s uuid accountID amount category).1 = .error e →
      (Pay s uuid accountID amount category).2 = s ∧
      ((e = .ErrAmountMustBePositive ∧ amount < 0) ∨
       (e = .ErrAccountNotFound ∧ 0 ≤ amount ∧ ∀ a ∈ s.accounts, a.ID ≠ accountID) ∨
       (e = .ErrNotEnoughBalance ∧ 0 ≤ amount ∧
         ∃ (pre post : List Account) (acc : Account), s.accounts = pre ++ acc :: post ∧
           (∀ a ∈ pre, a.ID ≠ accountID) ∧ acc.ID = accountID ∧ acc.Balance < amount))) :=
  Pay_error_cases s uuid accountID amount category

theorem Pay_failure_witness :
    Pay { nextAccountID := 1, accounts := [⟨1, "+992935007339", 100⟩], payments := [],
          favorites := [] } "p-1" 1 101 "myWorld" =
      (.error .ErrNotEnoughBalance,
       { nextAccountID := 1, accounts := [⟨1, "+992935007339", 100⟩], payments := [],
         favorites := [] }) :=
  (Pay_failure _ "p-1" 1 101 "myWorld").2.2.1 [] [] ⟨1, "+992935007339", 100⟩
    (by decide) rfl (by simp) rfl (by decide)

/-! ## Deposit -/

/-- C3: for the first account with the given ID, of balance `B` (an `int64`), and
`A ≥ 0` with `B + A` at most the signed 64-bit maximum, `Deposit` returns no error and
the balance becomes `B + A`, everything else unchanged; for `A < 0` it returns
AmountMustBePositive and for `A ≥ 0` with no such account AccountNotFound, the store
unchanged in both cases. -/
theorem Deposit_spec (s : Service) (accountID : Int) (A : Int) :
    (∀ (pre post : List Account) (acc : Account), s.accounts = pre ++ acc :: post →
      (∀ a ∈ pre, a.ID ≠ accountID) → acc.ID = accountID → isInt64 acc.Balance →
      0 ≤ A → acc.Balance + A ≤ 9223372036854775807 →
      Deposit s accountID A =
        (none, { nextAccountID := s.nextAccountID,
                 accounts := pre ++ { acc with Balance := acc.Balance + A } :: post,
                 payments := s.payments, favorites := s.favorites })) ∧
    (A < 0 → Deposit s accountID A = (some .ErrAmountMustBePositive, s)) ∧
    (0 ≤ A → (∀ a ∈ s.accounts, a.ID ≠ accountID) →
      Deposit s accountID A = (some .ErrAccountNotFound, s)) := by
  refine ⟨?_, ?_, ?_⟩
  · intro pre post acc hs hpre hid hB h0 hmax
    have hp : ∀ a ∈ pre, (fun acc : Account => acc.ID == accountID) a = false := by
      intro a ha
      simpa using hpre a ha
    have hx : (fun acc : Account => acc.ID == accountID) acc = true := by simp [hid]
    have hw : wrap64 (acc.Balance + A) = acc.Balance + A := by
      apply wrap64_of_isInt64
      unfold isInt64 at *
      omega
    unfold Deposit
    rw [if_neg (not_lt.mpr h0), hs, find?_split _ pre post acc hp hx]
    simp only []
    rw [modifyFirst_split _ _ pre post acc hp hx, hw]
  · intro h
    unfold Deposit
    rw [if_pos h]
  · intro h0 hno
    unfold Deposit
    rw [if_neg (not_lt.mpr h0), find?_none_of_forall]
    intro a ha
    simpa using hno a ha

theorem Deposit_spec_witness :
    Deposit { nextAccountID := 1, accounts := [⟨1, "+992935007339", 100⟩], payments := [],
              favorites := [] } 1 0 =
      (none, { nextAccountID := 1,
               accounts := [] ++ ⟨1, "+992935007339", 100 + 0⟩ :: [],
               payments := [], favorites := [] }) :=
  (Deposit_spec _ 1 0).1 [] [] ⟨1, "+992935007339", 100⟩ rfl (by simp) rfl (by decide)
    (by decide) (by decide)

/-! ## Reject -/

theorem RegisterAccount_taken (s : Service) (phone : String)
    (h : ∃ a ∈ s.accounts, a.Phone = phone) :
    RegisterAccount s phone = (.error .ErrPhoneRegistered, s) := by
  unfold RegisterAccount
  rw [if_pos]
  simpa using h

theorem RegisterAccount_fresh (s : Service) (phone : String)
    (h : ∀ a ∈ s.accounts, a.Phone ≠ phone) :
    RegisterAccount s phone =
      (.ok ⟨wrap64 (s.nextAccountID + 1), phone, 0⟩,
       { nextAccountID := wrap64 (s.nextAccountID + 1),
         accounts := s.accounts ++ [⟨wrap64 (s.nextAccountID + 1), phone, 0⟩],
         payments := s.payments, favorites := s.favorites }) := by
  unfold RegisterAccount
  rw [if_neg]
  simpa using h

theorem range_succ_map (f : Nat → Int) (n : Nat) :
    (List.range (n + 1)).map f = f 0 :: (List.range n).map (fun i => f (i + 1)) := by
  rw [List.range_succ_eq_map]
  simp [List.map_map, Function.comp_def]

theorem registerAll_ids (phones : List String) :
    ∀ s : Service, 0 ≤ s.nextAccountID →
      s.nextAccountID + phones.length ≤ 9223372036854775807 →
      (successes (registerAll s phones).1).map (fun a => a.ID) =
        (List.range (successes (registerAll s phones).1).length).map
          (fun (i : Nat) => s.nextAccountID + 1 + (i : Int)) := by
  induction phones with
  | nil => intro s _ _; simp [registerAll, successes]
  | cons phone rest ih =>
    intro s h0 hmax
    simp only [List.length_cons, Nat.cast_add, Nat.cast_one] at hmax
    by_cases hp : ∃ a ∈ s.accounts, a.Phone = phone
    · have hr := RegisterAccount_taken s phone hp
      simp only [registerAll, hr, successes]
      exact ih s h0 (by omega)
    · have hp2 : ∀ a ∈ s.accounts, a.Phone ≠ phone := by
        intro a ha hc
        exact hp ⟨a, ha, hc⟩
      have hw : wrap64 (s.nextAccountID + 1) = s.nextAccountID + 1 := by
        apply wrap64_of_isInt64
        unfold isInt64
        omega
      have hr := RegisterAccount_fresh s phone hp2
      rw [hw] at hr
      simp only [registerAll, hr, successes, List.length_cons, List.map_cons]
      rw [range_succ_map]
      have ih2 := ih { nextAccountID := s.nextAccountID + 1,
                       accounts := s.accounts ++ [⟨s.nextAccountID + 1, phone, 0⟩],
                       payments := s.payments, favorites := s.favorites }
        (by simp only []; omega) (by simp only []; omega)
      simp only [] at ih2
      rw [ih2]
      simp only [Nat.cast_zero, add_zero, Nat.cast_add, Nat.cast_one, List.cons.injEq, true_and]
      apply List.map_congr_left
      intro i _
      ring

/-! ## Repeat and PayFromFavorite -/

theorem Repeat_found (s : Service) (newID paymentID : String)
    (prePay postPay : List Payment) (p : Payment)
    (hpay : s.payments = prePay ++ p :: postPay)
    (hprePay : ∀ q ∈ prePay, q.ID ≠ paymentID) (hpid : p.ID = paymentID) :
    Repeat s newID paymentID = Pay s newID p.AccountID p.Amount p.Category := by
  have hp1 : ∀ q ∈ prePay, (fun pay : Payment => pay.ID == paymentID) q = false := by
    intro q hq
    simpa using hprePay q hq
  have hp2 : (fun pay : Payment => pay.ID == paymentID) p = true := by simp [hpid]
  unfold Repeat FindPaymentByID
  rw [hpay, find?_split _ prePay postPay p hp1 hp2]
  simp only []
  generalize Pay s newID p.AccountID p.Amount p.Category = r
  rcases r with ⟨_ | _, _⟩ <;> rfl

theorem PayFromFavorite_found (s : Service) (newID favoriteID : String)
    (preFav postFav : List Favorite) (f : Favorite)
    (hfav : s.favorites = preFav ++ f :: postFav)
    (hpreFav : ∀ g ∈ preFav, g.ID ≠ favoriteID) (hfid : f.ID = favoriteID) :
    PayFromFavorite s newID favoriteID = Pay s newID f.AccountID f.Amount f.Category := by
  have hp1 : ∀ g ∈ preFav, (fun fav : Favorite => fav.ID == favoriteID) g = false := by
    intro g hg
    simpa using hpreFav g hg
  have hp2 : (fun fav : Favorite => fav.ID == favoriteID) f = true := by simp [hfid]
  unfold PayFromFavorite FindFavoriteByID
  rw [hfav, find?_split _ preFav postFav f hp1 hp2]
  simp only []
  generalize Pay s newID f.AccountID f.Amount f.Category = r
  rcases r with ⟨_ | _, _⟩ <;> rfl

theorem Pay_favorites (s : Service) (uuid : String) (accountID amount : Int)
    (category : String) : (Pay s uuid accountID amount category).2.favorites = s.favorites := by
  unfold Pay
  split
  · rfl
  · split
    · rfl
    · split <;> rfl

/-- C9 (amended): `Repeat` of an unknown payment ID returns PaymentNotFound and leaves
the store unchanged; otherwise, with `p` the first stored payment with the ID, it has
exactly the result and effect of `Pay(p.AccountID, p.Amount, p.Category)`: on success
(balance `B` of the account an `int64`, `0 ≤ p.Amount ≤ B`) it appends and returns a
payment with the same account, amount and category, status INPROGRESS and the drawn
identifier (different from `p`'s when the identifier is fresh), debits `p.Amount` and
leaves `p` unchanged; when `p.Amount` is not negative and the balance is lower than
`p.Amount` it returns InsufficientBalance and leaves the store unchanged. -/
theorem Repeat_spec (s : Service) (newID paymentID : String) :
    ((∀ q ∈ s.payments, q.ID ≠ paymentID) →
      Repeat s newID paymentID = (.error .ErrPaymentNotFound, s)) ∧
    (∀ (prePay postPay : List Payment) (p : Payment), s.payments = prePay ++ p :: postPay →
      (∀ q ∈ prePay, q.ID ≠ paymentID) → p.ID = paymentID →
      Repeat s newID paymentID = Pay s newID p.AccountID p.Amount p.Category ∧
      ∀ (preAcc postAcc : List Account) (acc : Account), s.accounts = preAcc ++ acc :: postAcc →
        (∀ a ∈ preAcc, a.ID ≠ p.AccountID) → acc.ID = p.AccountID →
        (isInt64 acc.Balance → 0 ≤ p.Amount → p.Amount ≤ acc.Balance →
          Repeat s newID paymentID =
            (.ok ⟨newID, p.AccountID, p.Amount, p.Category, "INPROGRESS"⟩,
             { nextAccountID := s.nextAccountID,
               accounts := preAcc ++ { acc with Balance := acc.Balance - p.Amount } :: postAcc,
               payments := (prePay ++ p :: postPay) ++
                 [⟨newID, p.AccountID, p.Amount, p.Category, "INPROGRESS"⟩],
               favorites := s.favorites }) ∧
          (newID ≠ paymentID → newID ≠ p.ID)) ∧
        (0 ≤ p.Amount → acc.Balance < p.Amount →
          Repeat s newID paymentID = (.error .ErrNotEnoughBalance, s))) := by
  refine ⟨?_, ?_⟩
  · intro hno
    unfold Repeat FindPaymentByID
    rw [find?_none_of_forall]
    intro q hq
    simpa using hno q hq
  · intro prePay postPay p hpay hprePay hpid
    have hR := Repeat_found s newID paymentID prePay postPay p hpay hprePay hpid
    refine ⟨hR, ?_⟩
    intro preAcc postAcc acc hacc hpreAcc haid
    refine ⟨?_, ?_⟩
    · intro hB h0 hle
      refine ⟨?_, fun h => by rw [hpid]; exact h⟩
      rw [hR, Pay_ok_split s newID p.AccountID p.Amount p.Category preAcc postAcc acc hacc hpreAcc
        haid hB h0 hle, hpay]
    · intro h0 hlt
      rw [hR]
      exact (Pay_error_cases s newID p.AccountID p.Amount p.Category).2.2.1 preAcc postAcc acc h0
        hacc hpreAcc haid hlt

theorem Repeat_spec_witness :
    Repeat { nextAccountID := 1, accounts := [⟨1, "+992935007339", 40⟩],
             payments := [⟨"p-1", 1, 60, "myWorld", "INPROGRESS"⟩], favorites := [] }
        "p-2" "p-1" =
      (.error .ErrNotEnoughBalance,
       { nextAccountID := 1, accounts := [⟨1, "+992935007339", 40⟩],
         payments := [⟨"p-1", 1, 60, "myWorld", "INPROGRESS"⟩], favorites := [] }) :=
  (((Repeat_spec _ "p-2" "p-1").2 [] [] ⟨"p-1", 1, 60, "myWorld", "INPROGRESS"⟩ rfl (by simp)
    rfl).2 [] [] ⟨1, "+992935007339", 40⟩ rfl (by simp) rfl).2 (by decide) (by decide)

/-- C9 (as stated) fails: after the directory import of an account with balance -10 and
of a payment of amount -5 on it, the balance is lower than the payment's amount, and
`Repeat` returns AmountMustBePositive, not InsufficientBalance. -/
theorem Repeat_balance_counterexample :
    Import emptyService ⟨some "1;+992935007339;-10\n", some "p-1;1;-5;myWorld;OK;\n", none⟩ =
      { nextAccountID := 1, accounts := [⟨1, "+992935007339", -10⟩],
        payments := [⟨"p-1", 1, -5, "myWorld", "OK"⟩], favorites := [] } ∧
    (-10 : Int) < -5 ∧
    Repeat { nextAccountID := 1, accounts := [⟨1, "+992935007339", -10⟩],
             payments := [⟨"p-1", 1, -5, "myWorld", "OK"⟩], favorites := [] } "p-2" "p-1" =
      (.error .ErrAmountMustBePositive,
       { nextAccountID := 1, accounts := [⟨1, "+992935007339", -10⟩],
         payments := [⟨"p-1", 1, -5, "myWorld", "OK"⟩], favorites := [] }) := by
  decide

/-- C10 (amended): `PayFromFavorite` of an unknown favorite ID returns FavoriteNotFound
and leaves the store unchanged; otherwise, with `f` the first stored favorite with the
ID, it has exactly the result and effect of `Pay(f.AccountID, f.Amount, f.Category)` and
leaves the favorites list unchanged; for `f.Amount ≥ 0` it returns AccountNotFound when
no account has `f.AccountID` and InsufficientBalance when the account's balance is lower
than `f.Amount`. The scenario register, Deposit 10000, Pay 2500, FavoritePayment,
Reject, PayFromFavorite ends with a new INPROGRESS payment of 2500 and balance 7500. -/
theorem PayFromFavorite_spec (s : Service) (newID favoriteID : String) :
    ((∀ g ∈ s.favorites, g.ID ≠ favoriteID) →
      PayFromFavorite s newID favoriteID = (.error .ErrFavoriteNotFound, s)) ∧
    (∀ (preFav postFav : List Favorite) (f : Favorite), s.favorites = preFav ++ f :: postFav →
      (∀ g ∈ preFav, g.ID ≠ favoriteID) → f.ID = favoriteID →
      PayFromFavorite s newID favoriteID = Pay s newID f.AccountID f.Amount f.Category ∧
      (PayFromFavorite s newID favoriteID).2.favorites = s.favorites ∧
      (0 ≤ f.Amount → (∀ a ∈ s.accounts, a.ID ≠ f.AccountID) →
        PayFromFavorite s newID favoriteID = (.error .ErrAccountNotFound, s)) ∧
      (∀ (preAcc postAcc : List Account) (acc : Account), 0 ≤ f.Amount →
        s.accounts = preAcc ++ acc :: postAcc → (∀ a ∈ preAcc, a.ID ≠ f.AccountID) →
        acc.ID = f.AccountID → acc.Balance < f.Amount →
        PayFromFavorite s newID favoriteID = (.error .ErrNotEnoughBalance, s))) ∧
    (run emptyService [.registerAccount "+15551230000", .deposit 1 10000,
        .pay "P1" 1 2500 "groceries", .favoritePayment "F1" "P1" "Weekly Groceries",
        .reject "P1"] =
      { nextAccountID := 1, accounts := [⟨1, "+15551230000", 10000⟩],
        payments := [⟨"P1", 1, 2500, "groceries", "FAIL"⟩],
        favorites := [⟨"F1", 1, "Weekly Groceries", 2500, "groceries"⟩] } ∧
     PayFromFavorite
        { nextAccountID := 1, accounts := [⟨1, "+15551230000", 10000⟩],
          payments := [⟨"P1", 1, 2500, "groceries", "FAIL"⟩],
          favorites := [⟨"F1", 1, "Weekly Groceries", 2500, "groceries"⟩] } "P2" "F1" =
      (.ok ⟨"P2", 1, 2500, "groceries", "INPROGRESS"⟩,
       { nextAccountID := 1, accounts := [⟨1, "+15551230000", 7500⟩],
         payments := [⟨"P1", 1, 2500, "groceries", "FAIL"⟩,
                      ⟨"P2", 1, 2500, "groceries", "INPROGRESS"⟩],
         favorites := [⟨"F1", 1, "Weekly Groceries", 2500, "groceries"⟩] })) := by
  refine ⟨?_, ?_, by decide⟩
  · intro hno
    unfold PayFromFavorite FindFavoriteByID
    rw [find?_none_of_forall]
    intro g hg
    simpa using hno g hg
  · intro preFav postFav f hfav hpreFav hfid
    have hP := PayFromFavorite_found s newID favoriteID preFav postFav f hfav hpreFav hfid
    refine ⟨hP, ?_, ?_, ?_⟩
    · rw [hP, Pay_favorites]
    · intro h0 hno
      rw [hP]
      exact (Pay_error_cases s newID f.AccountID f.Amount f.Category).2.1 h0 hno
    · intro preAcc postAcc acc h0 hacc hpreAcc haid hlt
      rw [hP]
      exact (Pay_error_cases s newID f.AccountID f.Amount f.Category).2.2.1 preAcc postAcc acc h0
        hacc hpreAcc haid hlt

theorem PayFromFavorite_spec_witness :
    PayFromFavorite { nextAccountID := 1, accounts := [⟨1, "+992935007339", 40⟩],
                      payments := [⟨"p-1", 1, 60, "myWorld", "INPROGRESS"⟩],
                      favorites := [⟨"f-1", 1, "smart city", 60, "myWorld"⟩] } "p-2" "f-1" =
      (.error .ErrNotEnoughBalance,
       { nextAccountID := 1, accounts := [⟨1, "+992935007339", 40⟩],
         payments := [⟨"p-1", 1, 60, "myWorld", "INPROGRESS"⟩],
         favorites := [⟨"f-1", 1, "smart city", 60, "myWorld"⟩] }) :=
  ((PayFromFavorite_spec _ "p-2" "f-1").2.1 [] [] ⟨"f-1", 1, "smart city", 60, "myWorld"⟩ rfl
    (by simp) rfl).2.2.2 [] [] ⟨1, "+992935007339", 40⟩ (by decide) rfl (by simp) rfl
    (by decide)

/-- C10 (as stated) fails: after the directory import of a favorite of amount -5 on
account 7 into the empty store, no account has ID 7, and `PayFromFavorite` returns
AmountMustBePositive, not AccountNotFound. -/
theorem PayFromFavorite_error_counterexample :
    Import emptyService ⟨none, none, some "f-1;7;smart city;-5;myWorld;\n"⟩ =
      { nextAccountID := 0, accounts := [], payments := [],
        favorites := [⟨"f-1", 7, "smart city", -5, "myWorld"⟩] } ∧
    PayFromFavorite { nextAccountID := 0, accounts := [], payments := [],
                      favorites := [⟨"f-1", 7, "smart city", -5, "myWorld"⟩] } "p-1" "f-1" =
      (.error .ErrAmountMustBePositive,
       { nextAccountID := 0, accounts := [], payments := [],
         favorites := [⟨"f-1", 7, "smart city", -5, "myWorld"⟩] }) := by
  decide

/-! ## Decimal numbers: `ParseInt` after `FormatInt` -/

theorem digitChar_toNat (d : Nat) (h : d < 10) : (digitChar d).toNat = 48 + d := by
  interval_cases d <;> rfl

theorem digitVal_digitChar (d : Nat) (h : d < 10) : digitVal (digitChar d) = some d := by
  interval_cases d <;> rfl

theorem formatBits_chars (fuel : Nat) :
    ∀ (n : Nat) (acc : List Char), (∀ c ∈ acc, isNumChar c) →
      ∀ c ∈ formatBits fuel n acc, isNumChar c := by
  induction fuel with
  | zero => intro n acc hacc; simpa [formatBits] using hacc
  | succ fuel ih =>
    intro n acc hacc
    unfold formatBits
    split
    · rename_i hlt
      intro c hc
      rcases List.mem_cons.mp hc with h | h
      · exact Or.inr ⟨n, hlt, h⟩
      · exact hacc c h
    · apply ih
      intro c hc
      rcases List.mem_cons.mp hc with h | h
      · exact Or.inr ⟨n % 10, Nat.mod_lt _ (by decide), h⟩
      · exact hacc c h

theorem formatBits_head (fuel : Nat) :
    ∀ (n : Nat) (acc : List Char), n < fuel →
      ∃ d rest, d < 10 ∧ formatBits fuel n acc = digitChar d :: rest := by
  induction fuel with
  | zero => intro n acc h; omega
  | succ fuel ih =>
    intro n acc h
    unfold formatBits
    split
    · rename_i hlt
      exact ⟨n, acc, hlt, rfl⟩
    · exact ih (n / 10) _ (by omega)

theorem parseUintLoop_digit (d n : Nat) (cs : List Char) (hd : d < 10)
    (hn : n * 10 + d < 18446744073709551616) :
    parseUintLoop (digitChar d :: cs) n = parseUintLoop cs (n * 10 + d) := by
  have h1 : ¬ d ≥ 10 := by omega
  have h2 : ¬ n ≥ 1844674407370955162 := by omega
  have h3 : (n * 10 + d) % 18446744073709551616 = n * 10 + d := Nat.mod_eq_of_lt hn
  have h4 : ¬ (n * 10 + d < n * 10 ∨ n * 10 + d > 18446744073709551615) := by omega
  simp only [parseUintLoop, digitVal_digitChar d hd, if_neg h1, if_neg h2, h3, if_neg h4]

theorem parseUintLoop_formatBits (fuel : Nat) :
    ∀ (n : Nat) (acc : List Char), n < fuel → n < 18446744073709551616 →
      parseUintLoop (formatBits fuel n acc) 0 = parseUintLoop acc n := by
  induction fuel with
  | zero => intro n acc h; omega
  | succ fuel ih =>
    intro n acc h hn
    unfold formatBits
    split
    · rename_i hlt
      rw [parseUintLoop_digit n 0 acc hlt (by omega)]
      simp
    · rw [ih (n / 10) _ (by omega) (by omega),
        parseUintLoop_digit (n % 10) (n / 10) acc (Nat.mod_lt _ (by decide)) (by omega)]
      congr 1
      omega

theorem digitChar_ne_sign (d : Nat) (h : d < 10) :
    (digitChar d == '+') = false ∧ (digitChar d == '-') = false := by
  interval_cases d <;> decide

theorem ParseInt_FormatInt (n : Int) (h : isInt64 n) : ParseInt (FormatInt n) = (n, none) := by
  unfold isInt64 at h
  by_cases hneg : n < 0
  · have hdata : (FormatInt n).data = '-' :: formatBits (n.natAbs + 1) n.natAbs [] := by
      unfold FormatInt
      rw [if_pos hneg]
    obtain ⟨d, rest, _, hfb⟩ := formatBits_head (n.natAbs + 1) n.natAbs [] (by omega)
    have hne : formatBits (n.natAbs + 1) n.natAbs [] ≠ [] := by rw [hfb]; simp
    have hU : ParseUint (formatBits (n.natAbs + 1) n.natAbs []) = (n.natAbs, none) := by
      unfold ParseUint
      rw [if_neg hne, parseUintLoop_formatBits _ _ _ (by omega) (by omega)]
      rfl
    unfold ParseInt
    rw [hdata]
    have hm : (('-' : Char) == '-') = true := by decide
    simp only [hm, Bool.or_true, if_true, Bool.not_true, Bool.false_and, Bool.true_and,
      Bool.false_eq_true, if_false]
    rw [hU]
    have h1 : ¬ n.natAbs > 9223372036854775808 := by omega
    have h2 : ((n.natAbs : Nat) : Int) = -n := by omega
    simp [h1, h2]
  · have hdata : (FormatInt n).data = formatBits (n.natAbs + 1) n.natAbs [] := by
      unfold FormatInt
      rw [if_neg hneg]
    obtain ⟨d, rest, hd, hfb⟩ := formatBits_head (n.natAbs + 1) n.natAbs [] (by omega)
    have hne : formatBits (n.natAbs + 1) n.natAbs [] ≠ [] := by rw [hfb]; simp
    have hU : ParseUint (formatBits (n.natAbs + 1) n.natAbs []) = (n.natAbs, none) := by
      unfold ParseUint
      rw [if_neg hne, parseUintLoop_formatBits _ _ _ (by omega) (by omega)]
      rfl
    unfold ParseInt
    rw [hdata]
    rw [hfb] at hU ⊢
    have hs := digitChar_ne_sign d hd
    simp only [hs.1, hs.2, Bool.or_self, Bool.false_eq_true, if_false, hU]
    have h1 : ¬ n.natAbs ≥ 9223372036854775808 := by omega
    have h2 : ((n.natAbs : Nat) : Int) = n := by omega
    simp [h1, h2]

theorem FormatInt_chars (n : Int) : ∀ c ∈ (FormatInt n).data, isNumChar c := by
  unfold FormatInt
  split
  · intro c hc
    rcases List.mem_cons.mp hc with h | h
    · exact Or.inl h
    · exact formatBits_chars _ _ [] (by simp) c h
  · exact formatBits_chars _ _ [] (by simp)

theorem isNumChar_ne_sep (c : Char) (h : isNumChar c) : c ≠ ';' ∧ c ≠ '\n' := by
  rcases h with h | ⟨d, hd, h⟩
  · subst h; decide
  · subst h
    interval_cases d <;> decide

/-! ## `strings.Split` on a one-character separator -/

theorem splitGo_single_cons (d c : Char) (rest : List Char) :
    splitGo [d] 0 (c :: rest) =
      if c = d then [] :: splitGo [d] 0 rest else consHead c (splitGo [d] 0 rest) := by
  by_cases h : c = d
  · subst h
    simp [splitGo, List.isPrefixOf]
  · have h2 : ¬ d = c := fun e => h e.symm
    simp [splitGo, List.isPrefixOf, h, h2]

theorem splitGo_field (d : Char) (f rest : List Char) (hf : d ∉ f) :
    splitGo [d] 0 (f ++ d :: rest) = f :: splitGo [d] 0 rest := by
  induction f with
  | nil => simp [splitGo_single_cons]
  | cons c f ih =>
    have hc : c ≠ d := fun e => hf (by simp [e])
    have hf2 : d ∉ f := fun e => hf (by simp [e])
    simp [splitGo_single_cons, hc, ih hf2, consHead]

theorem splitGo_last (d : Char) (f : List Char) (hf : d ∉ f) : splitGo [d] 0 f = [f] := by
  induction f with
  | nil => simp [splitGo]
  | cons c f ih =>
    have hc : c ≠ d := fun e => hf (by simp [e])
    have hf2 : d ∉ f := fun e => hf (by simp [e])
    simp [splitGo_single_cons, hc, ih hf2, consHead]

theorem Split_semicolon (t : String) :
    Split t ";" = (splitGo [';'] 0 t.data).map String.mk := by
  unfold Split
  rw [if_neg (by decide)]

theorem Split_newline (t : String) :
    Split t "\n" = (splitGo ['\n'] 0 t.data).map String.mk := by
  unfold Split
  rw [if_neg (by decide)]

theorem FormatInt_no_sep (n : Int) :
    ';' ∉ (FormatInt n).data ∧ '\n' ∉ (FormatInt n).data := by
  constructor
  · intro h
    exact (isNumChar_ne_sep _ (FormatInt_chars n _ h)).1 rfl
  · intro h
    exact (isNumChar_ne_sep _ (FormatInt_chars n _ h)).2 rfl

/-! ## Merge by key -/

theorem modifyFirst_keys {α κ : Type} [DecidableEq κ] (key : α → κ) (r : α) (l : List α) :
    (modifyFirst (fun x => key x == key r) (fun _ => r) l).map key = l.map key := by
  induction l with
  | nil => rfl
  | cons x xs ih =>
    by_cases h : key x = key r
    · simp [modifyFirst, h]
    · simp [modifyFirst, h, ih]

theorem upsert_keys_mem {α κ : Type} [DecidableEq κ] (key : α → κ) (l : List α) (r : α)
    (k : κ) (h : k ∈ l.map key) : k ∈ (upsert key l r).map key := by
  unfold upsert
  split
  · rw [modifyFirst_keys]; exact h
  · simp only [List.map_append, List.mem_append]
    exact Or.inl h

theorem upsert_key_self {α κ : Type} [DecidableEq κ] (key : α → κ) (l : List α) (r : α) :
    key r ∈ (upsert key l r).map key := by
  unfold upsert
  split
  · rename_i h
    rw [modifyFirst_keys]
    simpa using h
  · simp

theorem upsert_absent {α κ : Type} [DecidableEq κ] (key : α → κ) (l : List α) (r : α)
    (h : key r ∉ l.map key) : upsert key l r = l ++ [r] := by
  unfold upsert
  rw [if_neg]
  simpa using h

theorem upsert_present {α κ : Type} [DecidableEq κ] (key : α → κ) (l : List α) (r : α)
    (h : key r ∈ l.map key) :
    upsert key l r = modifyFirst (fun x => key x == key r) (fun _ => r) l := by
  unfold upsert
  rw [if_pos]
  simpa using h

theorem modifyFirst_append_left {α : Type} (p : α → Bool) (f : α → α) (l l2 : List α)
    (h : ∃ x ∈ l, p x = true) : modifyFirst p f (l ++ l2) = modifyFirst p f l ++ l2 := by
  induction l with
  | nil => simp at h
  | cons x xs ih =>
    by_cases hx : p x = true
    · simp [modifyFirst, hx]
    · have h2 : ∃ y ∈ xs, p y = true := by
        obtain ⟨y, hy, hpy⟩ := h
        rcases List.mem_cons.mp hy with e | e
        · subst e; exact absurd hpy hx
        · exact ⟨y, e, hpy⟩
      simp [modifyFirst, hx, ih h2]

theorem modifyFirst_append_right {α : Type} (p : α → Bool) (f : α → α) (l l2 : List α)
    (h : ∀ x ∈ l, p x = false) : modifyFirst p f (l ++ l2) = l ++ modifyFirst p f l2 := by
  induction l with
  | nil => rfl
  | cons x xs ih =>
    have hx : p x = false := h x (by simp)
    simp [modifyFirst, hx, ih (fun y hy => h y (by simp [hy]))]

theorem modifyFirst_comm {α κ : Type} [DecidableEq κ] (key : α → κ) (r1 r2 : α)
    (hne : key r1 ≠ key r2) (l : List α) :
    modifyFirst (fun x => key x == key r1) (fun _ => r1)
        (modifyFirst (fun x => key x == key r2) (fun _ => r2) l) =
      modifyFirst (fun x => key x == key r2) (fun _ => r2)
        (modifyFirst (fun x => key x == key r1) (fun _ => r1) l) := by
  induction l with
  | nil => rfl
  | cons x xs ih =>
    by_cases h1 : key x = key r1
    · have h2 : key x ≠ key r2 := fun e => hne (h1.symm.trans e)
      simp [modifyFirst, h1, h2, hne]
    · by_cases h2 : key x = key r2
      · simp [modifyFirst, h1, h2, Ne.symm hne]
      · simp [modifyFirst, h1, h2, ih]

theorem modifyFirst_absorb {α κ : Type} [DecidableEq κ] (key : α → κ) (r1 r2 : α)
    (he : key r1 = key r2) (l : List α) :
    modifyFirst (fun x => key x == key r2) (fun _ => r2)
        (modifyFirst (fun x => key x == key r1) (fun _ => r1) l) =
      modifyFirst (fun x => key x == key r2) (fun _ => r2) l := by
  rw [he]
  induction l with
  | nil => rfl
  | cons x xs ih =>
    by_cases h1 : key x = key r2
    · simp [modifyFirst, h1, he]
    · simp [modifyFirst, h1, ih]

theorem upsert_comm {α κ : Type} [DecidableEq κ] (key : α → κ) (l : List α) (r1 r2 : α)
    (hne : key r1 ≠ key r2) (h1 : key r1 ∈ l.map key) :
    upsert key (upsert key l r2) r1 = upsert key (upsert key l r1) r2 := by
  have h1' : key r1 ∈ (upsert key l r2).map key := upsert_keys_mem key l r2 _ h1
  rw [upsert_present key _ r1 h1', upsert_present key l r1 h1]
  by_cases h2 : key r2 ∈ l.map key
  · have h2' : key r2 ∈ (modifyFirst (fun x => key x == key r1) (fun _ => r1) l).map key := by
      rw [modifyFirst_keys]; exact h2
    rw [upsert_present key l r2 h2, upsert_present key _ r2 h2']
    exact modifyFirst_comm key r1 r2 hne l
  · have h2' : key r2 ∉ (modifyFirst (fun x => key x == key r1) (fun _ => r1) l).map key := by
      rw [modifyFirst_keys]; exact h2
    rw [upsert_absent key l r2 h2, upsert_absent key _ r2 h2']
    apply modifyFirst_append_left
    obtain ⟨x, hx, hk⟩ := List.mem_map.mp h1
    exact ⟨x, hx, by simp [hk]⟩

theorem upsert_absorb {α κ : Type} [DecidableEq κ] (key : α → κ) (l : List α) (r1 r2 : α)
    (he : key r1 = key r2) : upsert key (upsert key l r1) r2 = upsert key l r2 := by
  have hself : key r2 ∈ (upsert key l r1).map key := he ▸ upsert_key_self key l r1
  rw [upsert_present key _ r2 hself]
  by_cases h1 : key r1 ∈ l.map key
  · rw [upsert_present key l r1 h1, upsert_present key l r2 (he ▸ h1)]
    exact modifyFirst_absorb key r1 r2 he l
  · rw [upsert_absent key l r1 h1, upsert_absent key l r2 (he ▸ h1)]
    rw [modifyFirst_append_right]
    · simp [modifyFirst, he]
    · intro x hx
      have : key x ≠ key r1 := fun e => h1 (List.mem_map.mpr ⟨x, hx, e⟩)
      simpa [← he] using this

theorem foldl_upsert_keys_mem {α κ : Type} [DecidableEq κ] (key : α → κ) (R : List α) :
    ∀ (l : List α) (k : κ), k ∈ l.map key → k ∈ (R.foldl (upsert key) l).map key := by
  induction R with
  | nil => intro l k h; exact h
  | cons r R ih =>
    intro l k h
    exact ih _ k (upsert_keys_mem key l r k h)

theorem foldl_upsert_keys_all {α κ : Type} [DecidableEq κ] (key : α → κ) (R : List α) :
    ∀ (l : List α), ∀ r ∈ R, key r ∈ (R.foldl (upsert key) l).map key := by
  induction R with
  | nil => intro l r h; simp at h
  | cons r0 R ih =>
    intro l r h
    rcases List.mem_cons.mp h with e | e
    · subst e
      exact foldl_upsert_keys_mem key R _ _ (upsert_key_self key l r)
    · exact ih _ r e

theorem foldl_upsert_swallow {α κ : Type} [DecidableEq κ] (key : α → κ) (r : α) (R : List α) :
    ∀ (X : List α), (∀ r1 ∈ R, key r1 ∈ X.map key) →
      upsert key (R.foldl (upsert key) (upsert key X r)) r =
        upsert key (R.foldl (upsert key) X) r := by
  induction R with
  | nil =>
    intro X _
    exact upsert_absorb key X r r rfl
  | cons r1 R ih =>
    intro X hX
    have hR : ∀ r2 ∈ R, key r2 ∈ (upsert key X r1).map key := fun r2 h2 =>
      upsert_keys_mem key X r1 _ (hX r2 (by simp [h2]))
    simp only [List.foldl_cons]
    by_cases he : key r = key r1
    · rw [upsert_absorb key X r r1 he]
    · rw [upsert_comm key X r1 r (fun e => he e.symm) (hX r1 (by simp))]
      exact ih _ hR

/-- Merging the same records twice is merging them once. -/
theorem foldl_upsert_idem {α κ : Type} [DecidableEq κ] (key : α → κ) (R : List α) :
    ∀ (l : List α), R.foldl (upsert key) (R.foldl (upsert key) l) = R.foldl (upsert key) l := by
  induction R using List.reverseRecOn with
  | nil => intro l; rfl
  | append_singleton R r ih =>
    intro l
    simp only [List.foldl_append, List.foldl_cons, List.foldl_nil]
    rw [foldl_upsert_swallow key r R _ (fun r1 h1 => foldl_upsert_keys_all key R l r1 h1), ih]

theorem foldl_upsert_fresh {α κ : Type} [DecidableEq κ] (key : α → κ) (R : List α) :
    ∀ (l : List α), (∀ r ∈ R, key r ∉ l.map key) → (R.map key).Nodup →
      R.foldl (upsert key) l = l ++ R := by
  induction R with
  | nil => intro l _ _; simp
  | cons r R ih =>
    intro l hl hnd
    simp only [List.map_cons, List.nodup_cons] at hnd
    simp only [List.foldl_cons]
    rw [upsert_absent key l r (hl r (by simp)), ih _ ?_ hnd.2]
    · simp
    · intro r2 h2
      simp only [List.map_append, List.map_cons, List.map_nil, List.mem_append,
        List.mem_singleton, not_or]
      refine ⟨hl r2 (by simp [h2]), ?_⟩
      intro e
      exact hnd.1 (e ▸ List.mem_map.mpr ⟨r2, h2, rfl⟩)

theorem upsert_nodup {α κ : Type} [DecidableEq κ] (key : α → κ) (l : List α) (r : α)
    (h : (l.map key).Nodup) : ((upsert key l r).map key).Nodup := by
  by_cases hk : key r ∈ l.map key
  · rw [upsert_present key l r hk, modifyFirst_keys]
    exact h
  · rw [upsert_absent key l r hk]
    simp only [List.map_append, List.map_cons, List.map_nil]
    rw [List.nodup_append]
    refine ⟨h, by simp, ?_⟩
    intro a ha hb
    simp only [List.mem_singleton] at hb
    exact hk (hb ▸ ha)

theorem foldl_upsert_nodup {α κ : Type} [DecidableEq κ] (key : α → κ) (R : List α) :
    ∀ (l : List α), (l.map key).Nodup → ((R.foldl (upsert key) l).map key).Nodup := by
  induction R with
  | nil => intro l h; exact h
  | cons r R ih =>
    intro l h
    exact ih _ (upsert_nodup key l r h)

/-! ## The import loops as merges by key -/

theorem modifyFirst_congr {α : Type} (p : α → Bool) (f g : α → α) (l : List α)
    (h : ∀ x, p x = true → f x = g x) : modifyFirst p f l = modifyFirst p g l := by
  induction l with
  | nil => rfl
  | cons x xs ih =>
    by_cases hx : p x = true
    · simp [modifyFirst, hx, h x hx]
    · simp [modifyFirst, hx, ih]

theorem find?_key_none {α κ : Type} [DecidableEq κ] (key : α → κ) (k : κ) (l : List α) :
    l.find? (fun x => key x == k) = none ↔ k ∉ l.map key := by
  simp only [List.find?_eq_none, beq_iff_eq, List.mem_map, not_exists, not_and]

theorem Service.eq_of_fields (s t : Service) (h1 : s.nextAccountID = t.nextAccountID)
    (h2 : s.accounts = t.accounts) (h3 : s.payments = t.payments)
    (h4 : s.favorites = t.favorites) : s = t := by
  cases s; cases t
  simp only [Service.mk.injEq]
  exact ⟨h1, h2, h3, h4⟩

theorem importAccount_fields (s : Service) (acc : Account) :
    (importAccount s acc).accounts = upsert Account.ID s.accounts acc ∧
    (importAccount s acc).payments = s.payments ∧
    (importAccount s acc).favorites = s.favorites ∧
    (acc.ID ∈ s.accounts.map Account.ID →
      (importAccount s acc).nextAccountID = s.nextAccountID) ∧
    (acc.ID ∉ s.accounts.map Account.ID →
      (importAccount s acc).nextAccountID = wrap64 (s.nextAccountID + 1)) := by
  unfold importAccount FindAccountByID
  cases hfind : s.accounts.find? (fun a => a.ID == acc.ID) with
  | none =>
    have hk := (find?_key_none Account.ID acc.ID s.accounts).mp hfind
    refine ⟨?_, rfl, rfl, fun h => absurd h hk, fun _ => rfl⟩
    rw [upsert_absent Account.ID _ _ hk]
  | some found =>
    have hk : acc.ID ∈ s.accounts.map Account.ID := by
      by_contra hc
      rw [(find?_key_none Account.ID acc.ID s.accounts).mpr hc] at hfind
      cases hfind
    refine ⟨?_, rfl, rfl, fun _ => rfl, fun h => absurd hk h⟩
    rw [upsert_present Account.ID _ _ hk]
    apply modifyFirst_congr
    intro x hx
    simp only [beq_iff_eq] at hx
    cases x; cases acc
    simp_all

theorem importPayment_fields (s : Service) (pay : Payment) :
    (importPayment s pay).payments = upsert Payment.ID s.payments pay ∧
    (importPayment s pay).accounts = s.accounts ∧
    (importPayment s pay).favorites = s.favorites ∧
    (importPayment s pay).nextAccountID = s.nextAccountID := by
  unfold importPayment FindPaymentByID
  cases hfind : s.payments.find? (fun p => p.ID == pay.ID) with
  | none =>
    have hk := (find?_key_none Payment.ID pay.ID s.payments).mp hfind
    refine ⟨?_, rfl, rfl, rfl⟩
    rw [upsert_absent Payment.ID _ _ hk]
  | some found =>
    have hk : pay.ID ∈ s.payments.map Payment.ID := by
      by_contra hc
      rw [(find?_key_none Payment.ID pay.ID s.payments).mpr hc] at hfind
      cases hfind
    refine ⟨?_, rfl, rfl, rfl⟩
    rw [upsert_present Payment.ID _ _ hk]
    apply modifyFirst_congr
    intro x hx
    simp only [beq_iff_eq] at hx
    cases x; cases pay
    simp_all

theorem importFavorite_fields (s : Service) (fav : Favorite) :
    (importFavorite s fav).favorites = upsert Favorite.ID s.favorites fav ∧
    (importFavorite s fav).accounts = s.accounts ∧
    (importFavorite s fav).payments = s.payments ∧
    (importFavorite s fav).nextAccountID = s.nextAccountID := by
  unfold importFavorite FindFavoriteByID
  cases hfind : s.favorites.find? (fun f => f.ID == fav.ID) with
  | none =>
    have hk := (find?_key_none Favorite.ID fav.ID s.favorites).mp hfind
    refine ⟨?_, rfl, rfl, rfl⟩
    rw [upsert_absent Favorite.ID _ _ hk]
  | some found =>
    have hk : fav.ID ∈ s.favorites.map Favorite.ID := by
      by_contra hc
      rw [(find?_key_none Favorite.ID fav.ID s.favorites).mpr hc] at hfind
      cases hfind
    refine ⟨?_, rfl, rfl, rfl⟩
    rw [upsert_present Favorite.ID _ _ hk]
    apply modifyFirst_congr
    intro x hx
    simp only [beq_iff_eq] at hx
    cases x; cases fav
    simp_all

theorem foldl_importAccount_fields (A : List Account) :
    ∀ s : Service,
      (A.foldl importAccount s).accounts = A.foldl (upsert Account.ID) s.accounts ∧
      (A.foldl importAccount s).payments = s.payments ∧
      (A.foldl importAccount s).favorites = s.favorites ∧
      ((∀ a ∈ A, a.ID ∈ s.accounts.map Account.ID) →
        (A.foldl importAccount s).nextAccountID = s.nextAccountID) := by
  induction A with
  | nil => intro s; exact ⟨rfl, rfl, rfl, fun _ => rfl⟩
  | cons a A ih =>
    intro s
    obtain ⟨h1, h2, h3, h4, _⟩ := importAccount_fields s a
    obtain ⟨i1, i2, i3, i4⟩ := ih (importAccount s a)
    simp only [List.foldl_cons]
    refine ⟨by rw [i1, h1], by rw [i2, h2], by rw [i3, h3], ?_⟩
    intro hall
    rw [i4, h4 (hall a (by simp))]
    intro b hb
    rw [h1]
    exact upsert_keys_mem Account.ID _ _ _ (hall b (by simp [hb]))

theorem foldl_importPayment_fields (P : List Payment) :
    ∀ s : Service,
      (P.foldl importPayment s).payments = P.foldl (upsert Payment.ID) s.payments ∧
      (P.foldl importPayment s).accounts = s.accounts ∧
      (P.foldl importPayment s).favorites = s.favorites ∧
      (P.foldl importPayment s).nextAccountID = s.nextAccountID := by
  induction P with
  | nil => intro s; exact ⟨rfl, rfl, rfl, rfl⟩
  | cons a P ih =>
    intro s
    obtain ⟨h1, h2, h3, h4⟩ := importPayment_fields s a
    obtain ⟨i1, i2, i3, i4⟩ := ih (importPayment s a)
    simp only [List.foldl_cons]
    exact ⟨by rw [i1, h1], by rw [i2, h2], by rw [i3, h3], by rw [i4, h4]⟩

theorem foldl_importFavorite_fields (F : List Favorite) :
    ∀ s : Service,
      (F.foldl importFavorite s).favorites = F.foldl (upsert Favorite.ID) s.favorites ∧
      (F.foldl importFavorite s).accounts = s.accounts ∧
      (F.foldl importFavorite s).payments = s.payments ∧
      (F.foldl importFavorite s).nextAccountID = s.nextAccountID := by
  induction F with
  | nil => intro s; exact ⟨rfl, rfl, rfl, rfl⟩
  | cons a F ih =>
    intro s
    obtain ⟨h1, h2, h3, h4⟩ := importFavorite_fields s a
    obtain ⟨i1, i2, i3, i4⟩ := ih (importFavorite s a)
    simp only [List.foldl_cons]
    exact ⟨by rw [i1, h1], by rw [i2, h2], by rw [i3, h3], by rw [i4, h4]⟩

/-- The four fields of the store `Import` leaves behind. -/
theorem Import_fields (s : Service) (dir : Dir) :
    (Import s dir).accounts =
      (ImportAccounts dir.accounts ";" "\n").foldl (upsert Account.ID) s.accounts ∧
    (Import s dir).payments =
      (ImportPayments dir.payments ";" "\n").foldl (upsert Payment.ID) s.payments ∧
    (Import s dir).favorites =
      (ImportFavorites dir.favorites ";" "\n").foldl (upsert Favorite.ID) s.favorites ∧
    (Import s dir).nextAccountID =
      ((ImportAccounts dir.accounts ";" "\n").foldl importAccount s).nextAccountID := by
  obtain ⟨a1, a2, a3, _⟩ := foldl_importAccount_fields (ImportAccounts dir.accounts ";" "\n") s
  obtain ⟨p1, p2, p3, p4⟩ := foldl_importPayment_fields (ImportPayments dir.payments ";" "\n")
    ((ImportAccounts dir.accounts ";" "\n").foldl importAccount s)
  obtain ⟨f1, f2, f3, f4⟩ := foldl_importFavorite_fields (ImportFavorites dir.favorites ";" "\n")
    ((ImportPayments dir.payments ";" "\n").foldl importPayment
      ((ImportAccounts dir.accounts ";" "\n").foldl importAccount s))
  unfold Import
  simp only []
  refine ⟨?_, ?_, ?_, ?_⟩
  · rw [f2, p2, a1]
  · rw [f3, p1, a2]
  · rw [f1, p3, a3]
  · rw [f4, p4]

/-- C6: whatever the store and the contents of the three dump files, importing the
same directory a second time leaves the store exactly as the first import left it
(accounts, payments, favorites and account-ID counter). -/
theorem Import_idempotent (s : Service) (dir : Dir) :
    Import (Import s dir) dir = Import s dir := by
  obtain ⟨h1, h2, h3, h4⟩ := Import_fields s dir
  obtain ⟨g1, g2, g3, g4⟩ := Import_fields (Import s dir) dir
  apply Service.eq_of_fields
  · rw [g4]
    apply (foldl_importAccount_fields (ImportAccounts dir.accounts ";" "\n") (Import s dir)).2.2.2
    intro a ha
    rw [h1]
    exact foldl_upsert_keys_all Account.ID _ _ a ha
  · rw [g1, h1, foldl_upsert_idem]
  · rw [g2, h2, foldl_upsert_idem]
  · rw [g3, h3, foldl_upsert_idem]

/-! ## Directory round trip -/

theorem foldl_data {α : Type} (f : String → α → String) (enc : α → List Char)
    (h : ∀ str r, (f str r).data = str.data ++ enc r) (L : List α) :
    ∀ init : String, (L.foldl f init).data = init.data ++ (L.map enc).flatten := by
  induction L with
  | nil => intro init; simp
  | cons r L ih =>
    intro init
    simp only [List.foldl_cons, List.map_cons, List.flatten_cons]
    rw [ih, h, List.append_assoc]

theorem semicolon_data : (";" : String).data = [';'] := rfl

theorem newline_data : ("\n" : String).data = ['\n'] := rfl

theorem ExportAccountsToString_data (s : Service) :
    (ExportAccountsToString s ";" "\n").data =
      (s.accounts.map (fun a => accountLine a ++ ['\n'])).flatten := by
  unfold ExportAccountsToString
  rw [foldl_data _ (fun a => accountLine a ++ ['\n'])]
  · rfl
  · intro str a
    simp [String.data_append, accountLine, semicolon_data, newline_data, List.append_assoc]

theorem ExportPaymentsToString_data (s : Service) :
    (ExportPaymentsToString s ";" "\n").data =
      (s.payments.map (fun a => paymentLine a ++ ['\n'])).flatten := by
  unfold ExportPaymentsToString
  rw [foldl_data _ (fun a => paymentLine a ++ ['\n'])]
  · rfl
  · intro str a
    simp [String.data_append, paymentLine, semicolon_data, newline_data, List.append_assoc]

theorem ExportFavoritesToString_data (s : Service) :
    (ExportFavoritesToString s ";" "\n").data =
      (s.favorites.map (fun a => favoriteLine a ++ ['\n'])).flatten := by
  unfold ExportFavoritesToString
  rw [foldl_data _ (fun a => favoriteLine a ++ ['\n'])]
  · rfl
  · intro str a
    simp [String.data_append, favoriteLine, semicolon_data, newline_data, List.append_assoc]

theorem decode_lines {α : Type} (line : α → List Char) (decode : List String → Option α)
    (hempty : decode (Split "" ";") = none) (recs : List α)
    (h : ∀ r ∈ recs, '\n' ∉ line r ∧ decode (Split (String.mk (line r)) ";") = some r) :
    (Split (String.mk ((recs.map (fun r => line r ++ ['\n'])).flatten)) "\n").filterMap
      (fun dt => decode (Split dt ";")) = recs := by
  rw [Split_newline]
  simp only []
  induction recs with
  | nil =>
    simp only [List.map_nil, List.flatten_nil, splitGo, List.map_cons, List.filterMap_cons]
    have e : String.mk [] = "" := rfl
    rw [e, hempty]
    rfl
  | cons r recs ih =>
    obtain ⟨h1, h2⟩ := h r (by simp)
    simp only [List.map_cons, List.flatten_cons, List.append_assoc, List.singleton_append]
    rw [splitGo_field '\n' _ _ h1]
    simp only [List.map_cons, List.filterMap_cons, h2]
    rw [ih (fun r2 hr2 => h r2 (by simp [hr2]))]

theorem decodeAccount_line (a : Account)
    (h : isInt64 a.ID ∧ textOK a.Phone ∧ isInt64 a.Balance) :
    '\n' ∉ accountLine a ∧ decodeAccount (Split (String.mk (accountLine a)) ";") = some a := by
  obtain ⟨hid, ⟨hp1, hp2⟩, hbal⟩ := h
  have n1 := FormatInt_no_sep a.ID
  have n2 := FormatInt_no_sep a.Balance
  constructor
  · simp [accountLine, n1.2, n2.2, hp2]
  · rw [Split_semicolon]
    simp only [accountLine]
    rw [splitGo_field ';' _ _ n1.1, splitGo_field ';' _ _ hp1, splitGo_last ';' _ n2.1]
    simp only [List.map_cons, List.map_nil, decodeAccount]
    have e1 : String.mk (FormatInt a.ID).data = FormatInt a.ID := rfl
    have e2 : String.mk (FormatInt a.Balance).data = FormatInt a.Balance := rfl
    rw [e1, e2, ParseInt_FormatInt _ hid, ParseInt_FormatInt _ hbal]

theorem decodePayment_line (p : Payment)
    (h : textOK p.ID ∧ isInt64 p.AccountID ∧ isInt64 p.Amount ∧ textOK p.Category ∧
      textOK p.Status) :
    '\n' ∉ paymentLine p ∧ decodePayment (Split (String.mk (paymentLine p)) ";") = some p := by
  obtain ⟨⟨hi1, hi2⟩, hacc, hamt, ⟨hc1, hc2⟩, ⟨hs1, hs2⟩⟩ := h
  have n1 := FormatInt_no_sep p.AccountID
  have n2 := FormatInt_no_sep p.Amount
  constructor
  · simp [paymentLine, n1.2, n2.2, hi2, hc2, hs2]
  · rw [Split_semicolon]
    simp only [paymentLine]
    rw [splitGo_field ';' _ _ hi1, splitGo_field ';' _ _ n1.1, splitGo_field ';' _ _ n2.1,
      splitGo_field ';' _ _ hc1, splitGo_field ';' _ _ hs1]
    simp only [List.map_cons, decodePayment]
    have e1 : String.mk (FormatInt p.AccountID).data = FormatInt p.AccountID := rfl
    have e2 : String.mk (FormatInt p.Amount).data = FormatInt p.Amount := rfl
    rw [e1, e2, ParseInt_FormatInt _ hacc, ParseInt_FormatInt _ hamt]

theorem decodeFavorite_line (f : Favorite)
    (h : textOK f.ID ∧ isInt64 f.AccountID ∧ textOK f.Name ∧ isInt64 f.Amount ∧
      textOK f.Category) :
    '\n' ∉ favoriteLine f ∧
      decodeFavorite (Split (String.mk (favoriteLine f)) ";") = some f := by
  obtain ⟨⟨hi1, hi2⟩, hacc, ⟨hn1, hn2⟩, hamt, ⟨hc1, hc2⟩⟩ := h
  have n1 := FormatInt_no_sep f.AccountID
  have n2 := FormatInt_no_sep f.Amount
  constructor
  · simp [favoriteLine, n1.2, n2.2, hi2, hn2, hc2]
  · rw [Split_semicolon]
    simp only [favoriteLine]
    rw [splitGo_field ';' _ _ hi1, splitGo_field ';' _ _ n1.1, splitGo_field ';' _ _ hn1,
      splitGo_field ';' _ _ n2.1, splitGo_field ';' _ _ hc1]
    simp only [List.map_cons, decodeFavorite]
    have e1 : String.mk (FormatInt f.AccountID).data = FormatInt f.AccountID := rfl
    have e2 : String.mk (FormatInt f.Amount).data = FormatInt f.Amount := rfl
    rw [e1, e2, ParseInt_FormatInt _ hacc, ParseInt_FormatInt _ hamt]

theorem String_eq_mk_data (t : String) (l : List Char) (h : t.data = l) : t = String.mk l := by
  cases t
  simp only at h
  rw [h]

theorem ImportAccounts_Export (s : Service)
    (h : ∀ a ∈ s.accounts, isInt64 a.ID ∧ textOK a.Phone ∧ isInt64 a.Balance) :
    ImportAccounts (some (ExportAccountsToString s ";" "\n")) ";" "\n" = s.accounts := by
  unfold ImportAccounts
  simp only []
  rw [String_eq_mk_data _ _ (ExportAccountsToString_data s)]
  exact decode_lines accountLine decodeAccount (by decide) s.accounts
    (fun a ha => decodeAccount_line a (h a ha))

theorem ImportPayments_Export (s : Service)
    (h : ∀ p ∈ s.payments, textOK p.ID ∧ isInt64 p.AccountID ∧ isInt64 p.Amount ∧
      textOK p.Category ∧ textOK p.Status) :
    ImportPayments (some (ExportPaymentsToString s ";" "\n")) ";" "\n" = s.payments := by
  unfold ImportPayments
  simp only []
  rw [String_eq_mk_data _ _ (ExportPaymentsToString_data s)]
  exact decode_lines paymentLine decodePayment (by decide) s.payments
    (fun a ha => decodePayment_line a (h a ha))

theorem ImportFavorites_Export (s : Service)
    (h : ∀ f ∈ s.favorites, textOK f.ID ∧ isInt64 f.AccountID ∧ textOK f.Name ∧
      isInt64 f.Amount ∧ textOK f.Category) :
    ImportFavorites (some (ExportFavoritesToString s ";" "\n")) ";" "\n" = s.favorites := by
  unfold ImportFavorites
  simp only []
  rw [String_eq_mk_data _ _ (ExportFavoritesToString_data s)]
  exact decode_lines favoriteLine decodeFavorite (by decide) s.favorites
    (fun a ha => decodeFavorite_line a (h a ha))

theorem Export_emptyDir (s : Service) :
    Export s emptyDir =
      { accounts := if s.accounts = [] then none else some (ExportAccountsToString s ";" "\n"),
        payments := if s.payments = [] then none else some (ExportPaymentsToString s ";" "\n"),
        favorites :=
          if s.favorites = [] then none else some (ExportFavoritesToString s ";" "\n") } := by
  unfold Export emptyDir
  by_cases h1 : s.accounts = [] <;> by_cases h2 : s.payments = [] <;>
    by_cases h3 : s.favorites = [] <;> simp [h1, h2, h3]

/-- C5: for a store whose account IDs, payment IDs and favorite IDs are pairwise
distinct, whose text fields hold neither `;` nor a newline (and whose integers are
`int64` values), the directory written by `Export` into an empty directory holds a file
exactly for each non-empty collection, and `Import` of that directory into the empty
store yields accounts, payments and favorites lists equal to the original ones. -/
theorem Export_Import_roundtrip (s : Service)
    (hA : (s.accounts.map Account.ID).Nodup) (hP : (s.payments.map Payment.ID).Nodup)
    (hF : (s.favorites.map Favorite.ID).Nodup)
    (hAok : ∀ a ∈ s.accounts, isInt64 a.ID ∧ textOK a.Phone ∧ isInt64 a.Balance)
    (hPok : ∀ p ∈ s.payments, textOK p.ID ∧ isInt64 p.AccountID ∧ isInt64 p.Amount ∧
      textOK p.Category ∧ textOK p.Status)
    (hFok : ∀ f ∈ s.favorites, textOK f.ID ∧ isInt64 f.AccountID ∧ textOK f.Name ∧
      isInt64 f.Amount ∧ textOK f.Category) :
    ((Export s emptyDir).accounts = none ↔ s.accounts = []) ∧
    ((Export s emptyDir).payments = none ↔ s.payments = []) ∧
    ((Export s emptyDir).favorites = none ↔ s.favorites = []) ∧
    (Import emptyService (Export s emptyDir)).accounts = s.accounts ∧
    (Import emptyService (Export s emptyDir)).payments = s.payments ∧
    (Import emptyService (Export s emptyDir)).favorites = s.favorites := by
  obtain ⟨h1, h2, h3, _⟩ := Import_fields emptyService (Export s emptyDir)
  rw [h1, h2, h3, Export_emptyDir]
  simp only []
  refine ⟨?_, ?_, ?_, ?_, ?_, ?_⟩
  · by_cases e : s.accounts = [] <;> simp [e]
  · by_cases e : s.payments = [] <;> simp [e]
  · by_cases e : s.favorites = [] <;> simp [e]
  · by_cases e : s.accounts = []
    · rw [if_pos e, e]; rfl
    · rw [if_neg e, ImportAccounts_Export s hAok,
        foldl_upsert_fresh Account.ID _ _ (by simp [emptyService]) hA]
      rfl
  · by_cases e : s.payments = []
    · rw [if_pos e, e]; rfl
    · rw [if_neg e, ImportPayments_Export s hPok,
        foldl_upsert_fresh Payment.ID _ _ (by simp [emptyService]) hP]
      rfl
  · by_cases e : s.favorites = []
    · rw [if_pos e, e]; rfl
    · rw [if_neg e, ImportFavorites_Export s hFok,
        foldl_upsert_fresh Favorite.ID _ _ (by simp [emptyService]) hF]
      rfl

theorem Export_Import_roundtrip_witness :
    (Import emptyService
      (Export { nextAccountID := 1, accounts := [⟨1, "+992935007339", 99520⟩],
                payments := [⟨"p-1", 1, 60, "smart city", "INPROGRESS"⟩,
                             ⟨"p-2", 1, 120, "smart boy", "FAIL"⟩],
                favorites := [⟨"f-1", 1, "boys1", 60, "smart city"⟩] } emptyDir)).payments =
      [⟨"p-1", 1, 60, "smart city", "INPROGRESS"⟩, ⟨"p-2", 1, 120, "smart boy", "FAIL"⟩] :=
  (Export_Import_roundtrip
    { nextAccountID := 1, accounts := [⟨1, "+992935007339", 99520⟩],
      payments := [⟨"p-1", 1, 60, "smart city", "INPROGRESS"⟩,
                   ⟨"p-2", 1, 120, "smart boy", "FAIL"⟩],
      favorites := [⟨"f-1", 1, "boys1", 60, "smart city"⟩] }
    (by decide) (by decide) (by decide) (by decide) (by decide) (by decide)).2.2.2.2.1

/-! ## Uniqueness of account IDs -/

theorem modifyFirst_map_ID (p : Account → Bool) (f : Account → Account)
    (hf : ∀ a, (f a).ID = a.ID) (l : List Account) :
    (modifyFirst p f l).map Account.ID = l.map Account.ID := by
  induction l with
  | nil => rfl
  | cons x xs ih =>
    by_cases hx : p x = true
    · simp [modifyFirst, hx, hf x]
    · simp [modifyFirst, hx, ih]

theorem Pay_ids (s : Service) (uuid : String) (accountID amount : Int) (category : String) :
    (Pay s uuid accountID amount category).2.accounts.map Account.ID =
        s.accounts.map Account.ID ∧
      (Pay s uuid accountID amount category).2.nextAccountID = s.nextAccountID := by
  unfold Pay
  split
  · exact ⟨rfl, rfl⟩
  · split
    · exact ⟨rfl, rfl⟩
    · split
      · exact ⟨rfl, rfl⟩
      · refine ⟨?_, rfl⟩
        apply modifyFirst_map_ID
        intro a
        rfl

theorem Deposit_ids (s : Service) (accountID amount : Int) :
    (Deposit s accountID amount).2.accounts.map Account.ID = s.accounts.map Account.ID ∧
      (Deposit s accountID amount).2.nextAccountID = s.nextAccountID := by
  unfold Deposit
  split
  · exact ⟨rfl, rfl⟩
  · split
    · exact ⟨rfl, rfl⟩
    · refine ⟨?_, rfl⟩
      apply modifyFirst_map_ID
      intro a
      rfl

theorem Reject_ids (s : Service) (paymentID : String) :
    (Reject s paymentID).2.accounts.map Account.ID = s.accounts.map Account.ID ∧
      (Reject s paymentID).2.nextAccountID = s.nextAccountID := by
  unfold Reject
  split
  · exact ⟨rfl, rfl⟩
  · simp only []
    split
    · exact ⟨rfl, rfl⟩
    · refine ⟨?_, rfl⟩
      apply modifyFirst_map_ID
      intro a
      rfl

theorem Repeat_eq (s : Service) (newID paymentID : String) :
    Repeat s newID paymentID =
      match FindPaymentByID s paymentID with
      | .error err => (.error err, s)
      | .ok p => Pay s newID p.AccountID p.Amount p.Category := by
  unfold Repeat
  split
  · rfl
  · rename_i p _
    generalize Pay s newID p.AccountID p.Amount p.Category = r
    rcases r with ⟨_ | _, _⟩ <;> rfl

theorem PayFromFavorite_eq (s : Service) (newID favoriteID : String) :
    PayFromFavorite s newID favoriteID =
      match FindFavoriteByID s favoriteID with
      | .error err => (.error err, s)
      | .ok f => Pay s newID f.AccountID f.Amount f.Category := by
  unfold PayFromFavorite
  split
  · rfl
  · rename_i f _
    generalize Pay s newID f.AccountID f.Amount f.Category = r
    rcases r with ⟨_ | _, _⟩ <;> rfl

theorem Repeat_ids (s : Service) (newID paymentID : String) :
    (Repeat s newID paymentID).2.accounts.map Account.ID = s.accounts.map Account.ID ∧
      (Repeat s newID paymentID).2.nextAccountID = s.nextAccountID := by
  rw [Repeat_eq]
  split
  · exact ⟨rfl, rfl⟩
  · exact Pay_ids _ _ _ _ _

theorem PayFromFavorite_ids (s : Service) (newID favoriteID : String) :
    (PayFromFavorite s newID favoriteID).2.accounts.map Account.ID =
        s.accounts.map Account.ID ∧
      (PayFromFavorite s newID favoriteID).2.nextAccountID = s.nextAccountID := by
  rw [PayFromFavorite_eq]
  split
  · exact ⟨rfl, rfl⟩
  · exact Pay_ids _ _ _ _ _

theorem FavoritePayment_ids (s : Service) (favoriteID paymentID name : String) :
    (FavoritePayment s favoriteID paymentID name).2.accounts.map Account.ID =
        s.accounts.map Account.ID ∧
      (FavoritePayment s favoriteID paymentID name).2.nextAccountID = s.nextAccountID := by
  unfold FavoritePayment
  split <;> exact ⟨rfl, rfl⟩

theorem sequentialIDs_of_same (s t : Service) (h : sequentialIDs s)
    (hids : t.accounts.map Account.ID = s.accounts.map Account.ID)
    (hc : t.nextAccountID = s.nextAccountID) : sequentialIDs t := by
  have hl : t.accounts.length = s.accounts.length := by
    have := congrArg List.length hids
    simpa using this
  unfold sequentialIDs at *
  rw [hl, hids, hc]
  exact h

theorem sequentialIDs_step (s : Service) (op : Op) (hop : op.isImport = false)
    (h : sequentialIDs s) : sequentialIDs (step s op) := by
  cases op with
  | registerAccount phone =>
    simp only [step]
    by_cases hp : ∃ a ∈ s.accounts, a.Phone = phone
    · rw [RegisterAccount_taken s phone hp]
      exact h
    · have hp2 : ∀ a ∈ s.accounts, a.Phone ≠ phone := fun a ha hc => hp ⟨a, ha, hc⟩
      rw [RegisterAccount_fresh s phone hp2]
      unfold sequentialIDs at *
      simp only [List.length_append, List.length_cons, List.length_nil, Nat.cast_add,
        Nat.cast_one, List.map_append, List.map_cons, List.map_nil, zero_add]
      intro hlen
      obtain ⟨hc, hids⟩ := h (by omega)
      have hw : wrap64 (s.nextAccountID + 1) = s.nextAccountID + 1 := by
        apply wrap64_of_isInt64
        unfold isInt64
        omega
      rw [hw, hids, hc, List.range_succ]
      simp
  | deposit accountID amount =>
    exact sequentialIDs_of_same s _ h (Deposit_ids s accountID amount).1
      (Deposit_ids s accountID amount).2
  | pay uuid accountID amount category =>
    exact sequentialIDs_of_same s _ h (Pay_ids s uuid accountID amount category).1
      (Pay_ids s uuid accountID amount category).2
  | reject paymentID =>
    exact sequentialIDs_of_same s _ h (Reject_ids s paymentID).1 (Reject_ids s paymentID).2
  | repeatPayment uuid paymentID =>
    exact sequentialIDs_of_same s _ h (Repeat_ids s uuid paymentID).1
      (Repeat_ids s uuid paymentID).2
  | favoritePayment uuid paymentID name =>
    exact sequentialIDs_of_same s _ h (FavoritePayment_ids s uuid paymentID name).1
      (FavoritePayment_ids s uuid paymentID name).2
  | payFromFavorite uuid favoriteID =>
    exact sequentialIDs_of_same s _ h (PayFromFavorite_ids s uuid favoriteID).1
      (PayFromFavorite_ids s uuid favoriteID).2
  | importDir dir => simp [Op.isImport] at hop

theorem sequentialIDs_run (ops : List Op) :
    ∀ s : Service, (∀ op ∈ ops, op.isImport = false) → sequentialIDs s →
      sequentialIDs (run s ops) := by
  induction ops with
  | nil => intro s _ h; exact h
  | cons op ops ih =>
    intro s hops h
    exact ih (step s op) (fun o ho => hops o (by simp [ho]))
      (sequentialIDs_step s op (hops op (by simp)) h)

theorem sequentialIDs_empty : sequentialIDs emptyService := by
  intro _
  exact ⟨rfl, rfl⟩

theorem nodup_range_succ (n : Nat) :
    ((List.range n).map (fun (i : Nat) => (i : Int) + 1)).Nodup := by
  apply List.Nodup.map _ (List.nodup_range n)
  intro a b hab
  simp only at hab
  omega

/-- C8 (amended): in every store reached from the empty store by RegisterAccount,
Deposit, Pay, Reject, Repeat, FavoritePayment and PayFromFavorite calls (no import) and
holding at most 2^63 - 1 accounts, no two accounts have the same ID, and a successful
RegisterAccount that keeps the store within that size returns an ID different from the
ID of every account already in the store; a directory Import of any file contents into
a store with pairwise distinct account IDs leaves them pairwise distinct. -/
theorem accountIDs_unique :
    (∀ ops : List Op, (∀ op ∈ ops, op.isImport = false) →
      ((run emptyService ops).accounts.length : Int) ≤ 9223372036854775807 →
      ((run emptyService ops).accounts.map Account.ID).Nodup ∧
      (∀ (phone : String) (a : Account) (s1 : Service),
        RegisterAccount (run emptyService ops) phone = (.ok a, s1) →
        (s1.accounts.length : Int) ≤ 9223372036854775807 →
        a.ID ∉ (run emptyService ops).accounts.map Account.ID)) ∧
    (∀ (s : Service) (dir : Dir), (s.accounts.map Account.ID).Nodup →
      ((Import s dir).accounts.map Account.ID).Nodup) := by
  refine ⟨?_, ?_⟩
  · intro ops hops hlen
    have hseq := sequentialIDs_run ops emptyService hops sequentialIDs_empty
    refine ⟨?_, ?_⟩
    · rw [(hseq hlen).2]
      exact nodup_range_succ _
    · intro phone a s1 hreg hlen1
      have hseq1 : sequentialIDs (run emptyService (ops ++ [.registerAccount phone])) := by
        apply sequentialIDs_run _ _ _ sequentialIDs_empty
        intro op hop
        rcases List.mem_append.mp hop with h | h
        · exact hops op h
        · simp only [List.mem_singleton] at h
          subst h
          rfl
      have hrun : run emptyService (ops ++ [.registerAccount phone]) = s1 := by
        simp only [run, List.foldl_append, List.foldl_cons, List.foldl_nil, step]
        simp only [run] at hreg
        rw [hreg]
      rw [hrun] at hseq1
      have hnd : (s1.accounts.map Account.ID).Nodup := by
        rw [(hseq1 hlen1).2]
        exact nodup_range_succ _
      by_cases hp : ∃ b ∈ (run emptyService ops).accounts, b.Phone = phone
      · rw [RegisterAccount_taken _ phone hp] at hreg
        cases hreg
      · have hp2 : ∀ b ∈ (run emptyService ops).accounts, b.Phone ≠ phone :=
          fun b hb hc => hp ⟨b, hb, hc⟩
        rw [RegisterAccount_fresh _ phone hp2] at hreg
        simp only [Prod.mk.injEq, Except.ok.injEq] at hreg
        obtain ⟨ha, hs1⟩ := hreg
        rw [← hs1] at hnd
        simp only [List.map_append, List.map_cons, List.map_nil] at hnd
        rw [List.nodup_append] at hnd
        intro hmem
        rw [← ha] at hmem
        exact hnd.2.2 hmem (by simp)
  · intro s dir hnd
    rw [(Import_fields s dir).1]
    exact foldl_upsert_nodup Account.ID _ _ hnd

theorem accountIDs_unique_witness :
    ((run emptyService [.registerAccount "+992935007339", .deposit 1 100,
        .registerAccount "+992935007340", .pay "p-1" 1 50 "myWorld"]).accounts.map
      Account.ID).Nodup :=
  (accountIDs_unique.1 [.registerAccount "+992935007339", .deposit 1 100,
      .registerAccount "+992935007340", .pay "p-1" 1 50 "myWorld"]
    (by decide) (by decide)).1

/-- C8 (as stated) fails: after the directory import of an accounts file holding the
single record `2;+992935007339;0` into the empty store the counter is 1, and the next
RegisterAccount succeeds with ID 2, the ID of the imported account. -/
theorem accountIDs_import_counterexample :
    Import emptyService ⟨some "2;+992935007339;0\n", none, none⟩ =
      { nextAccountID := 1, accounts := [⟨2, "+992935007339", 0⟩], payments := [],
        favorites := [] } ∧
    RegisterAccount { nextAccountID := 1, accounts := [⟨2, "+992935007339", 0⟩],
                      payments := [], favorites := [] } "+992935007340" =
      (.ok ⟨2, "+992935007340", 0⟩,
       { nextAccountID := 2,
         accounts := [⟨2, "+992935007339", 0⟩, ⟨2, "+992935007340", 0⟩],
         payments := [], favorites := [] }) ∧
    ¬ ((run emptyService [.importDir ⟨some "2;+992935007339;0\n", none, none⟩,
        .registerAccount "+992935007340"]).accounts.map Account.ID).Nodup := by
  decide

/-! ## The counter and the number of accounts -/

theorem counterBounded_of_same (s t : Service) (h : counterBounded s)
    (hids : t.accounts.map Account.ID = s.accounts.map Account.ID)
    (hc : t.nextAccountID = s.nextAccountID) : counterBounded t := by
  have hl : t.accounts.length = s.accounts.length := by
    have := congrArg List.length hids
    simpa using this
  unfold counterBounded at *
  rw [hl, hc]
  exact h

theorem counterBounded_importAccount (s : Service) (acc : Account) (h : counterBounded s) :
    counterBounded (importAccount s acc) := by
  obtain ⟨h1, _, _, h4, h5⟩ := importAccount_fields s acc
  by_cases hk : acc.ID ∈ s.accounts.map Account.ID
  · apply counterBounded_of_same s _ h _ (h4 hk)
    rw [h1, upsert_present Account.ID _ _ hk, modifyFirst_keys]
  · unfold counterBounded at *
    rw [h1, h5 hk, upsert_absent Account.ID _ _ hk]
    simp only [List.length_append, List.length_cons, List.length_nil, Nat.cast_add,
      Nat.cast_one, zero_add]
    intro hlen
    obtain ⟨c0, c1⟩ := h (by omega)
    have hw : wrap64 (s.nextAccountID + 1) = s.nextAccountID + 1 := by
      apply wrap64_of_isInt64
      unfold isInt64
      omega
    rw [hw]
    omega

theorem counterBounded_foldl_importAccount (A : List Account) :
    ∀ s : Service, counterBounded s → counterBounded (A.foldl importAccount s) := by
  induction A with
  | nil => intro s h; exact h
  | cons a A ih =>
    intro s h
    exact ih _ (counterBounded_importAccount s a h)

theorem counterBounded_step (s : Service) (op : Op) (h : counterBounded s) :
    counterBounded (step s op) := by
  cases op with
  | registerAccount phone =>
    simp only [step]
    by_cases hp : ∃ a ∈ s.accounts, a.Phone = phone
    · rw [RegisterAccount_taken s phone hp]
      exact h
    · have hp2 : ∀ a ∈ s.accounts, a.Phone ≠ phone := fun a ha hc => hp ⟨a, ha, hc⟩
      rw [RegisterAccount_fresh s phone hp2]
      unfold counterBounded at *
      simp only [List.length_append, List.length_cons, List.length_nil, Nat.cast_add,
        Nat.cast_one, zero_add]
      intro hlen
      obtain ⟨c0, c1⟩ := h (by omega)
      have hw : wrap64 (s.nextAccountID + 1) = s.nextAccountID + 1 := by
        apply wrap64_of_isInt64
        unfold isInt64
        omega
      rw [hw]
      omega
  | deposit accountID amount =>
    exact counterBounded_of_same s _ h (Deposit_ids s accountID amount).1
      (Deposit_ids s accountID amount).2
  | pay uuid accountID amount category =>
    exact counterBounded_of_same s _ h (Pay_ids s uuid accountID amount category).1
      (Pay_ids s uuid accountID amount category).2
  | reject paymentID =>
    exact counterBounded_of_same s _ h (Reject_ids s paymentID).1 (Reject_ids s paymentID).2
  | repeatPayment uuid paymentID =>
    exact counterBounded_of_same s _ h (Repeat_ids s uuid paymentID).1
      (Repeat_ids s uuid paymentID).2
  | favoritePayment uuid paymentID name =>
    exact counterBounded_of_same s _ h (FavoritePayment_ids s uuid paymentID name).1
      (FavoritePayment_ids s uuid paymentID name).2
  | payFromFavorite uuid favoriteID =>
    exact counterBounded_of_same s _ h (PayFromFavorite_ids s uuid favoriteID).1
      (PayFromFavorite_ids s uuid favoriteID).2
  | importDir dir =>
    simp only [step]
    have hA := counterBounded_foldl_importAccount (ImportAccounts dir.accounts ";" "\n") s h
    obtain ⟨a1, _, _, _⟩ :=
      foldl_importAccount_fields (ImportAccounts dir.accounts ";" "\n") s
    obtain ⟨g1, _, _, g4⟩ := Import_fields s dir
    apply counterBounded_of_same _ _ hA _ g4
    rw [g1, a1]

/-- In every store reached from the empty store by calls of the public interface, the
directory import included, the counter lies between 0 and the number of accounts; so
it is below the `int64` maximum whenever one more account fits the slice. -/
theorem counter_le_length (ops : List Op) : counterBounded (run emptyService ops) := by
  have hgen : ∀ (l : List Op) (s : Service), counterBounded s → counterBounded (run s l) := by
    intro l
    induction l with
    | nil => intro s h; exact h
    | cons op l ih =>
      intro s h
      exact ih (step s op) (counterBounded_step s op h)
  apply hgen
  intro _
  exact ⟨by simp [emptyService], by simp [emptyService]⟩

/-! ## RegisterAccount: the contract -/

/-- C7: `RegisterAccount` with a phone some account already has returns
PhoneAlreadyRegistered, no account, and leaves the store unchanged, counter included;
otherwise it increments the counter by one, appends and returns the account with the
new counter value as ID, the phone and balance 0, the existing accounts unchanged. The
increment is an `int64` increment: it is stated for a counter below the `int64` maximum,
which holds in every store reached from the empty store in which one more account fits
the `int64` range of a slice length. From the empty store, registering the same phone
twice fails the second time, and the `k`-th successful call of any sequence of at most
2^63 - 1 registrations returns ID `k`. -/
theorem RegisterAccount_spec (s : Service) (phone : String) :
    ((∃ a ∈ s.accounts, a.Phone = phone) →
      RegisterAccount s phone = (.error .ErrPhoneRegistered, s)) ∧
    ((∀ a ∈ s.accounts, a.Phone ≠ phone) → isInt64 s.nextAccountID →
      s.nextAccountID < 9223372036854775807 →
      RegisterAccount s phone =
        (.ok ⟨s.nextAccountID + 1, phone, 0⟩,
         { nextAccountID := s.nextAccountID + 1,
           accounts := s.accounts ++ [⟨s.nextAccountID + 1, phone, 0⟩],
           payments := s.payments, favorites := s.favorites })) ∧
    (∀ ops : List Op, s = run emptyService ops → (∀ a ∈ s.accounts, a.Phone ≠ phone) →
      (s.accounts.length : Int) < 9223372036854775807 →
      RegisterAccount s phone =
        (.ok ⟨s.nextAccountID + 1, phone, 0⟩,
         { nextAccountID := s.nextAccountID + 1,
           accounts := s.accounts ++ [⟨s.nextAccountID + 1, phone, 0⟩],
           payments := s.payments, favorites := s.favorites })) ∧
    (RegisterAccount emptyService phone =
        (.ok ⟨1, phone, 0⟩,
         { nextAccountID := 1, accounts := [⟨1, phone, 0⟩], payments := [], favorites := [] }) ∧
      RegisterAccount (RegisterAccount emptyService phone).2 phone =
        (.error .ErrPhoneRegistered, (RegisterAccount emptyService phone).2)) ∧
    (∀ phones : List String, (phones.length : Int) ≤ 9223372036854775807 →
      (successes (registerAll emptyService phones).1).map (fun a => a.ID) =
        (List.range (successes (registerAll emptyService phones).1).length).map
          (fun (k : Nat) => (k : Int) + 1)) := by
  refine ⟨RegisterAccount_taken s phone, ?_, ?_, ⟨?_, ?_⟩, ?_⟩
  · intro h hr hmax
    have hw : wrap64 (s.nextAccountID + 1) = s.nextAccountID + 1 := by
      apply wrap64_of_isInt64
      unfold isInt64 at *
      omega
    rw [RegisterAccount_fresh s phone h, hw]
  · intro ops hs h hlen
    have hb : counterBounded s := hs ▸ counter_le_length ops
    obtain ⟨c0, c1⟩ := hb (by omega)
    have hw : wrap64 (s.nextAccountID + 1) = s.nextAccountID + 1 := by
      apply wrap64_of_isInt64
      unfold isInt64
      omega
    rw [RegisterAccount_fresh s phone h, hw]
  · rw [RegisterAccount_fresh emptyService phone (by simp [emptyService])]
    rfl
  · apply RegisterAccount_taken
    rw [RegisterAccount_fresh emptyService phone (by simp [emptyService])]
    simp [emptyService]
  · intro phones hlen
    have h := registerAll_ids phones emptyService (by simp [emptyService])
      (by simpa [emptyService] using hlen)
    rw [h]
    apply List.map_congr_left
    intro i _
    simp only [emptyService]
    ring

theorem RegisterAccount_spec_witness :
    RegisterAccount { nextAccountID := 1, accounts := [⟨1, "+992935007339", 100⟩],
                      payments := [], favorites := [] } "+992935007340" =
      (.ok ⟨1 + 1, "+992935007340", 0⟩,
       { nextAccountID := 1 + 1,
         accounts := [⟨1, "+992935007339", 100⟩] ++ [⟨1 + 1, "+992935007340", 0⟩],
         payments := [], favorites := [] }) :=
  (RegisterAccount_spec _ "+992935007340").2.1 (by decide) (by decide) (by decide)

/-! ## The methods with a parametric reduction, case by case -/

theorem Deposit_eq_DepositR (s : Service) (accountID amount : Int) :
    Deposit s accountID amount = DepositR wrap64 s accountID amount := rfl

theorem Pay_eq_PayR (s : Service) (uuid : String) (accountID amount : Int) (category : String) :
    Pay s uuid accountID amount category = PayR wrap64 s uuid accountID amount category := rfl

theorem Reject_eq_RejectR (s : Service) (paymentID : String) :
    Reject s paymentID = RejectR wrap64 s paymentID := rfl

theorem Repeat_eq_RepeatR (s : Service) (newID paymentID : String) :
    Repeat s newID paymentID = RepeatR wrap64 s newID paymentID := rfl

theorem PayFromFavorite_eq_PayFromFavoriteR (s : Service) (newID favoriteID : String) :
    PayFromFavorite s newID favoriteID = PayFromFavoriteR wrap64 s newID favoriteID := rfl

theorem step_eq_stepR (s : Service) (op : Op) : step s op = stepR wrap64 s op := by
  cases op <;> rfl

theorem run_eq_runR (ops : List Op) : ∀ s : Service, run s ops = runR wrap64 s ops := by
  induction ops with
  | nil => intro s; rfl
  | cons op ops ih =>
    intro s
    simp only [run, runR, List.foldl_cons] at ih ⊢
    rw [step_eq_stepR, ih]

theorem split_first {α : Type} (p : α → Bool) (l : List α) :
    (∀ a ∈ l, p a = false) ∨
      ∃ pre x post, l = pre ++ x :: post ∧ (∀ a ∈ pre, p a = false) ∧ p x = true := by
  cases h : l.find? p with
  | none =>
    left
    intro a ha
    have := List.find?_eq_none.mp h a ha
    simpa using this
  | some x =>
    right
    obtain ⟨pre, post, h1, h2, h3⟩ := find?_some_split p l x h
    exact ⟨pre, x, post, h1, h2, h3⟩

theorem DepositR_negative (red : Int → Int) (s : Service) (accountID A : Int) (h : A < 0) :
    DepositR red s accountID A = (some .ErrAmountMustBePositive, s) := by
  unfold DepositR
  rw [if_pos h]

theorem DepositR_noAccount (red : Int → Int) (s : Service) (accountID A : Int) (h0 : 0 ≤ A)
    (hno : ∀ a ∈ s.accounts, (fun acc : Account => acc.ID == accountID) a = false) :
    DepositR red s accountID A = (some .ErrAccountNotFound, s) := by
  unfold DepositR
  rw [if_neg (not_lt.mpr h0), find?_none_of_forall _ _ hno]

theorem DepositR_found (red : Int → Int) (s : Service) (accountID A : Int)
    (pre post : List Account) (acc : Account) (hs : s.accounts = pre ++ acc :: post)
    (hpre : ∀ a ∈ pre, (fun acc : Account => acc.ID == accountID) a = false)
    (hid : (fun acc : Account => acc.ID == accountID) acc = true) (h0 : 0 ≤ A) :
    DepositR red s accountID A =
      (none, { nextAccountID := s.nextAccountID,
               accounts := pre ++ { acc with Balance := red (acc.Balance + A) } :: post,
               payments := s.payments, favorites := s.favorites }) := by
  unfold DepositR
  rw [if_neg (not_lt.mpr h0), hs, find?_split _ pre post acc hpre hid]
  simp only []
  rw [modifyFirst_split _ _ pre post acc hpre hid]

theorem PayR_negative (red : Int → Int) (s : Service) (uuid : String) (accountID A : Int)
    (category : String) (h : A < 0) :
    PayR red s uuid accountID A category = (.error .ErrAmountMustBePositive, s) := by
  unfold PayR
  rw [if_pos h]

theorem PayR_noAccount (red : Int → Int) (s : Service) (uuid : String) (accountID A : Int)
    (category : String) (h0 : 0 ≤ A)
    (hno : ∀ a ∈ s.accounts, (fun acc : Account => accountID == acc.ID) a = false) :
    PayR red s uuid accountID A category = (.error .ErrAccountNotFound, s) := by
  unfold PayR
  rw [if_neg (not_lt.mpr h0), find?_none_of_forall _ _ hno]

theorem PayR_insufficient (red : Int → Int) (s : Service) (uuid : String) (accountID A : Int)
    (category : String) (pre post : List Account) (acc : Account)
    (hs : s.accounts = pre ++ acc :: post)
    (hpre : ∀ a ∈ pre, (fun acc : Account => accountID == acc.ID) a = false)
    (hid : (fun acc : Account => accountID == acc.ID) acc = true) (h0 : 0 ≤ A)
    (hlt : acc.Balance < A) :
    PayR red s uuid accountID A category = (.error .ErrNotEnoughBalance, s) := by
  unfold PayR
  rw [if_neg (not_lt.mpr h0), hs, find?_split _ pre post acc hpre hid]
  simp only []
  rw [if_pos hlt]

theorem PayR_found (red : Int → Int) (s : Service) (uuid : String) (accountID A : Int)
    (category : String) (pre post : List Account) (acc : Account)
    (hs : s.accounts = pre ++ acc :: post)
    (hpre : ∀ a ∈ pre, (fun acc : Account => accountID == acc.ID) a = false)
    (hid : (fun acc : Account => accountID == acc.ID) acc = true) (h0 : 0 ≤ A)
    (hle : A ≤ acc.Balance) :
    PayR red s uuid accountID A category =
      (.ok ⟨uuid, accountID, A, category, "INPROGRESS"⟩,
       { nextAccountID := s.nextAccountID,
         accounts := pre ++ { acc with Balance := red (acc.Balance - A) } :: post,
         payments := s.payments ++ [⟨uuid, accountID, A, category, "INPROGRESS"⟩],
         favorites := s.favorites }) := by
  unfold PayR
  rw [if_neg (not_lt.mpr h0), hs, find?_split _ pre post acc hpre hid]
  simp only []
  rw [if_neg (not_lt.mpr hle), modifyFirst_split _ _ pre post acc hpre hid]
  rfl

theorem RejectR_noPayment (red : Int → Int) (s : Service) (paymentID : String)
    (hno : ∀ q ∈ s.payments, (fun pay : Payment => pay.ID == paymentID) q = false) :
    RejectR red s paymentID = (some .ErrPaymentNotFound, s) := by
  unfold RejectR FindPaymentByID
  rw [find?_none_of_forall _ _ hno]

theorem RejectR_noAccount (red : Int → Int) (s : Service) (paymentID : String)
    (prePay postPay : List Payment) (p : Payment) (hpay : s.payments = prePay ++ p :: postPay)
    (hprePay : ∀ q ∈ prePay, (fun pay : Payment => pay.ID == paymentID) q = false)
    (hpid : (fun pay : Payment => pay.ID == paymentID) p = true)
    (hno : ∀ a ∈ s.accounts, (fun acc : Account => acc.ID == p.AccountID) a = false) :
    RejectR red s paymentID =
      (some .ErrAccountNotFound,
       { nextAccountID := s.nextAccountID, accounts := s.accounts,
         payments := prePay ++ { p with Status := "FAIL" } :: postPay,
         favorites := s.favorites }) := by
  unfold RejectR FindPaymentByID
  rw [hpay, find?_split _ prePay postPay p hprePay hpid]
  simp only [FindAccountByID]
  rw [find?_none_of_forall _ _ hno]
  simp only []
  rw [modifyFirst_split _ _ prePay postPay p hprePay hpid]
  rfl

theorem RejectR_found (red : Int → Int) (s : Service) (paymentID : String)
    (prePay postPay : List Payment) (p : Payment) (preAcc postAcc : List Account) (acc : Account)
    (hpay : s.payments = prePay ++ p :: postPay)
    (hprePay : ∀ q ∈ prePay, (fun pay : Payment => pay.ID == paymentID) q = false)
    (hpid : (fun pay : Payment => pay.ID == paymentID) p = true)
    (hacc : s.accounts = preAcc ++ acc :: postAcc)
    (hpreAcc : ∀ a ∈ preAcc, (fun acc : Account => acc.ID == p.AccountID) a = false)
    (haid : (fun acc : Account => acc.ID == p.AccountID) acc = true) :
    RejectR red s paymentID =
      (none, { nextAccountID := s.nextAccountID,
               accounts := preAcc ++ { acc with Balance := red (acc.Balance + p.Amount) }
                 :: postAcc,
               payments := prePay ++ { p with Status := "FAIL" } :: postPay,
               favorites := s.favorites }) := by
  unfold RejectR FindPaymentByID
  rw [hpay, find?_split _ prePay postPay p hprePay hpid]
  simp only [FindAccountByID]
  rw [hacc, find?_split _ preAcc postAcc acc hpreAcc haid]
  simp only []
  rw [modifyFirst_split _ _ prePay postPay p hprePay hpid,
    modifyFirst_split _ _ preAcc postAcc acc hpreAcc haid]
  rfl

theorem RepeatR_eq (red : Int → Int) (s : Service) (newID paymentID : String) :
    RepeatR red s newID paymentID =
      match FindPaymentByID s paymentID with
      | .error err => (.error err, s)
      | .ok p => PayR red s newID p.AccountID p.Amount p.Category := by
  unfold RepeatR
  split
  · rfl
  · rename_i p _
    generalize PayR red s newID p.AccountID p.Amount p.Category = r
    rcases r with ⟨_ | _, _⟩ <;> rfl

theorem PayFromFavoriteR_eq (red : Int → Int) (s : Service) (newID favoriteID : String) :
    PayFromFavoriteR red s newID favoriteID =
      match FindFavoriteByID s favoriteID with
      | .error err => (.error err, s)
      | .ok f => PayR red s newID f.AccountID f.Amount f.Category := by
  unfold PayFromFavoriteR
  split
  · rfl
  · rename_i f _
    generalize PayR red s newID f.AccountID f.Amount f.Category = r
    rcases r with ⟨_ | _, _⟩ <;> rfl

theorem DepositR_cases (red : Int → Int) (s : Service) (accountID A : Int) :
    (DepositR red s accountID A).2 = s ∨
      ∃ pre acc post, s.accounts = pre ++ acc :: post ∧ acc.ID = accountID ∧ 0 ≤ A ∧
        (DepositR red s accountID A).2 =
          { nextAccountID := s.nextAccountID,
            accounts := pre ++ { acc with Balance := red (acc.Balance + A) } :: post,
            payments := s.payments, favorites := s.favorites } := by
  by_cases h : A < 0
  · left; rw [DepositR_negative red s accountID A h]
  · have h0 : 0 ≤ A := not_lt.mp h
    rcases split_first (fun acc : Account => acc.ID == accountID) s.accounts with hno | hex
    · left; rw [DepositR_noAccount red s accountID A h0 hno]
    · obtain ⟨pre, acc, post, hs, hpre, hid⟩ := hex
      right
      refine ⟨pre, acc, post, hs, by simpa using hid, h0, ?_⟩
      rw [DepositR_found red s accountID A pre post acc hs hpre hid h0]

theorem PayR_cases (red : Int → Int) (s : Service) (uuid : String) (accountID A : Int)
    (category : String) :
    ((PayR red s uuid accountID A category).2 = s ∧
      ((PayR red s uuid accountID A category).1 = .error .ErrAmountMustBePositive ∨
        ((PayR red s uuid accountID A category).1 = .error .ErrAccountNotFound ∧
          ∀ a ∈ s.accounts, a.ID ≠ accountID) ∨
        (PayR red s uuid accountID A category).1 = .error .ErrNotEnoughBalance)) ∨
      ∃ pre acc post, s.accounts = pre ++ acc :: post ∧ acc.ID = accountID ∧ 0 ≤ A ∧
        A ≤ acc.Balance ∧
        PayR red s uuid accountID A category =
          (.ok ⟨uuid, accountID, A, category, "INPROGRESS"⟩,
           { nextAccountID := s.nextAccountID,
             accounts := pre ++ { acc with Balance := red (acc.Balance - A) } :: post,
             payments := s.payments ++ [⟨uuid, accountID, A, category, "INPROGRESS"⟩],
             favorites := s.favorites }) := by
  by_cases h : A < 0
  · left; rw [PayR_negative red s uuid accountID A category h]; exact ⟨rfl, Or.inl rfl⟩
  · have h0 : 0 ≤ A := not_lt.mp h
    rcases split_first (fun acc : Account => accountID == acc.ID) s.accounts with hno | hex
    · left
      rw [PayR_noAccount red s uuid accountID A category h0 hno]
      refine ⟨rfl, Or.inr (Or.inl ⟨rfl, ?_⟩)⟩
      intro a ha hc
      have := hno a ha
      simp [hc] at this
    · obtain ⟨pre, acc, post, hs, hpre, hid⟩ := hex
      by_cases hlt : acc.Balance < A
      · left
        rw [PayR_insufficient red s uuid accountID A category pre post acc hs hpre hid h0 hlt]
        exact ⟨rfl, Or.inr (Or.inr rfl)⟩
      · right
        have hid2 : acc.ID = accountID := by
          have h2 := hid
          simp only [beq_iff_eq] at h2
          exact h2.symm
        exact ⟨pre, acc, post, hs, hid2, h0, not_lt.mp hlt,
          PayR_found red s uuid accountID A category pre post acc hs hpre hid h0 (not_lt.mp hlt)⟩

theorem RejectR_cases (red : Int → Int) (s : Service) (paymentID : String) :
    RejectR red s paymentID = (some .ErrPaymentNotFound, s) ∨
      ∃ prePay p postPay, s.payments = prePay ++ p :: postPay ∧ p.ID = paymentID ∧
        (((∀ a ∈ s.accounts, a.ID ≠ p.AccountID) ∧
          RejectR red s paymentID =
            (some .ErrAccountNotFound,
             { nextAccountID := s.nextAccountID, accounts := s.accounts,
               payments := prePay ++ { p with Status := "FAIL" } :: postPay,
               favorites := s.favorites })) ∨
         ∃ preAcc acc postAcc, s.accounts = preAcc ++ acc :: postAcc ∧ acc.ID = p.AccountID ∧
          RejectR red s paymentID =
            (none, { nextAccountID := s.nextAccountID,
                     accounts := preAcc ++ { acc with Balance := red (acc.Balance + p.Amount) }
                       :: postAcc,
                     payments := prePay ++ { p with Status := "FAIL" } :: postPay,
                     favorites := s.favorites })) := by
  rcases split_first (fun pay : Payment => pay.ID == paymentID) s.payments with hno | hex
  · left; exact RejectR_noPayment red s paymentID hno
  · obtain ⟨prePay, p, postPay, hpay, hprePay, hpid⟩ := hex
    right
    refine ⟨prePay, p, postPay, hpay, by simpa using hpid, ?_⟩
    rcases split_first (fun acc : Account => acc.ID == p.AccountID) s.accounts with hno | hex
    · left
      refine ⟨?_, RejectR_noAccount red s paymentID prePay postPay p hpay hprePay hpid hno⟩
      intro a ha
      simpa using hno a ha
    · obtain ⟨preAcc, acc, postAcc, hacc, hpreAcc, haid⟩ := hex
      right
      exact ⟨preAcc, acc, postAcc, hacc, by simpa using haid,
        RejectR_found red s paymentID prePay postPay p preAcc postAcc acc hpay hprePay hpid hacc
          hpreAcc haid⟩

theorem FindPaymentByID_cases (s : Service) (paymentID : String) :
    (FindPaymentByID s paymentID = .error .ErrPaymentNotFound ∧
        ∀ q ∈ s.payments, q.ID ≠ paymentID) ∨
      ∃ p, FindPaymentByID s paymentID = .ok p ∧ p ∈ s.payments ∧ p.ID = paymentID := by
  unfold FindPaymentByID
  cases h : s.payments.find? (fun pay => pay.ID == paymentID) with
  | none =>
    left
    refine ⟨rfl, ?_⟩
    intro q hq
    have := List.find?_eq_none.mp h q hq
    simpa using this
  | some p =>
    right
    obtain ⟨pre, post, h1, _, h3⟩ := find?_some_split _ _ _ h
    exact ⟨p, rfl, by rw [h1]; simp, by simpa using h3⟩

theorem FindFavoriteByID_cases (s : Service) (favoriteID : String) :
    (FindFavoriteByID s favoriteID = .error .ErrFavoriteNotFound ∧
        ∀ g ∈ s.favorites, g.ID ≠ favoriteID) ∨
      ∃ f, FindFavoriteByID s favoriteID = .ok f ∧ f ∈ s.favorites ∧ f.ID = favoriteID := by
  unfold FindFavoriteByID
  cases h : s.favorites.find? (fun fav => fav.ID == favoriteID) with
  | none =>
    left
    refine ⟨rfl, ?_⟩
    intro g hg
    have := List.find?_eq_none.mp h g hg
    simpa using this
  | some f =>
    right
    obtain ⟨pre, post, h1, _, h3⟩ := find?_some_split _ _ _ h
    exact ⟨f, rfl, by rw [h1]; simp, by simpa using h3⟩

theorem FavoritePayment_cases (s : Service) (favoriteID paymentID name : String) :
    (FavoritePayment s favoriteID paymentID name = (.error .ErrPaymentNotFound, s) ∧
        ∀ q ∈ s.payments, q.ID ≠ paymentID) ∨
      ∃ p, p ∈ s.payments ∧ p.ID = paymentID ∧
        FindPaymentByID s paymentID = .ok p ∧
        FavoritePayment s favoriteID paymentID name =
          (.ok ⟨favoriteID, p.AccountID, name, p.Amount, p.Category⟩,
           { nextAccountID := s.nextAccountID, accounts := s.accounts,
             payments := s.payments,
             favorites := s.favorites ++ [⟨favoriteID, p.AccountID, name, p.Amount,
               p.Category⟩] }) := by
  rcases FindPaymentByID_cases s paymentID with ⟨h, hno⟩ | ⟨p, h, hp, hid⟩
  · left
    unfold FavoritePayment
    rw [h]
    exact ⟨rfl, hno⟩
  · right
    refine ⟨p, hp, hid, h, ?_⟩
    unfold FavoritePayment
    rw [h]

/-! ## Referential integrity and non-negative balances along a sequence of calls -/

theorem map_ID_update (pre post : List Account) (acc : Account) (b : Int) :
    (pre ++ { acc with Balance := b } :: post).map Account.ID =
      (pre ++ acc :: post).map Account.ID := by
  simp

theorem forall_mem_update {α : Type} (Q : α → Prop) (pre post : List α) (x y : α)
    (h : ∀ a ∈ pre ++ x :: post, Q a) (hy : Q y) : ∀ a ∈ pre ++ y :: post, Q a := by
  intro a ha
  rcases List.mem_append.mp ha with h1 | h1
  · exact h a (List.mem_append.mpr (Or.inl h1))
  · rcases List.mem_cons.mp h1 with h2 | h2
    · rw [h2]; exact hy
    · exact h a (List.mem_append.mpr (Or.inr (List.mem_cons.mpr (Or.inr h2))))

theorem mem_split_mid {α : Type} (pre post : List α) (x : α) : x ∈ pre ++ x :: post := by
  simp

theorem refsOK_RegisterAccount (s : Service) (phone : String) (h : refsOK s) :
    refsOK (RegisterAccount s phone).2 := by
  by_cases hp : ∃ a ∈ s.accounts, a.Phone = phone
  · rw [RegisterAccount_taken s phone hp]; exact h
  · have hp2 : ∀ a ∈ s.accounts, a.Phone ≠ phone := fun a ha hc => hp ⟨a, ha, hc⟩
    rw [RegisterAccount_fresh s phone hp2]
    unfold refsOK at *
    simp only [List.map_append, List.mem_append]
    exact ⟨fun p hp => Or.inl (h.1 p hp), fun f hf => Or.inl (h.2 f hf)⟩

theorem refsOK_DepositR (red : Int → Int) (s : Service) (accountID A : Int) (h : refsOK s) :
    refsOK (DepositR red s accountID A).2 := by
  rcases DepositR_cases red s accountID A with e | ⟨pre, acc, post, hs, _, _, e⟩
  · rw [e]; exact h
  · rw [e]
    unfold refsOK at *
    simp only []
    rw [map_ID_update, ← hs]
    exact h

theorem refsOK_PayR (red : Int → Int) (s : Service) (uuid : String) (accountID A : Int)
    (category : String) (h : refsOK s) : refsOK (PayR red s uuid accountID A category).2 := by
  rcases PayR_cases red s uuid accountID A category with ⟨e, _⟩ | ⟨pre, acc, post, hs, hid, _, _, e⟩
  · rw [e]; exact h
  · rw [e]
    unfold refsOK at *
    simp only []
    rw [map_ID_update, ← hs]
    refine ⟨?_, h.2⟩
    intro p hp
    rcases List.mem_append.mp hp with hp | hp
    · exact h.1 p hp
    · simp only [List.mem_singleton] at hp
      rw [hp, hs]
      simp [hid]

theorem refsOK_RejectR (red : Int → Int) (s : Service) (paymentID : String) (h : refsOK s) :
    refsOK (RejectR red s paymentID).2 := by
  rcases RejectR_cases red s paymentID with e | ⟨prePay, p, postPay, hpay, _, hc⟩
  · rw [e]; exact h
  · have hp : p.AccountID ∈ s.accounts.map Account.ID :=
      h.1 p (by rw [hpay]; exact mem_split_mid _ _ _)
    have hall : ∀ q ∈ prePay ++ { p with Status := "FAIL" } :: postPay,
        q.AccountID ∈ s.accounts.map Account.ID :=
      forall_mem_update (fun q => q.AccountID ∈ s.accounts.map Account.ID) prePay postPay p
        { p with Status := "FAIL" } (by rw [← hpay]; exact h.1) hp
    rcases hc with ⟨_, e⟩ | ⟨preAcc, acc, postAcc, hacc, _, e⟩
    · rw [e]
      exact ⟨hall, h.2⟩
    · rw [e]
      unfold refsOK
      simp only []
      rw [map_ID_update, ← hacc]
      exact ⟨hall, h.2⟩

theorem refsOK_RepeatR (red : Int → Int) (s : Service) (newID paymentID : String)
    (h : refsOK s) : refsOK (RepeatR red s newID paymentID).2 := by
  rw [RepeatR_eq]
  split
  · exact h
  · exact refsOK_PayR red s _ _ _ _ h

theorem refsOK_PayFromFavoriteR (red : Int → Int) (s : Service) (newID favoriteID : String)
    (h : refsOK s) : refsOK (PayFromFavoriteR red s newID favoriteID).2 := by
  rw [PayFromFavoriteR_eq]
  split
  · exact h
  · exact refsOK_PayR red s _ _ _ _ h

theorem refsOK_FavoritePayment (s : Service) (favoriteID paymentID name : String)
    (h : refsOK s) : refsOK (FavoritePayment s favoriteID paymentID name).2 := by
  rcases FavoritePayment_cases s favoriteID paymentID name with ⟨e, _⟩ | ⟨p, hp, _, _, e⟩
  · rw [e]; exact h
  · rw [e]
    refine ⟨h.1, ?_⟩
    intro f hf
    rcases List.mem_append.mp hf with hf | hf
    · exact h.2 f hf
    · simp only [List.mem_singleton] at hf
      rw [hf]
      exact h.1 p hp

theorem refsOK_stepR (red : Int → Int) (s : Service) (op : Op) (hop : op.isImport = false)
    (h : refsOK s) : refsOK (stepR red s op) := by
  cases op with
  | registerAccount phone => exact refsOK_RegisterAccount s phone h
  | deposit accountID amount => exact refsOK_DepositR red s accountID amount h
  | pay uuid accountID amount category => exact refsOK_PayR red s uuid accountID amount category h
  | reject paymentID => exact refsOK_RejectR red s paymentID h
  | repeatPayment uuid paymentID => exact refsOK_RepeatR red s uuid paymentID h
  | favoritePayment uuid paymentID name => exact refsOK_FavoritePayment s uuid paymentID name h
  | payFromFavorite uuid favoriteID => exact refsOK_PayFromFavoriteR red s uuid favoriteID h
  | importDir dir => simp [Op.isImport] at hop

theorem refsOK_runR (red : Int → Int) (ops : List Op) :
    ∀ s : Service, (∀ op ∈ ops, op.isImport = false) → refsOK s → refsOK (runR red s ops) := by
  induction ops with
  | nil => intro s _ h; exact h
  | cons op ops ih =>
    intro s hops h
    exact ih (stepR red s op) (fun o ho => hops o (by simp [ho]))
      (refsOK_stepR red s op (hops op (by simp)) h)

theorem nonNegative_RegisterAccount (s : Service) (phone : String) (h : nonNegative s) :
    nonNegative (RegisterAccount s phone).2 := by
  by_cases hp : ∃ a ∈ s.accounts, a.Phone = phone
  · rw [RegisterAccount_taken s phone hp]; exact h
  · have hp2 : ∀ a ∈ s.accounts, a.Phone ≠ phone := fun a ha hc => hp ⟨a, ha, hc⟩
    rw [RegisterAccount_fresh s phone hp2]
    refine ⟨?_, h.2⟩
    intro a ha
    rcases List.mem_append.mp ha with ha | ha
    · exact h.1 a ha
    · simp only [List.mem_singleton] at ha
      rw [ha]

theorem nonNegative_DepositR (s : Service) (accountID A : Int) (h : nonNegative s) :
    nonNegative (DepositR id s accountID A).2 := by
  rcases DepositR_cases id s accountID A with e | ⟨pre, acc, post, hs, _, h0, e⟩
  · rw [e]; exact h
  · rw [e]
    refine ⟨?_, h.2⟩
    have hacc : 0 ≤ acc.Balance := h.1 acc (by rw [hs]; exact mem_split_mid _ _ _)
    apply forall_mem_update (fun a : Account => 0 ≤ a.Balance) pre post acc _
      (by rw [← hs]; exact h.1)
    simp only [id]
    omega

theorem nonNegative_PayR (s : Service) (uuid : String) (accountID A : Int) (category : String)
    (h : nonNegative s) : nonNegative (PayR id s uuid accountID A category).2 := by
  rcases PayR_cases id s uuid accountID A category with
    ⟨e, _⟩ | ⟨pre, acc, post, hs, _, h0, hle, e⟩
  · rw [e]; exact h
  · rw [e]
    refine ⟨?_, ?_⟩
    · apply forall_mem_update (fun a : Account => 0 ≤ a.Balance) pre post acc _
        (by rw [← hs]; exact h.1)
      simp only [id]
      omega
    · intro p hp
      rcases List.mem_append.mp hp with hp | hp
      · exact h.2 p hp
      · simp only [List.mem_singleton] at hp
        rw [hp]
        exact h0

theorem nonNegative_RejectR (s : Service) (paymentID : String) (h : nonNegative s) :
    nonNegative (RejectR id s paymentID).2 := by
  rcases RejectR_cases id s paymentID with e | ⟨prePay, p, postPay, hpay, _, hc⟩
  · rw [e]; exact h
  · have hp : 0 ≤ p.Amount := h.2 p (by rw [hpay]; exact mem_split_mid _ _ _)
    have hall : ∀ q ∈ prePay ++ { p with Status := "FAIL" } :: postPay, 0 ≤ q.Amount :=
      forall_mem_update (fun q : Payment => 0 ≤ q.Amount) prePay postPay p
        { p with Status := "FAIL" } (by rw [← hpay]; exact h.2) hp
    rcases hc with ⟨_, e⟩ | ⟨preAcc, acc, postAcc, hacc, _, e⟩
    · rw [e]
      exact ⟨h.1, hall⟩
    · rw [e]
      refine ⟨?_, hall⟩
      have hb : 0 ≤ acc.Balance := h.1 acc (by rw [hacc]; exact mem_split_mid _ _ _)
      apply forall_mem_update (fun a : Account => 0 ≤ a.Balance) preAcc postAcc acc _
        (by rw [← hacc]; exact h.1)
      simp only [id]
      omega

theorem nonNegative_stepR (s : Service) (op : Op) (hop : op.isImport = false)
    (h : nonNegative s) : nonNegative (stepR id s op) := by
  cases op with
  | registerAccount phone => exact nonNegative_RegisterAccount s phone h
  | deposit accountID amount => exact nonNegative_DepositR s accountID amount h
  | pay uuid accountID amount category => exact nonNegative_PayR s uuid accountID amount category h
  | reject paymentID => exact nonNegative_RejectR s paymentID h
  | repeatPayment uuid paymentID =>
    simp only [stepR]
    rw [RepeatR_eq]
    split
    · exact h
    · exact nonNegative_PayR s _ _ _ _ h
  | favoritePayment uuid paymentID name =>
    simp only [stepR]
    rcases FavoritePayment_cases s uuid paymentID name with ⟨e, _⟩ | ⟨p, _, _, _, e⟩
    · rw [e]; exact h
    · rw [e]; exact h
  | payFromFavorite uuid favoriteID =>
    simp only [stepR]
    rw [PayFromFavoriteR_eq]
    split
    · exact h
    · exact nonNegative_PayR s _ _ _ _ h
  | importDir dir => simp [Op.isImport] at hop

theorem nonNegative_runR (ops : List Op) :
    ∀ s : Service, (∀ op ∈ ops, op.isImport = false) → nonNegative s →
      nonNegative (runR id s ops) := by
  induction ops with
  | nil => intro s _ h; exact h
  | cons op ops ih =>
    intro s hops h
    exact ih (stepR id s op) (fun o ho => hops o (by simp [ho]))
      (nonNegative_stepR s op (hops op (by simp)) h)

/-! ## FavoritePayment -/

theorem RejectR_favorites (red : Int → Int) (s : Service) (paymentID : String) :
    (RejectR red s paymentID).2.favorites = s.favorites := by
  rcases RejectR_cases red s paymentID with e | ⟨_, _, _, _, _, ⟨_, e⟩ | ⟨_, _, _, _, _, e⟩⟩ <;>
    rw [e]

/-- C11: `FavoritePayment` of an unknown payment ID returns PaymentNotFound and leaves the
store unchanged; otherwise, with `p` the first stored payment with the ID, it appends to
the favorites list and returns the favorite with the drawn identifier, the given name
and the AccountID, Amount and Category of `p`, leaving the counter, the accounts, the
payments and the earlier favorites as they were; a later `Reject` of the source payment
leaves the favorites list, the new favorite included, unchanged. -/
theorem FavoritePayment_spec (s : Service) (favoriteID paymentID name : String) :
    ((∀ q ∈ s.payments, q.ID ≠ paymentID) →
      FavoritePayment s favoriteID paymentID name = (.error .ErrPaymentNotFound, s)) ∧
    (∀ (prePay postPay : List Payment) (p : Payment), s.payments = prePay ++ p :: postPay →
      (∀ q ∈ prePay, q.ID ≠ paymentID) → p.ID = paymentID →
      FavoritePayment s favoriteID paymentID name =
        (.ok ⟨favoriteID, p.AccountID, name, p.Amount, p.Category⟩,
         { nextAccountID := s.nextAccountID, accounts := s.accounts, payments := s.payments,
           favorites := s.favorites ++
             [⟨favoriteID, p.AccountID, name, p.Amount, p.Category⟩] }) ∧
      (Reject (FavoritePayment s favoriteID paymentID name).2 paymentID).2.favorites =
        s.favorites ++ [⟨favoriteID, p.AccountID, name, p.Amount, p.Category⟩]) := by
  refine ⟨?_, ?_⟩
  · intro hno
    unfold FavoritePayment FindPaymentByID
    rw [find?_none_of_forall]
    intro q hq
    simpa using hno q hq
  · intro prePay postPay p hpay hprePay hpid
    have hp1 : ∀ q ∈ prePay, (fun pay : Payment => pay.ID == paymentID) q = false := by
      intro q hq
      simpa using hprePay q hq
    have hp2 : (fun pay : Payment => pay.ID == paymentID) p = true := by simp [hpid]
    have hF : FavoritePayment s favoriteID paymentID name =
        (.ok ⟨favoriteID, p.AccountID, name, p.Amount, p.Category⟩,
         { nextAccountID := s.nextAccountID, accounts := s.accounts, payments := s.payments,
           favorites := s.favorites ++
             [⟨favoriteID, p.AccountID, name, p.Amount, p.Category⟩] }) := by
      unfold FavoritePayment FindPaymentByID
      rw [hpay, find?_split _ prePay postPay p hp1 hp2]
    refine ⟨hF, ?_⟩
    rw [hF, Reject_eq_RejectR, RejectR_favorites]

theorem FavoritePayment_spec_witness :
    FavoritePayment { nextAccountID := 1, accounts := [⟨1, "+992935007339", 40⟩],
                      payments := [⟨"p-1", 1, 60, "myWorld", "INPROGRESS"⟩], favorites := [] }
        "f-1" "p-1" "smart city" =
      (.ok ⟨"f-1", 1, "smart city", 60, "myWorld"⟩,
       { nextAccountID := 1, accounts := [⟨1, "+992935007339", 40⟩],
         payments := [⟨"p-1", 1, 60, "myWorld", "INPROGRESS"⟩],
         favorites := [] ++ [⟨"f-1", 1, "smart city", 60, "myWorld"⟩] }) :=
  ((FavoritePayment_spec _ "f-1" "p-1" "smart city").2 [] []
    ⟨"p-1", 1, 60, "myWorld", "INPROGRESS"⟩ rfl (by simp) rfl).1

/-! ## Amount zero -/

/-- C16 (as stated) fails: `Pay` with amount 0 on an existing account returns no error
and appends a payment whose Amount is 0, which is not greater than 0. -/
theorem Pay_zero_amount :
    Pay { nextAccountID := 1, accounts := [⟨1, "+992935007339", 100⟩], payments := [],
          favorites := [] } "p-1" 1 0 "myWorld" =
      (.ok ⟨"p-1", 1, 0, "myWorld", "INPROGRESS"⟩,
       { nextAccountID := 1, accounts := [⟨1, "+992935007339", 100⟩],
         payments := [⟨"p-1", 1, 0, "myWorld", "INPROGRESS"⟩], favorites := [] }) ∧
    ¬ ((0 : Int) > 0) := by
  decide

/-! ## Balances as mathematical integers -/

/-- C17: with balances as mathematical integers (the reduction after each addition and
subtraction being the identity), in every store reached from the empty store by
RegisterAccount, Deposit, Pay, Reject, Repeat, FavoritePayment and PayFromFavorite calls
every balance is at least 0; and a `Pay` call on a store whose balances are not negative
leaves no balance negative, with mathematical integers as well as with the 64-bit
arithmetic of the code on `int64` balances. -/
theorem balances_nonnegative :
    (∀ ops : List Op, (∀ op ∈ ops, op.isImport = false) →
      ∀ a ∈ (runR id emptyService ops).accounts, 0 ≤ a.Balance) ∧
    (∀ (s : Service) (uuid : String) (accountID A : Int) (category : String),
      (∀ a ∈ s.accounts, 0 ≤ a.Balance) →
      ∀ a ∈ (PayR id s uuid accountID A category).2.accounts, 0 ≤ a.Balance) ∧
    (∀ (s : Service) (uuid : String) (accountID A : Int) (category : String),
      (∀ a ∈ s.accounts, 0 ≤ a.Balance ∧ isInt64 a.Balance) →
      ∀ a ∈ (Pay s uuid accountID A category).2.accounts, 0 ≤ a.Balance) := by
  refine ⟨?_, ?_, ?_⟩
  · intro ops hops
    exact (nonNegative_runR ops emptyService hops
      ⟨by simp [emptyService], by simp [emptyService]⟩).1
  · intro s uuid accountID A category h
    rcases PayR_cases id s uuid accountID A category with
      ⟨e, _⟩ | ⟨pre, acc, post, hs, _, h0, hle, e⟩
    · rw [e]; exact h
    · rw [e]
      apply forall_mem_update (fun a : Account => 0 ≤ a.Balance) pre post acc _
        (by rw [← hs]; exact h)
      simp only [id]
      omega
  · intro s uuid accountID A category h
    rw [Pay_eq_PayR]
    rcases PayR_cases wrap64 s uuid accountID A category with
      ⟨e, _⟩ | ⟨pre, acc, post, hs, _, h0, hle, e⟩
    · rw [e]; exact fun a ha => (h a ha).1
    · rw [e]
      have hacc := h acc (by rw [hs]; exact mem_split_mid _ _ _)
      have hw : wrap64 (acc.Balance - A) = acc.Balance - A := by
        apply wrap64_of_isInt64
        have h2 := hacc.2
        unfold isInt64 at *
        omega
      apply forall_mem_update (fun a : Account => 0 ≤ a.Balance) pre post acc _
        (by rw [← hs]; exact fun a ha => (h a ha).1)
      simp only [hw]
      omega

theorem balances_nonnegative_witness :
    ∀ a ∈ (runR id emptyService [.registerAccount "+992935007339", .deposit 1 100,
        .pay "p-1" 1 60 "myWorld", .reject "p-1", .reject "p-1",
        .repeatPayment "p-2" "p-1"]).accounts, 0 ≤ a.Balance :=
  balances_nonnegative.1 _ (by decide)

/-! ## Referential integrity -/

/-- C18: in every store reached from the empty store by RegisterAccount, Deposit, Pay,
Reject, Repeat, FavoritePayment and PayFromFavorite calls (no import), the AccountID of
every payment and of every favorite is the ID of an account of the store; in such a
store `Reject` returns no error or PaymentNotFound, never AccountNotFound, and
`PayFromFavorite` never returns AccountNotFound. -/
theorem referential_integrity (ops : List Op) (hops : ∀ op ∈ ops, op.isImport = false) :
    (∀ p ∈ (run emptyService ops).payments,
      ∃ a ∈ (run emptyService ops).accounts, a.ID = p.AccountID) ∧
    (∀ f ∈ (run emptyService ops).favorites,
      ∃ a ∈ (run emptyService ops).accounts, a.ID = f.AccountID) ∧
    (∀ paymentID : String,
      (Reject (run emptyService ops) paymentID).1 = none ∨
      (Reject (run emptyService ops) paymentID).1 = some .ErrPaymentNotFound) ∧
    (∀ newID favoriteID : String,
      (PayFromFavorite (run emptyService ops) newID favoriteID).1 ≠
        .error .ErrAccountNotFound) := by
  have hrefs : refsOK (run emptyService ops) := by
    rw [run_eq_runR]
    exact refsOK_runR wrap64 ops emptyService hops
      ⟨by simp [emptyService], by simp [emptyService]⟩
  generalize run emptyService ops = s at hrefs
  refine ⟨?_, ?_, ?_, ?_⟩
  · intro p hp
    obtain ⟨a, ha, hid⟩ := List.mem_map.mp (hrefs.1 p hp)
    exact ⟨a, ha, hid⟩
  · intro f hf
    obtain ⟨a, ha, hid⟩ := List.mem_map.mp (hrefs.2 f hf)
    exact ⟨a, ha, hid⟩
  · intro paymentID
    rw [Reject_eq_RejectR]
    rcases RejectR_cases wrap64 s paymentID with e | ⟨prePay, p, postPay, hpay, _, hc⟩
    · right; rw [e]
    · rcases hc with ⟨hno, _⟩ | ⟨_, _, _, _, _, e⟩
      · obtain ⟨a, ha, hid⟩ :=
          List.mem_map.mp (hrefs.1 p (by rw [hpay]; exact mem_split_mid _ _ _))
        exact absurd hid (hno a ha)
      · left; rw [e]
  · intro newID favoriteID
    rw [PayFromFavorite_eq_PayFromFavoriteR, PayFromFavoriteR_eq]
    rcases FindFavoriteByID_cases s favoriteID with ⟨e, _⟩ | ⟨f, e, hf, _⟩
    · rw [e]
      simp
    · rw [e]
      simp only []
      obtain ⟨a, ha, hid⟩ := List.mem_map.mp (hrefs.2 f hf)
      rcases PayR_cases wrap64 s newID f.AccountID f.Amount f.Category with
        ⟨_, e1 | ⟨_, hno⟩ | e1⟩ | ⟨_, _, _, _, _, _, _, e1⟩
      · rw [e1]; simp
      · exact absurd hid (hno a ha)
      · rw [e1]; simp
      · rw [e1]; simp

theorem referential_integrity_witness :
    (Reject (run emptyService [.registerAccount "+992935007339", .deposit 1 100,
        .pay "p-1" 1 60 "myWorld", .favoritePayment "f-1" "p-1" "smart city"]) "p-1").1 = none ∨
    (Reject (run emptyService [.registerAccount "+992935007339", .deposit 1 100,
        .pay "p-1" 1 60 "myWorld", .favoritePayment "f-1" "p-1" "smart city"]) "p-1").1 =
      some .ErrPaymentNotFound :=
  (referential_integrity [.registerAccount "+992935007339", .deposit 1 100,
      .pay "p-1" 1 60 "myWorld", .favoritePayment "f-1" "p-1" "smart city"]
    (by decide)).2.2.1 "p-1"

/-! ## Reject on a payment without account -/

/-- C19: when the first payment `p` with its ID refers to no account of the store,
`Reject(p.ID)` returns AccountNotFound, leaves the accounts (every balance) unchanged
and leaves the status of `p` set to FAIL, so the store after the failed call differs
from the store before it whenever `p` was not FAIL already; such a store is reached by
the directory import of a payments file into the empty store. -/
theorem Reject_mutates_before_failing (s : Service) (prePay postPay : List Payment)
    (p : Payment) (hpay : s.payments = prePay ++ p :: postPay)
    (hprePay : ∀ q ∈ prePay, q.ID ≠ p.ID) (hno : ∀ a ∈ s.accounts, a.ID ≠ p.AccountID) :
    Reject s p.ID =
      (some .ErrAccountNotFound,
       { nextAccountID := s.nextAccountID, accounts := s.accounts,
         payments := prePay ++ { p with Status := "FAIL" } :: postPay,
         favorites := s.favorites }) ∧
    (p.Status ≠ "FAIL" → (Reject s p.ID).2 ≠ s) ∧
    Import emptyService ⟨none, some "p-1;7;5;myWorld;INPROGRESS;\n", none⟩ =
      { nextAccountID := 0, accounts := [],
        payments := [⟨"p-1", 7, 5, "myWorld", "INPROGRESS"⟩], favorites := [] } := by
  have hR : Reject s p.ID =
      (some .ErrAccountNotFound,
       { nextAccountID := s.nextAccountID, accounts := s.accounts,
         payments := prePay ++ { p with Status := "FAIL" } :: postPay,
         favorites := s.favorites }) := by
    rw [Reject_eq_RejectR]
    apply RejectR_noAccount wrap64 s p.ID prePay postPay p hpay
    · intro q hq
      simpa using hprePay q hq
    · simp
    · intro a ha
      simpa using hno a ha
  refine ⟨hR, ?_, by decide⟩
  intro hst hc
  rw [hR] at hc
  have h2 := congrArg Service.payments hc
  simp only [hpay] at h2
  have h3 := List.append_cancel_left h2
  simp only [List.cons.injEq, and_true] at h3
  have h4 := congrArg Payment.Status h3
  exact hst h4.symm

theorem Reject_mutates_before_failing_witness :
    Reject { nextAccountID := 0, accounts := [],
             payments := [⟨"p-1", 7, 5, "myWorld", "INPROGRESS"⟩], favorites := [] } "p-1" =
      (some .ErrAccountNotFound,
       { nextAccountID := 0, accounts := [],
         payments := [] ++ ⟨"p-1", 7, 5, "myWorld", "FAIL"⟩ :: [], favorites := [] }) :=
  (Reject_mutates_before_failing
    { nextAccountID := 0, accounts := [],
      payments := [⟨"p-1", 7, 5, "myWorld", "INPROGRESS"⟩], favorites := [] }
    [] [] ⟨"p-1", 7, 5, "myWorld", "INPROGRESS"⟩ rfl (by simp) (by simp)).1

/-! ## Deposit and the 64-bit range -/

theorem wrap64_spec (x : Int) :
    isInt64 (wrap64 x) ∧ ∃ k : Int, wrap64 x = x + k * 18446744073709551616 := by
  unfold isInt64 wrap64
  refine ⟨by omega, ⟨-((x + 9223372036854775808) / 18446744073709551616), ?_⟩⟩
  omega

/-- C20: for the first account with the ID, of balance `B`, and `A ≥ 0`, `Deposit`
returns no error and leaves the balance at `B + A` reduced into the signed 64-bit range
(an `int64` that differs from `B + A` by a multiple of 2^64), with no upper bound check;
after RegisterAccount and a Deposit of 2^63 - 1 the balance is 2^63 - 1, and a second
Deposit of 2^63 - 1 returns no error and leaves the negative balance -2. -/
theorem Deposit_wraps (s : Service) (accountID A : Int) :
    (∀ (pre post : List Account) (acc : Account), s.accounts = pre ++ acc :: post →
      (∀ a ∈ pre, a.ID ≠ accountID) → acc.ID = accountID → 0 ≤ A →
      Deposit s accountID A =
        (none, { nextAccountID := s.nextAccountID,
                 accounts := pre ++ { acc with Balance := wrap64 (acc.Balance + A) } :: post,
                 payments := s.payments, favorites := s.favorites }) ∧
      isInt64 (wrap64 (acc.Balance + A)) ∧
      ∃ k : Int, wrap64 (acc.Balance + A) = acc.Balance + A + k * 18446744073709551616) ∧
    (run emptyService [.registerAccount "+992935007339", .deposit 1 9223372036854775807] =
      { nextAccountID := 1, accounts := [⟨1, "+992935007339", 9223372036854775807⟩],
        payments := [], favorites := [] } ∧
     Deposit { nextAccountID := 1, accounts := [⟨1, "+992935007339", 9223372036854775807⟩],
               payments := [], favorites := [] } 1 9223372036854775807 =
      (none, { nextAccountID := 1, accounts := [⟨1, "+992935007339", -2⟩],
               payments := [], favorites := [] }) ∧
     (-2 : Int) < 0) := by
  refine ⟨?_, by decide⟩
  intro pre post acc hs hpre hid h0
  refine ⟨?_, wrap64_spec _⟩
  rw [Deposit_eq_DepositR]
  apply DepositR_found wrap64 s accountID A pre post acc hs _ _ h0
  · intro a ha
    simpa using hpre a ha
  · simp [hid]

theorem Deposit_wraps_witness :
    Deposit { nextAccountID := 1, accounts := [⟨1, "+992935007339", 9223372036854775807⟩],
              payments := [], favorites := [] } 1 1 =
      (none, { nextAccountID := 1,
               accounts := [] ++ ⟨1, "+992935007339", wrap64 (9223372036854775807 + 1)⟩ :: [],
               payments := [], favorites := [] }) :=
  ((Deposit_wraps _ 1 1).1 [] [] ⟨1, "+992935007339", 9223372036854775807⟩ rfl (by simp) rfl
    (by decide)).1

/-! ## Encoding format -/

theorem foldl_append_join {α : Type} (g : α → String) (L : List α) :
    ∀ init : String, L.foldl (fun str r => str ++ g r) init = init ++ String.join (L.map g) := by
  induction L with
  | nil =>
    intro init
    apply String.ext
    simp [String.join]
  | cons r L ih =>
    intro init
    have hj : String.join (g r :: L.map g) = g r ++ String.join (L.map g) := by
      have h1 := ih (g r)
      have h2 := ih ("" ++ g r)
      simp only [String.join, List.foldl_cons, List.foldl_map] at h1 h2 ⊢
      have e : ("" : String) ++ g r = g r := by
        apply String.ext
        simp
      rw [e]
      simpa [String.join, List.foldl_map] using h1
    simp only [List.foldl_cons, List.map_cons]
    rw [ih, hj]
    apply String.ext
    simp [List.append_assoc]

/-- C13 (what the code writes): an account record is its three fields joined by `sep1`
and followed by `sep2`; a payment record and a favorite record are their five fields
each followed by `sep1` (the last field too) and then `sep2`, so the single payment
`p-1` of account 1 with `;` and newline is written with a `;` before the newline. -/
theorem Export_encoding (s : Service) (sep1 sep2 : String) :
    ExportAccountsToString s sep1 sep2 =
      String.join (s.accounts.map (fun a =>
        FormatInt a.ID ++ sep1 ++ a.Phone ++ sep1 ++ FormatInt a.Balance ++ sep2)) ∧
    ExportPaymentsToString s sep1 sep2 =
      String.join (s.payments.map (fun p =>
        p.ID ++ sep1 ++ FormatInt p.AccountID ++ sep1 ++ FormatInt p.Amount ++ sep1 ++
          p.Category ++ sep1 ++ p.Status ++ sep1 ++ sep2)) ∧
    ExportFavoritesToString s sep1 sep2 =
      String.join (s.favorites.map (fun f =>
        f.ID ++ sep1 ++ FormatInt f.AccountID ++ sep1 ++ f.Name ++ sep1 ++
          FormatInt f.Amount ++ sep1 ++ f.Category ++ sep1 ++ sep2)) ∧
    ExportPaymentsToString
        { nextAccountID := 1, accounts := [⟨1, "+992935007339", 40⟩],
          payments := [⟨"p-1", 1, 60, "smart city", "INPROGRESS"⟩], favorites := [] }
        ";" "\n" = "p-1;1;60;smart city;INPROGRESS;\n" ∧
    ("p-1;1;60;smart city;INPROGRESS;\n" : String) ≠ "p-1;1;60;smart city;INPROGRESS\n" := by
  refine ⟨?_, ?_, ?_, by decide, by decide⟩
  · unfold ExportAccountsToString
    have h := foldl_append_join (fun a : Account =>
      FormatInt a.ID ++ sep1 ++ a.Phone ++ sep1 ++ FormatInt a.Balance ++ sep2) s.accounts ""
    have e : ("" : String) ++ String.join (s.accounts.map (fun a : Account =>
        FormatInt a.ID ++ sep1 ++ a.Phone ++ sep1 ++ FormatInt a.Balance ++ sep2)) =
        String.join (s.accounts.map (fun a : Account =>
          FormatInt a.ID ++ sep1 ++ a.Phone ++ sep1 ++ FormatInt a.Balance ++ sep2)) := by
      apply String.ext
      simp
    rw [← e, ← h]
    congr 1
    funext str a
    apply String.ext
    simp [List.append_assoc]
  · unfold ExportPaymentsToString
    have h := foldl_append_join (fun p : Payment =>
      p.ID ++ sep1 ++ FormatInt p.AccountID ++ sep1 ++ FormatInt p.Amount ++ sep1 ++
        p.Category ++ sep1 ++ p.Status ++ sep1 ++ sep2) s.payments ""
    have e : ("" : String) ++ String.join (s.payments.map (fun p : Payment =>
        p.ID ++ sep1 ++ FormatInt p.AccountID ++ sep1 ++ FormatInt p.Amount ++ sep1 ++
          p.Category ++ sep1 ++ p.Status ++ sep1 ++ sep2)) =
        String.join (s.payments.map (fun p : Payment =>
          p.ID ++ sep1 ++ FormatInt p.AccountID ++ sep1 ++ FormatInt p.Amount ++ sep1 ++
            p.Category ++ sep1 ++ p.Status ++ sep1 ++ sep2)) := by
      apply String.ext
      simp
    rw [← e, ← h]
    congr 1
    funext str a
    apply String.ext
    simp [List.append_assoc]
  · unfold ExportFavoritesToString
    have h := foldl_append_join (fun f : Favorite =>
      f.ID ++ sep1 ++ FormatInt f.AccountID ++ sep1 ++ f.Name ++ sep1 ++
        FormatInt f.Amount ++ sep1 ++ f.Category ++ sep1 ++ sep2) s.favorites ""
    have e : ("" : String) ++ String.join (s.favorites.map (fun f : Favorite =>
        f.ID ++ sep1 ++ FormatInt f.AccountID ++ sep1 ++ f.Name ++ sep1 ++
          FormatInt f.Amount ++ sep1 ++ f.Category ++ sep1 ++ sep2)) =
        String.join (s.favorites.map (fun f : Favorite =>
          f.ID ++ sep1 ++ FormatInt f.AccountID ++ sep1 ++ f.Name ++ sep1 ++
            FormatInt f.Amount ++ sep1 ++ f.Category ++ sep1 ++ sep2)) := by
      apply String.ext
      simp
    rw [← e, ← h]
    congr 1
    funext str a
    apply String.ext
    simp [List.append_assoc]

/-! ## Numeric decoding -/

theorem digitVal_of_isDigitChar (c : Char) (h : isDigitChar c) :
    digitVal c = some (c.toNat - 48) := by
  unfold isDigitChar at h
  unfold digitVal
  rw [if_pos h]

theorem decimalFrom_ge (ds : List Char) : ∀ n : Nat, n ≤ decimalFrom n ds := by
  induction ds with
  | nil => intro n; exact Nat.le_refl n
  | cons c cs ih =>
    intro n
    have h := ih (n * 10 + (c.toNat - 48))
    simp only [decimalFrom, List.foldl_cons] at h ⊢
    omega

theorem parseUintLoop_digits (ds : List Char) :
    ∀ n : Nat, (∀ c ∈ ds, isDigitChar c) → n < 18446744073709551616 →
      parseUintLoop ds n =
        if decimalFrom n ds < 18446744073709551616 then (decimalFrom n ds, none)
        else (18446744073709551615, some .ErrRange) := by
  induction ds with
  | nil =>
    intro n _ hn
    simp [parseUintLoop, decimalFrom, hn]
  | cons c cs ih =>
    intro n hall hn
    have hc : isDigitChar c := hall c (by simp)
    have hd : c.toNat - 48 < 10 := by
      unfold isDigitChar at hc
      omega
    have hge := decimalFrom_ge cs (n * 10 + (c.toNat - 48))
    have hstep : decimalFrom n (c :: cs) = decimalFrom (n * 10 + (c.toNat - 48)) cs := rfl
    rw [hstep]
    unfold parseUintLoop
    rw [digitVal_of_isDigitChar c hc]
    simp only []
    rw [if_neg (by omega)]
    by_cases h1 : n ≥ 1844674407370955162
    · rw [if_pos h1, if_neg (by omega)]
    · rw [if_neg h1]
      by_cases h2 : n * 10 + (c.toNat - 48) < 18446744073709551616
      · have hm : (n * 10 + (c.toNat - 48)) % 18446744073709551616 =
            n * 10 + (c.toNat - 48) := Nat.mod_eq_of_lt h2
        rw [hm, if_neg (by omega)]
        exact ih _ (fun c2 h2 => hall c2 (by simp [h2])) h2
      · rw [if_pos (by omega), if_neg (by omega)]

theorem isDigitChar_ne_sign (c : Char) (h : isDigitChar c) :
    (c == '+') = false ∧ (c == '-') = false := by
  unfold isDigitChar at h
  constructor
  · apply beq_false_of_ne
    intro e
    rw [e] at h
    revert h
    decide
  · apply beq_false_of_ne
    intro e
    rw [e] at h
    revert h
    decide

theorem ParseInt_digits (c : Char) (cs : List Char) (h : ∀ x ∈ c :: cs, isDigitChar x) :
    ParseInt (String.mk (c :: cs)) =
      if decimalFrom 0 (c :: cs) < 9223372036854775808 then
        (((decimalFrom 0 (c :: cs) : Nat) : Int), (none : Option NumError))
      else (9223372036854775807, some .ErrRange) := by
  have hs := isDigitChar_ne_sign c (h c (by simp))
  have hU := parseUintLoop_digits (c :: cs) 0 h (by decide)
  unfold ParseInt
  simp only [hs.1, hs.2, Bool.or_self, Bool.false_eq_true, if_false, ParseUint]
  rw [if_neg (by simp), hU]
  by_cases h1 : decimalFrom 0 (c :: cs) < 18446744073709551616
  · rw [if_pos h1]
    by_cases h2 : decimalFrom 0 (c :: cs) < 9223372036854775808
    · rw [if_pos h2]
      simp [h2]
    · rw [if_neg h2]
      simp only [Bool.not_false, Bool.true_and, decide_eq_true_eq]
      rw [if_pos (by omega)]
  · rw [if_neg h1, if_neg (by omega)]
    simp

theorem ParseInt_minus_digits (c : Char) (cs : List Char) (h : ∀ x ∈ c :: cs, isDigitChar x) :
    ParseInt (String.mk ('-' :: c :: cs)) =
      if decimalFrom 0 (c :: cs) ≤ 9223372036854775808 then
        (-((decimalFrom 0 (c :: cs) : Nat) : Int), (none : Option NumError))
      else (-9223372036854775808, some .ErrRange) := by
  have hU := parseUintLoop_digits (c :: cs) 0 h (by decide)
  have hm : (('-' : Char) == '-') = true := by decide
  unfold ParseInt
  simp only [hm, Bool.or_true, if_true, Bool.not_true, Bool.false_and, Bool.true_and,
    Bool.false_eq_true, if_false, ParseUint]
  rw [if_neg (by simp), hU]
  by_cases h1 : decimalFrom 0 (c :: cs) < 18446744073709551616
  · rw [if_pos h1]
    by_cases h2 : decimalFrom 0 (c :: cs) ≤ 9223372036854775808
    · rw [if_pos h2]
      simp only [decide_eq_true_eq]
      rw [if_neg (by omega)]
    · rw [if_neg h2]
      simp only [decide_eq_true_eq]
      rw [if_pos (by omega)]
  · rw [if_neg h1, if_neg (by omega)]
    simp

theorem ParseInt_error_value (t : String) :
    ((ParseInt t).2 = some .ErrSyntax → (ParseInt t).1 = 0) ∧
    ((ParseInt t).2 = some .ErrRange →
      (ParseInt t).1 = 9223372036854775807 ∨ (ParseInt t).1 = -9223372036854775808) := by
  unfold ParseInt
  split
  · exact ⟨fun _ => rfl, fun h => by simp at h⟩
  · simp only []
    split
    · exact ⟨fun _ => rfl, fun h => by simp at h⟩
    · split
      · exact ⟨fun h => by simp at h, fun _ => Or.inl rfl⟩
      · split
        · exact ⟨fun h => by simp at h, fun _ => Or.inr rfl⟩
        · exact ⟨fun h => by simp at h, fun h => by simp at h⟩

/-- C14 (amended): a record with enough fields is always produced, each numeric field
being the value `ParseInt` returns, the error ignored: 0 when the parser reports a
syntax error (the empty text for one), the integer itself when it accepts the text,
and the nearest bound (2^63 - 1 or -2^63) when it reports a range error, which is
what happens for every string of decimal digits, with or without a minus sign, whose
value lies outside the signed 64-bit range. -/
theorem decode_numeric_fields :
    (∀ (f0 f1 f2 : String) (rest : List String),
      decodeAccount (f0 :: f1 :: f2 :: rest) =
        some ⟨(ParseInt f0).1, f1, (ParseInt f2).1⟩) ∧
    (∀ (f0 f1 f2 f3 f4 : String) (rest : List String),
      decodePayment (f0 :: f1 :: f2 :: f3 :: f4 :: rest) =
        some ⟨f0, (ParseInt f1).1, (ParseInt f2).1, f3, f4⟩) ∧
    (∀ (f0 f1 f2 f3 f4 : String) (rest : List String),
      decodeFavorite (f0 :: f1 :: f2 :: f3 :: f4 :: rest) =
        some ⟨f0, (ParseInt f1).1, f2, (ParseInt f3).1, f4⟩) ∧
    (∀ t : String, (ParseInt t).2 = some .ErrSyntax → (ParseInt t).1 = 0) ∧
    (∀ t : String, (ParseInt t).2 = some .ErrRange →
      (ParseInt t).1 = 9223372036854775807 ∨ (ParseInt t).1 = -9223372036854775808) ∧
    ParseInt "" = (0, some .ErrSyntax) ∧
    ParseInt "12a" = (0, some .ErrSyntax) ∧
    (∀ (c : Char) (cs : List Char), (∀ x ∈ c :: cs, isDigitChar x) →
      (decimalFrom 0 (c :: cs) < 9223372036854775808 →
        ParseInt (String.mk (c :: cs)) = (((decimalFrom 0 (c :: cs) : Nat) : Int), none)) ∧
      (9223372036854775808 ≤ decimalFrom 0 (c :: cs) →
        ParseInt (String.mk (c :: cs)) = (9223372036854775807, some .ErrRange)) ∧
      (decimalFrom 0 (c :: cs) ≤ 9223372036854775808 →
        ParseInt (String.mk ('-' :: c :: cs)) =
          (-((decimalFrom 0 (c :: cs) : Nat) : Int), none)) ∧
      (9223372036854775808 < decimalFrom 0 (c :: cs) →
        ParseInt (String.mk ('-' :: c :: cs)) = (-9223372036854775808, some .ErrRange))) := by
  refine ⟨fun _ _ _ _ => rfl, fun _ _ _ _ _ _ => rfl, fun _ _ _ _ _ _ => rfl,
    fun t => (ParseInt_error_value t).1, fun t => (ParseInt_error_value t).2,
    by decide, by decide, ?_⟩
  intro c cs h
  refine ⟨?_, ?_, ?_, ?_⟩
  · intro h1
    rw [ParseInt_digits c cs h, if_pos h1]
  · intro h1
    rw [ParseInt_digits c cs h, if_neg (by omega)]
  · intro h1
    rw [ParseInt_minus_digits c cs h, if_pos h1]
  · intro h1
    rw [ParseInt_minus_digits c cs h, if_neg (by omega)]

theorem decode_numeric_fields_witness :
    ParseInt (String.mk ['9', '9', '9', '9', '9', '9', '9', '9', '9', '9', '9', '9', '9', '9',
      '9', '9', '9', '9', '9', '9']) = (9223372036854775807, some .ErrRange) :=
  (decode_numeric_fields.2.2.2.2.2.2.2 '9' ['9', '9', '9', '9', '9', '9', '9', '9', '9', '9',
    '9', '9', '9', '9', '9', '9', '9', '9', '9'] (by decide)).2.1 (by decide)

/-- C14 (as stated) fails: the balance field `9223372036854775808`, a digit string one
above the signed 64-bit maximum, is decoded as 9223372036854775807 and not as 0, and the
field `-9223372036854775809` as -9223372036854775808. -/
theorem decode_range_counterexample :
    ImportAccounts (some "1;+992935007339;9223372036854775808\n") ";" "\n" =
      [⟨1, "+992935007339", 9223372036854775807⟩] ∧
    ImportPayments (some "p-1;1;-9223372036854775809;myWorld;OK;\n") ";" "\n" =
      [⟨"p-1", 1, -9223372036854775808, "myWorld", "OK"⟩] ∧
    (9223372036854775807 : Int) ≠ 0 ∧ (-9223372036854775808 : Int) ≠ 0 := by
  decide

/-! ## Legacy single-file import -/

theorem isNumChar_ne_pipe (c : Char) (h : isNumChar c) : c ≠ '|' := by
  rcases h with h | ⟨d, hd, h⟩
  · subst h; decide
  · subst h
    interval_cases d <;> decide

theorem FormatInt_no_pipe (n : Int) : '|' ∉ (FormatInt n).data := by
  intro h
  exact isNumChar_ne_pipe _ (FormatInt_chars n _ h) rfl

theorem Split_pipe (t : String) :
    Split t "|" = (splitGo ['|'] 0 t.data).map String.mk := by
  unfold Split
  rw [if_neg (by decide)]

theorem pipe_data : ("|" : String).data = ['|'] := rfl

theorem ExportToFile_data (s : Service) :
    (ExportToFile s).data = (s.accounts.map (fun a => accountLine a ++ ['|'])).flatten := by
  unfold ExportToFile
  rw [foldl_data _ (fun a => accountLine a ++ ['|'])]
  · rfl
  · intro str a
    simp [String.data_append, accountLine, semicolon_data, pipe_data, List.append_assoc]

theorem decodeAccount_accountLine (a : Account) (hid : isInt64 a.ID) (hbal : isInt64 a.Balance)
    (hp : ';' ∉ a.Phone.data) :
    decodeAccount (Split (String.mk (accountLine a)) ";") = some a := by
  have n1 := FormatInt_no_sep a.ID
  have n2 := FormatInt_no_sep a.Balance
  rw [Split_semicolon]
  simp only [accountLine]
  rw [splitGo_field ';' _ _ n1.1, splitGo_field ';' _ _ hp, splitGo_last ';' _ n2.1]
  simp only [List.map_cons, List.map_nil, decodeAccount]
  have e1 : String.mk (FormatInt a.ID).data = FormatInt a.ID := rfl
  have e2 : String.mk (FormatInt a.Balance).data = FormatInt a.Balance := rfl
  rw [e1, e2, ParseInt_FormatInt _ hid, ParseInt_FormatInt _ hbal]

theorem decode_legacy_chunks (recs : List Account)
    (h : ∀ a ∈ recs, isInt64 a.ID ∧ legacyTextOK a.Phone ∧ isInt64 a.Balance) :
    (Split (String.mk ((recs.map (fun a => accountLine a ++ ['|'])).flatten)) "|").filterMap
      (fun dt => decodeAccount (Split dt ";")) = recs := by
  rw [Split_pipe]
  simp only []
  induction recs with
  | nil =>
    simp only [List.map_nil, List.flatten_nil, splitGo, List.map_cons, List.filterMap_cons]
    have e : String.mk [] = "" := rfl
    have hempty : decodeAccount (Split "" ";") = none := by decide
    rw [e, hempty]
    rfl
  | cons a recs ih =>
    obtain ⟨hid, ⟨hp1, hp2⟩, hbal⟩ := h a (by simp)
    have hline : '|' ∉ accountLine a := by
      simp [accountLine, FormatInt_no_pipe, hp2]
    simp only [List.map_cons, List.flatten_cons, List.append_assoc, List.singleton_append]
    rw [splitGo_field '|' _ _ hline]
    simp only [List.map_cons, List.filterMap_cons, decodeAccount_accountLine a hid hbal hp1]
    rw [ih (fun r2 hr2 => h r2 (by simp [hr2]))]

theorem foldl_importLegacyChunk (chunks : List String) :
    ∀ s : Service, chunks.foldl importLegacyChunk s =
      { nextAccountID := s.nextAccountID,
        accounts := s.accounts ++ chunks.filterMap (fun dt => decodeAccount (Split dt ";")),
        payments := s.payments, favorites := s.favorites } := by
  induction chunks with
  | nil => intro s; simp
  | cons c chunks ih =>
    intro s
    simp only [List.foldl_cons, List.filterMap_cons]
    rw [ih]
    unfold importLegacyChunk
    cases decodeAccount (Split c ";") with
    | none => rfl
    | some a => simp

theorem decodeAccount_isSome (fields : List String) :
    (decodeAccount fields).isSome = true ↔ 3 ≤ fields.length := by
  rcases fields with _ | ⟨f0, _ | ⟨f1, _ | ⟨f2, rest⟩⟩⟩ <;> simp [decodeAccount]

/-- C15: `ImportFromFile` splits the content on `|`, each chunk on `;`, and appends one
account for each chunk with at least three fields to the end of the accounts list,
without looking at the IDs already there; the earlier accounts, the payments, the
favorites and the counter stay as they were. For a store whose phones hold neither `;`
nor `|` (integers being `int64` values), importing the content `ExportToFile` writes
for that store appends a copy of every account, in order, and importing it into the
empty store yields the original accounts. -/
theorem ImportFromFile_spec (s : Service) (content : String) :
    ImportFromFile s content =
      { nextAccountID := s.nextAccountID,
        accounts := s.accounts ++
          (Split content "|").filterMap (fun accountDt => decodeAccount (Split accountDt ";")),
        payments := s.payments, favorites := s.favorites } ∧
    (∀ fields : List String, (decodeAccount fields).isSome = true ↔ 3 ≤ fields.length) ∧
    ((∀ a ∈ s.accounts, isInt64 a.ID ∧ legacyTextOK a.Phone ∧ isInt64 a.Balance) →
      (ImportFromFile s (ExportToFile s)).accounts = s.accounts ++ s.accounts ∧
      (ImportFromFile s (ExportToFile s)).accounts.length = 2 * s.accounts.length ∧
      (ImportFromFile emptyService (ExportToFile s)).accounts = s.accounts) := by
  refine ⟨foldl_importLegacyChunk _ s, decodeAccount_isSome, ?_⟩
  intro h
  have hdec : (Split (ExportToFile s) "|").filterMap
      (fun accountDt => decodeAccount (Split accountDt ";")) = s.accounts := by
    rw [String_eq_mk_data _ _ (ExportToFile_data s)]
    exact decode_legacy_chunks s.accounts h
  have h1 : (ImportFromFile s (ExportToFile s)).accounts = s.accounts ++ s.accounts := by
    unfold ImportFromFile
    rw [foldl_importLegacyChunk, hdec]
  refine ⟨h1, ?_, ?_⟩
  · rw [h1, List.length_append]
    omega
  · unfold ImportFromFile
    rw [foldl_importLegacyChunk, hdec]
    rfl

theorem ImportFromFile_spec_witness :
    (ImportFromFile { nextAccountID := 1, accounts := [⟨1, "+992935007339", 99520⟩],
                      payments := [⟨"p-1", 1, 60, "smart city", "INPROGRESS"⟩],
                      favorites := [] }
      (ExportToFile { nextAccountID := 1, accounts := [⟨1, "+992935007339", 99520⟩],
                      payments := [⟨"p-1", 1, 60, "smart city", "INPROGRESS"⟩],
                      favorites := [] })).accounts =
      [⟨1, "+992935007339", 99520⟩] ++ [⟨1, "+992935007339", 99520⟩] :=
  ((ImportFromFile_spec
    { nextAccountID := 1, accounts := [⟨1, "+992935007339", 99520⟩],
      payments := [⟨"p-1", 1, 60, "smart city", "INPROGRESS"⟩], favorites := [] } "").2.2
    (by decide)).1

/-! ## Import as the merge by ID of the specification -/

theorem lastWithKey_cons {α κ : Type} [DecidableEq κ] (key : α → κ) (k : κ) (r : α)
    (R : List α) :
    lastWithKey key k (r :: R) =
      (lastWithKey key k R).or (if key r = k then some r else none) := by
  unfold lastWithKey
  rw [List.reverse_cons, List.find?_append]
  congr 1
  by_cases h : key r = k <;> simp [h]

theorem lastWithKey_cons_ne {α κ : Type} [DecidableEq κ] (key : α → κ) (k : κ) (r : α)
    (R : List α) (h : key r ≠ k) : lastWithKey key k (r :: R) = lastWithKey key k R := by
  rw [lastWithKey_cons, if_neg h]
  cases lastWithKey key k R <;> rfl

theorem lastWithKey_cons_eq {α κ : Type} [DecidableEq κ] (key : α → κ) (k : κ) (r : α)
    (R : List α) (h : key r = k) :
    lastWithKey key k (r :: R) = some ((lastWithKey key k R).getD r) := by
  rw [lastWithKey_cons, if_pos h]
  cases lastWithKey key k R <;> rfl

theorem lastWithKey_isSome {α κ : Type} [DecidableEq κ] (key : α → κ) (k : κ) (R : List α)
    (h : k ∈ R.map key) : (lastWithKey key k R).isSome = true := by
  unfold lastWithKey
  cases hf : R.reverse.find? (fun r => key r == k) with
  | some x => rfl
  | none =>
    exfalso
    have h2 := (find?_key_none key k R.reverse).mp hf
    apply h2
    simpa using h

theorem mem_firstOccurrences {κ : Type} [DecidableEq κ] (l : List κ) (k : κ)
    (h : k ∈ firstOccurrences l) : k ∈ l := by
  induction l with
  | nil => simp [firstOccurrences] at h
  | cons a l ih =>
    simp only [firstOccurrences, List.mem_cons] at h
    rcases h with h | h
    · simp [h]
    · exact List.mem_cons.mpr (Or.inr (ih (List.mem_filter.mp h).1))

theorem firstOccurrences_filter {κ : Type} [DecidableEq κ] (p : κ → Bool) (l : List κ) :
    firstOccurrences (l.filter p) = (firstOccurrences l).filter p := by
  induction l with
  | nil => rfl
  | cons k ks ih =>
    by_cases hp : p k = true
    · rw [List.filter_cons_of_pos hp]
      simp only [firstOccurrences]
      rw [List.filter_cons_of_pos hp, ih, List.filter_filter, List.filter_filter]
      congr 1
      apply List.filter_congr
      intro x _
      exact Bool.and_comm _ _
    · rw [List.filter_cons_of_neg hp, ih]
      simp only [firstOccurrences]
      rw [List.filter_cons_of_neg hp, List.filter_filter]
      apply List.filter_congr
      intro x _
      by_cases hx : x = k
      · subst hx
        simp [hp]
      · simp [hx]

theorem mem_newKeys {α κ : Type} [DecidableEq κ] (key : α → κ) (L R : List α) (k : κ)
    (h : k ∈ newKeys key L R) : k ∈ R.map key ∧ k ∉ L.map key := by
  have h2 := List.mem_filter.mp (mem_firstOccurrences _ k h)
  exact ⟨h2.1, by simpa using h2.2⟩

theorem newKeys_cons_present {α κ : Type} [DecidableEq κ] (key : α → κ) (L R : List α) (r : α)
    (hk : key r ∈ L.map key) : newKeys key L (r :: R) = newKeys key L R := by
  unfold newKeys
  rw [List.map_cons, List.filter_cons_of_neg]
  simpa using hk

theorem newKeys_cons_absent {α κ : Type} [DecidableEq κ] (key : α → κ) (L R : List α) (r : α)
    (hk : key r ∉ L.map key) :
    newKeys key L (r :: R) =
      key r :: (newKeys key L R).filter (fun x => decide (x ≠ key r)) := by
  unfold newKeys
  rw [List.map_cons, List.filter_cons_of_pos]
  · rfl
  · simpa using hk

theorem newKeys_append_singleton {α κ : Type} [DecidableEq κ] (key : α → κ) (L R : List α)
    (r : α) :
    newKeys key (L ++ [r]) R = (newKeys key L R).filter (fun x => decide (x ≠ key r)) := by
  unfold newKeys
  rw [← firstOccurrences_filter, List.filter_filter]
  congr 1
  apply List.filter_congr
  intro x _
  simp only [List.map_append, List.map_cons, List.map_nil, List.mem_append,
    List.mem_singleton, not_or, Bool.decide_and]
  exact Bool.and_comm _ _

theorem filterMap_congr_mem {α β : Type} (f g : α → Option β) (l : List α)
    (h : ∀ x ∈ l, f x = g x) : l.filterMap f = l.filterMap g := by
  induction l with
  | nil => rfl
  | cons x xs ih =>
    simp only [List.filterMap_cons, h x (by simp), ih (fun y hy => h y (by simp [hy]))]

theorem filterMap_length_of_isSome {α β : Type} (f : α → Option β) (l : List α)
    (h : ∀ x ∈ l, (f x).isSome = true) : (l.filterMap f).length = l.length := by
  induction l with
  | nil => rfl
  | cons x xs ih =>
    have hx := h x (by simp)
    cases hf : f x with
    | none => rw [hf] at hx; cases hx
    | some y =>
      simp only [List.filterMap_cons, hf, List.length_cons,
        ih (fun z hz => h z (by simp [hz]))]

theorem map_last_modifyFirst {α κ : Type} [DecidableEq κ] (key : α → κ) (r : α) (R : List α)
    (L : List α) (hnd : (L.map key).Nodup) :
    (modifyFirst (fun x => key x == key r) (fun _ => r) L).map
        (fun x => (lastWithKey key (key x) R).getD x) =
      L.map (fun x => (lastWithKey key (key x) (r :: R)).getD x) := by
  induction L with
  | nil => rfl
  | cons x xs ih =>
    simp only [List.map_cons, List.nodup_cons] at hnd
    by_cases h : key x = key r
    · have hm : modifyFirst (fun x => key x == key r) (fun _ => r) (x :: xs) = r :: xs := by
        simp [modifyFirst, h]
      rw [hm]
      simp only [List.map_cons]
      rw [lastWithKey_cons_eq key (key x) r R h.symm, ← h]
      simp only [Option.getD_some, List.cons.injEq, true_and]
      apply List.map_congr_left
      intro y hy
      have hne : key r ≠ key y := by
        intro e
        apply hnd.1
        rw [h, e]
        exact List.mem_map.mpr ⟨y, hy, rfl⟩
      rw [lastWithKey_cons_ne key (key y) r R hne]
    · have hm : modifyFirst (fun x => key x == key r) (fun _ => r) (x :: xs) =
          x :: modifyFirst (fun x => key x == key r) (fun _ => r) xs := by
        simp [modifyFirst, h]
      rw [hm]
      simp only [List.map_cons]
      rw [ih hnd.2, lastWithKey_cons_ne key (key x) r R (fun e => h e.symm)]

/-- The import loop computes the merge by ID of the specification. -/
theorem foldl_upsert_eq_mergeByID {α κ : Type} [DecidableEq κ] (key : α → κ) (R : List α) :
    ∀ L : List α, (L.map key).Nodup → R.foldl (upsert key) L = mergeByID key L R := by
  induction R with
  | nil =>
    intro L _
    simp [mergeByID, lastWithKey, newKeys, firstOccurrences]
  | cons r R ih =>
    intro L hnd
    simp only [List.foldl_cons]
    rw [ih _ (upsert_nodup key L r hnd)]
    by_cases hk : key r ∈ L.map key
    · rw [upsert_present key L r hk]
      unfold mergeByID
      rw [map_last_modifyFirst key r R L hnd, newKeys_cons_present key L R r hk]
      have hkeys : newKeys key (modifyFirst (fun x => key x == key r) (fun _ => r) L) R =
          newKeys key L R := by
        unfold newKeys
        rw [modifyFirst_keys]
      rw [hkeys]
      congr 1
      apply filterMap_congr_mem
      intro k hk2
      have hne : key r ≠ k := by
        intro e
        exact (mem_newKeys key L R k hk2).2 (e ▸ hk)
      rw [lastWithKey_cons_ne key k r R hne]
    · rw [upsert_absent key L r hk]
      unfold mergeByID
      rw [newKeys_append_singleton, newKeys_cons_absent key L R r hk]
      simp only [List.map_append, List.map_cons, List.map_nil, List.filterMap_cons,
        lastWithKey_cons_eq key (key r) r R rfl, List.append_assoc, List.singleton_append]
      have hmap : L.map (fun x => (lastWithKey key (key x) R).getD x) =
          L.map (fun x => (lastWithKey key (key x) (r :: R)).getD x) := by
        apply List.map_congr_left
        intro x hx
        have hne : key r ≠ key x := fun e => hk (e ▸ List.mem_map.mpr ⟨x, hx, rfl⟩)
        rw [lastWithKey_cons_ne key (key x) r R hne]
      rw [hmap]
      congr 2
      apply filterMap_congr_mem
      intro k hk2
      have hne : key r ≠ k := by
        intro e
        have := (List.mem_filter.mp hk2).2
        simp [e] at this
      rw [lastWithKey_cons_ne key k r R hne]

theorem mergeByID_length {α κ : Type} [DecidableEq κ] (key : α → κ) (L R : List α) :
    (mergeByID key L R).length = L.length + (newKeys key L R).length := by
  unfold mergeByID
  rw [List.length_append, List.length_map, filterMap_length_of_isSome]
  intro k hk
  exact lastWithKey_isSome key k R (mem_newKeys key L R k hk).1

theorem upsert_length_present {α κ : Type} [DecidableEq κ] (key : α → κ) (l : List α) (r : α)
    (h : key r ∈ l.map key) : (upsert key l r).length = l.length := by
  have h1 := congrArg List.length (show (upsert key l r).map key = l.map key by
    rw [upsert_present key l r h, modifyFirst_keys])
  simpa using h1

theorem upsert_length_absent {α κ : Type} [DecidableEq κ] (key : α → κ) (l : List α) (r : α)
    (h : key r ∉ l.map key) : (upsert key l r).length = l.length + 1 := by
  rw [upsert_absent key l r h]
  simp

theorem foldl_upsert_length_le {α κ : Type} [DecidableEq κ] (key : α → κ) (R : List α) :
    ∀ l : List α, l.length ≤ (R.foldl (upsert key) l).length := by
  induction R with
  | nil => intro l; exact Nat.le_refl _
  | cons r R ih =>
    intro l
    have h1 := ih (upsert key l r)
    simp only [List.foldl_cons]
    by_cases hk : key r ∈ l.map key
    · rw [upsert_length_present key l r hk] at h1
      exact h1
    · rw [upsert_length_absent key l r hk] at h1
      omega

theorem foldl_importAccount_counter (R : List Account) :
    ∀ s : Service, isInt64 s.nextAccountID →
      s.nextAccountID +
          (((R.foldl (upsert Account.ID) s.accounts).length : Int) - (s.accounts.length : Int)) ≤
        9223372036854775807 →
      (R.foldl importAccount s).nextAccountID =
        s.nextAccountID +
          (((R.foldl (upsert Account.ID) s.accounts).length : Int) - (s.accounts.length : Int)) := by
  induction R with
  | nil =>
    intro s _ _
    simp
  | cons r R ih =>
    intro s hc hmax
    obtain ⟨h1, _, _, h4, h5⟩ := importAccount_fields s r
    simp only [List.foldl_cons] at hmax ⊢
    have hle := foldl_upsert_length_le Account.ID R (upsert Account.ID s.accounts r)
    unfold isInt64 at hc
    by_cases hk : r.ID ∈ s.accounts.map Account.ID
    · have hlen := upsert_length_present Account.ID s.accounts r hk
      have ih2 := ih (importAccount s r)
      rw [h1, h4 hk, hlen] at ih2
      exact ih2 (by unfold isInt64; omega) hmax
    · have hlen := upsert_length_absent Account.ID s.accounts r hk
      have hw : wrap64 (s.nextAccountID + 1) = s.nextAccountID + 1 := by
        apply wrap64_of_isInt64
        unfold isInt64
        omega
      have ih2 := ih (importAccount s r)
      rw [h1, h5 hk, hw, hlen] at ih2
      have ih3 := ih2 (by unfold isInt64; omega) (by push_cast; omega)
      rw [ih3]
      push_cast
      omega

/-- C12: for a store whose account IDs, payment IDs and favorite IDs are each pairwise
distinct and every list `R` of decoded records of one kind, the import loop leaves the
merge by ID of the store with `R`: stored records whose ID is not in `R` unchanged in
place, stored records whose ID is in `R` equal in place to the last record of `R` with
that ID, then the new IDs of `R` once each in order of first occurrence with the last
record carrying them; the counter grows by the number of new account IDs (the sum
being within the `int64` range, as it is in every store reached from the empty store
when the accounts after the import fit a slice) and is not changed by payment or
favorite records; and `Import` does this with the records decoded from the three
files. -/
theorem Import_merges_by_ID (s : Service)
    (hA : (s.accounts.map Account.ID).Nodup) (hP : (s.payments.map Payment.ID).Nodup)
    (hF : (s.favorites.map Favorite.ID).Nodup) :
    (∀ R : List Account,
      (R.foldl importAccount s).accounts = mergeByID Account.ID s.accounts R ∧
      (R.foldl importAccount s).payments = s.payments ∧
      (R.foldl importAccount s).favorites = s.favorites ∧
      (isInt64 s.nextAccountID →
        s.nextAccountID + ((newKeys Account.ID s.accounts R).length : Int) ≤
          9223372036854775807 →
        (R.foldl importAccount s).nextAccountID =
          s.nextAccountID + ((newKeys Account.ID s.accounts R).length : Int))) ∧
    (∀ R : List Payment,
      (R.foldl importPayment s).payments = mergeByID Payment.ID s.payments R ∧
      (R.foldl importPayment s).accounts = s.accounts ∧
      (R.foldl importPayment s).favorites = s.favorites ∧
      (R.foldl importPayment s).nextAccountID = s.nextAccountID) ∧
    (∀ R : List Favorite,
      (R.foldl importFavorite s).favorites = mergeByID Favorite.ID s.favorites R ∧
      (R.foldl importFavorite s).accounts = s.accounts ∧
      (R.foldl importFavorite s).payments = s.payments ∧
      (R.foldl importFavorite s).nextAccountID = s.nextAccountID) ∧
    (∀ dir : Dir,
      (Import s dir).accounts =
        mergeByID Account.ID s.accounts (ImportAccounts dir.accounts ";" "\n") ∧
      (Import s dir).payments =
        mergeByID Payment.ID s.payments (ImportPayments dir.payments ";" "\n") ∧
      (Import s dir).favorites =
        mergeByID Favorite.ID s.favorites (ImportFavorites dir.favorites ";" "\n") ∧
      (isInt64 s.nextAccountID →
        s.nextAccountID +
            ((newKeys Account.ID s.accounts (ImportAccounts dir.accounts ";" "\n")).length : Int) ≤
          9223372036854775807 →
        (Import s dir).nextAccountID =
          s.nextAccountID +
            ((newKeys Account.ID s.accounts
              (ImportAccounts dir.accounts ";" "\n")).length : Int))) ∧
    (∀ (ops : List Op) (dir : Dir), s = run emptyService ops →
      ((Import s dir).accounts.length : Int) ≤ 9223372036854775807 →
      (Import s dir).nextAccountID =
        s.nextAccountID +
          ((newKeys Account.ID s.accounts
            (ImportAccounts dir.accounts ";" "\n")).length : Int)) := by
  have hcount : ∀ R : List Account, isInt64 s.nextAccountID →
      s.nextAccountID + ((newKeys Account.ID s.accounts R).length : Int) ≤
        9223372036854775807 →
      (R.foldl importAccount s).nextAccountID =
        s.nextAccountID + ((newKeys Account.ID s.accounts R).length : Int) := by
    intro R hc hmax
    have hlen : ((R.foldl (upsert Account.ID) s.accounts).length : Int) -
        (s.accounts.length : Int) = ((newKeys Account.ID s.accounts R).length : Int) := by
      rw [foldl_upsert_eq_mergeByID Account.ID R s.accounts hA, mergeByID_length]
      push_cast
      omega
    have h := foldl_importAccount_counter R s hc (by rw [hlen]; exact hmax)
    rw [hlen] at h
    exact h
  refine ⟨?_, ?_, ?_, ?_, ?_⟩
  · intro R
    obtain ⟨a1, a2, a3, _⟩ := foldl_importAccount_fields R s
    exact ⟨by rw [a1, foldl_upsert_eq_mergeByID Account.ID R s.accounts hA], a2, a3, hcount R⟩
  · intro R
    obtain ⟨p1, p2, p3, p4⟩ := foldl_importPayment_fields R s
    exact ⟨by rw [p1, foldl_upsert_eq_mergeByID Payment.ID R s.payments hP], p2, p3, p4⟩
  · intro R
    obtain ⟨f1, f2, f3, f4⟩ := foldl_importFavorite_fields R s
    exact ⟨by rw [f1, foldl_upsert_eq_mergeByID Favorite.ID R s.favorites hF], f2, f3, f4⟩
  · intro dir
    obtain ⟨g1, g2, g3, g4⟩ := Import_fields s dir
    refine ⟨?_, ?_, ?_, ?_⟩
    · rw [g1, foldl_upsert_eq_mergeByID Account.ID _ s.accounts hA]
    · rw [g2, foldl_upsert_eq_mergeByID Payment.ID _ s.payments hP]
    · rw [g3, foldl_upsert_eq_mergeByID Favorite.ID _ s.favorites hF]
    · intro hc hmax
      rw [g4]
      exact hcount _ hc hmax
  · intro ops dir hs hlen
    have hb : counterBounded s := hs ▸ counter_le_length ops
    obtain ⟨g1, _, _, g4⟩ := Import_fields s dir
    have hl : (Import s dir).accounts.length = s.accounts.length +
        (newKeys Account.ID s.accounts (ImportAccounts dir.accounts ";" "\n")).length := by
      rw [g1, foldl_upsert_eq_mergeByID Account.ID _ s.accounts hA, mergeByID_length]
    rw [hl] at hlen
    push_cast at hlen
    obtain ⟨c0, c1⟩ := hb (by omega)
    rw [g4]
    exact hcount _ (by unfold isInt64; omega) (by omega)

theorem Import_merges_by_ID_witness :
    (Import { nextAccountID := 2,
              accounts := [⟨1, "+992935007339", 100⟩, ⟨2, "+992935007340", 70⟩],
              payments := [], favorites := [] }
        ⟨some "2;+1;5\n7;+2;6\n2;+3;8\n7;+4;9\n", none, none⟩).accounts =
      mergeByID Account.ID [⟨1, "+992935007339", 100⟩, ⟨2, "+992935007340", 70⟩]
        (ImportAccounts (some "2;+1;5\n7;+2;6\n2;+3;8\n7;+4;9\n") ";" "\n") ∧
    mergeByID Account.ID [⟨1, "+992935007339", 100⟩, ⟨2, "+992935007340", 70⟩]
        (ImportAccounts (some "2;+1;5\n7;+2;6\n2;+3;8\n7;+4;9\n") ";" "\n") =
      [⟨1, "+992935007339", 100⟩, ⟨2, "+3", 8⟩, ⟨7, "+4", 9⟩] :=
  ⟨((Import_merges_by_ID
      { nextAccountID := 2,
        accounts := [⟨1, "+992935007339", 100⟩, ⟨2, "+992935007340", 70⟩],
        payments := [], favorites := [] }
      (by decide) (by decide) (by decide)).2.2.2.1
      ⟨some "2;+1;5\n7;+2;6\n2;+3;8\n7;+4;9\n", none, none⟩).1, by decide⟩

/-! ## Amounts of created payments -/

/-- C16 (amended): every successful `Pay` creates a payment whose Amount is the amount
passed and is at least 0, appended last to the payments; `Pay` with a negative amount
returns AmountMustBePositive and creates no payment; so the payment a successful
`Repeat` or `PayFromFavorite` creates has Amount at least 0 as well. -/
theorem Pay_amount_nonnegative (s : Service) (uuid : String) (accountID amount : Int)
    (category : String) :
    (∀ p : Payment, (Pay s uuid accountID amount category).1 = .ok p →
      0 ≤ p.Amount ∧ p.Amount = amount ∧
      (Pay s uuid accountID amount category).2.payments = s.payments ++ [p]) ∧
    (amount < 0 →
      Pay s uuid accountID amount category = (.error .ErrAmountMustBePositive, s)) ∧
    (∀ (paymentID : String) (p : Payment), (Repeat s uuid paymentID).1 = .ok p →
      0 ≤ p.Amount ∧ (Repeat s uuid paymentID).2.payments = s.payments ++ [p]) ∧
    (∀ (favoriteID : String) (p : Payment), (PayFromFavorite s uuid favoriteID).1 = .ok p →
      0 ≤ p.Amount ∧ (PayFromFavorite s uuid favoriteID).2.payments = s.payments ++ [p]) := by
  have hpay : ∀ (accountID amount : Int) (category : String) (p : Payment),
      (PayR wrap64 s uuid accountID amount category).1 = .ok p →
      0 ≤ p.Amount ∧ p.Amount = amount ∧
      (PayR wrap64 s uuid accountID amount category).2.payments = s.payments ++ [p] := by
    intro accountID amount category p hp
    rcases PayR_cases wrap64 s uuid accountID amount category with
      ⟨_, e | ⟨e, _⟩ | e⟩ | ⟨pre, acc, post, _, _, h0, _, e⟩
    · rw [e] at hp; cases hp
    · rw [e] at hp; cases hp
    · rw [e] at hp; cases hp
    · rw [e] at hp ⊢
      simp only [Except.ok.injEq] at hp
      subst hp
      exact ⟨h0, rfl, rfl⟩
  refine ⟨?_, ?_, ?_, ?_⟩
  · intro p hp
    rw [Pay_eq_PayR] at hp ⊢
    exact hpay accountID amount category p hp
  · intro h
    rw [Pay_eq_PayR]
    exact PayR_negative wrap64 s uuid accountID amount category h
  · intro paymentID p hp
    rw [Repeat_eq_RepeatR, RepeatR_eq] at hp ⊢
    rcases FindPaymentByID_cases s paymentID with ⟨e, _⟩ | ⟨q, e, _, _⟩
    · rw [e] at hp
      cases hp
    · rw [e] at hp ⊢
      simp only [] at hp ⊢
      have h := hpay q.AccountID q.Amount q.Category p hp
      exact ⟨h.1, h.2.2⟩
  · intro favoriteID p hp
    rw [PayFromFavorite_eq_PayFromFavoriteR, PayFromFavoriteR_eq] at hp ⊢
    rcases FindFavoriteByID_cases s favoriteID with ⟨e, _⟩ | ⟨f, e, _, _⟩
    · rw [e] at hp
      cases hp
    · rw [e] at hp ⊢
      simp only [] at hp ⊢
      have h := hpay f.AccountID f.Amount f.Category p hp
      exact ⟨h.1, h.2.2⟩

theorem Pay_amount_nonnegative_witness :
    (0 : Int) ≤ (⟨"p-2", 2, 50, "myWorld", "INPROGRESS"⟩ : Payment).Amount ∧
    (⟨"p-2", 2, 50, "myWorld", "INPROGRESS"⟩ : Payment).Amount = 50 ∧
    (Pay { nextAccountID := 2,
           accounts := [⟨1, "+992935007339", 100⟩, ⟨2, "+992935007340", 70⟩],
           payments := [⟨"p-1", 1, 60, "myWorld", "FAIL"⟩], favorites := [] }
        "p-2" 2 50 "myWorld").2.payments =
      [⟨"p-1", 1, 60, "myWorld", "FAIL"⟩] ++ [⟨"p-2", 2, 50, "myWorld", "INPROGRESS"⟩] :=
  (Pay_amount_nonnegative
    { nextAccountID := 2,
      accounts := [⟨1, "+992935007339", 100⟩, ⟨2, "+992935007340", 70⟩],
      payments := [⟨"p-1", 1, 60, "myWorld", "FAIL"⟩], favorites := [] }
    "p-2" 2 50 "myWorld").1 ⟨"p-2", 2, 50, "myWorld", "INPROGRESS"⟩ (by decide)

end Wallet
